import Mathlib

/-!
Verification development for the QUIC transport core of the AgentLinkCoro
repository (`src/base/net/quic/`).  The C++ sources are shallowly embedded:
pure functions become Lean functions, mutable objects become explicit state
records, `uint64_t` arithmetic is `Nat` with explicit `% 2^64` wherever the
source can wrap, and byte buffers (`MBuffer`) are `List Nat` of byte values.
Each section names the C++ entity it embeds.
-/

namespace AgentLink
namespace Quic

/-- `2^64`, the modulus of `uint64_t` arithmetic. -/
def W64 : Nat := 2 ^ 64

/-- `~0ull`, the value of `QuicPacketNumber(~0ull)` used as the initial
`m_largest_sent` in `SentPacketHandler::PacketNumberSpace`. -/
def U64MAX : Nat := W64 - 1

/-! ### Variable-length integers

Modelled from the spec: `MBuffer::var_encode` / `read_varint` /
`MBuffer::var_size` live in `src/base/mbuffer.h`, which is not part of the
provided sources; spec §4.1 defines them: the top two bits of the first byte
select a 1-, 2-, 4- or 8-byte encoding, the remaining bits form a big-endian
unsigned integer, the encoder picks the smallest encoding that fits, and the
decoder fails (`ShortBuffer`) when fewer bytes remain than the prefix
requires. -/

/-- `k` big-endian bytes of `n` (low `8k` bits). -/
def beBytes : Nat → Nat → List Nat
  | 0, _ => []
  | k + 1, n => beBytes k (n / 256) ++ [n % 256]

/-- Value of a big-endian byte list. -/
def beVal (l : List Nat) : Nat := l.foldl (fun a b => a * 256 + b) 0

/-- `MBuffer::var_size` (modelled from the spec): length in bytes of the
smallest variable-length-integer encoding of `n`. -/
def var_size (n : Nat) : Nat :=
  if n < 2 ^ 6 then 1
  else if n < 2 ^ 14 then 2
  else if n < 2 ^ 30 then 4
  else 8

/-- `MBuffer::var_encode` (modelled from the spec): the two-bit length prefix
is folded into the top bits of the first byte. -/
def var_encode (n : Nat) : List Nat :=
  if n < 2 ^ 6 then beBytes 1 n
  else if n < 2 ^ 14 then beBytes 2 (1 * 2 ^ 14 + n)
  else if n < 2 ^ 30 then beBytes 4 (2 * 2 ^ 30 + n)
  else beBytes 8 (3 * 2 ^ 62 + n % 2 ^ 62)

/-- `read_varint` (modelled from the spec): returns the decoded value, the
number of bytes consumed, and the remaining bytes, or `none` on
`ShortBuffer`. -/
def read_varint (l : List Nat) : Option (Nat × Nat × List Nat) :=
  match l with
  | [] => none
  | b :: _ =>
    let len := 2 ^ (b / 64)
    if l.length < len then none
    else some ((beVal (l.take len)) % 2 ^ (8 * len - 2), len, l.drop len)

theorem beVal_append (l₁ l₂ : List Nat) :
    beVal (l₁ ++ l₂) = beVal l₁ * 256 ^ l₂.length + beVal l₂ := by
  induction l₂ using List.reverseRecOn with
  | nil => simp [beVal]
  | append_singleton l b ih =>
      simp only [beVal, List.foldl_append, List.foldl_cons, List.foldl_nil, ← List.append_assoc]
        at *
      rw [ih]; ring_nf
      simp [pow_succ]; ring

theorem beBytes_length (k n : Nat) : (beBytes k n).length = k := by
  induction k generalizing n with
  | zero => rfl
  | succ k ih => simp [beBytes, ih]

theorem beVal_beBytes (k n : Nat) (h : n < 256 ^ k) : beVal (beBytes k n) = n := by
  induction k generalizing n with
  | zero => simp [beBytes, beVal]; omega
  | succ k ih =>
      have hdiv : n / 256 < 256 ^ k := by
        rw [Nat.div_lt_iff_lt_mul (by norm_num)]
        calc n < 256 ^ (k + 1) := h
        _ = 256 ^ k * 256 := by ring
      rw [beBytes, beVal_append, ih _ hdiv]
      simp [beVal]
      omega

theorem beBytes_cons (k n : Nat) :
    beBytes (k + 1) n = n / 256 ^ k % 256 :: beBytes k n := by
  induction k generalizing n with
  | zero => simp [beBytes]
  | succ k ih =>
      have h1 : beBytes (k + 2) n = beBytes (k + 1) (n / 256) ++ [n % 256] := rfl
      rw [h1, ih (n / 256), Nat.div_div_eq_div_mul]
      have h2 : beBytes (k + 1) n = beBytes k (n / 256) ++ [n % 256] := rfl
      rw [h2, ← List.cons_append]
      congr 2
      rw [pow_succ]; ring_nf

theorem beBytes_mod (k n : Nat) : beBytes k (n % 256 ^ k) = beBytes k n := by
  induction k generalizing n with
  | zero => rfl
  | succ k ih =>
      show beBytes k (n % 256 ^ (k + 1) / 256) ++ [n % 256 ^ (k + 1) % 256]
        = beBytes k (n / 256) ++ [n % 256]
      have h1 : n % 256 ^ (k + 1) % 256 = n % 256 := by
        rw [Nat.mod_mod_of_dvd]
        exact dvd_pow_self 256 (Nat.succ_ne_zero k)
      have h2 : n % 256 ^ (k + 1) / 256 = n / 256 % 256 ^ k := by
        rw [pow_succ, mul_comm, Nat.mod_mul_right_div_self]
      rw [h1, h2, ih]

theorem read_varint_head (b : Nat) (tl : List Nat) (k : Nat) (hk : 2 ^ (b / 64) = k)
    (hlen : ¬ (b :: tl).length < k) :
    read_varint (b :: tl) = some (beVal ((b :: tl).take k) % 2 ^ (8 * k - 2), k,
      (b :: tl).drop k) := by
  rw [read_varint, hk, if_neg hlen]

/-- The decoder inverts the encoder on any value below `2^62` and consumes
exactly `var_size n` bytes (spec §8: "Variable-length integer"). -/
theorem read_varint_var_encode (n : Nat) (hn : n < 2 ^ 62) (rest : List Nat) :
    read_varint (var_encode n ++ rest) = some (n, var_size n, rest) := by
  by_cases h1 : n < 2 ^ 6
  · have he : var_encode n = [n] := by
      rw [var_encode, if_pos h1, show (1 : Nat) = 0 + 1 from rfl, beBytes_cons]
      rw [show n / 256 ^ 0 % 256 = n from by omega]
      rfl
    rw [he, var_size, if_pos h1]
    show read_varint (n :: rest) = _
    rw [read_varint_head n rest 1 (by rw [show n / 64 = 0 from by omega]; norm_num) (by simp)]
    show some (beVal [n] % 2 ^ 6, 1, rest) = _
    simp only [beVal, List.foldl, Option.some.injEq, Prod.mk.injEq]
    norm_num
    all_goals omega
  · by_cases h2 : n < 2 ^ 14
    · have he : var_encode n
          = [(16384 + n) / 256 % 256, (16384 + n) % 256] := by
        simp only [var_encode, if_neg h1, if_pos h2]
        rw [show 1 * 2 ^ 14 + n = 16384 + n from by norm_num,
          show (2 : Nat) = 1 + 1 from rfl, beBytes_cons]
        simp [beBytes]
      rw [he, var_size, if_neg h1, if_pos h2]
      show read_varint ((16384 + n) / 256 % 256 :: (16384 + n) % 256 :: rest) = _
      rw [read_varint_head _ _ 2
        (by rw [show (16384 + n) / 256 % 256 / 64 = 1 from by omega]; norm_num)
        (by simp)]
      show some (beVal [(16384 + n) / 256 % 256, (16384 + n) % 256] % 2 ^ 14, 2, rest) = _
      simp only [beVal, List.foldl, Option.some.injEq, Prod.mk.injEq]
      norm_num
      all_goals omega
    · by_cases h3 : n < 2 ^ 30
      · have he : var_encode n
            = [(2147483648 + n) / 16777216 % 256, (2147483648 + n) / 65536 % 256,
               (2147483648 + n) / 256 % 256, (2147483648 + n) % 256] := by
          simp only [var_encode, if_neg h1, if_neg h2, if_pos h3]
          rw [show 2 * 2 ^ 30 + n = 2147483648 + n from by norm_num,
            show (4 : Nat) = 3 + 1 from rfl, beBytes_cons,
            show (3 : Nat) = 2 + 1 from rfl, beBytes_cons,
            show (2 : Nat) = 1 + 1 from rfl, beBytes_cons]
          simp [beBytes]
        rw [he, var_size, if_neg h1, if_neg h2, if_pos h3]
        show read_varint ((2147483648 + n) / 16777216 % 256 :: (2147483648 + n) / 65536 % 256
          :: (2147483648 + n) / 256 % 256 :: (2147483648 + n) % 256 :: rest) = _
        rw [read_varint_head _ _ 4
          (by rw [show (2147483648 + n) / 16777216 % 256 / 64 = 2 from by omega]; norm_num)
          (by simp)]
        show some (beVal [(2147483648 + n) / 16777216 % 256, (2147483648 + n) / 65536 % 256,
          (2147483648 + n) / 256 % 256, (2147483648 + n) % 256] % 2 ^ 30, 4, rest) = _
        simp only [beVal, List.foldl, Option.some.injEq, Prod.mk.injEq]
        norm_num
        all_goals omega
      · have he : var_encode n
            = [(13835058055282163712 + n) / 72057594037927936 % 256,
               (13835058055282163712 + n) / 281474976710656 % 256,
               (13835058055282163712 + n) / 1099511627776 % 256,
               (13835058055282163712 + n) / 4294967296 % 256,
               (13835058055282163712 + n) / 16777216 % 256,
               (13835058055282163712 + n) / 65536 % 256,
               (13835058055282163712 + n) / 256 % 256,
               (13835058055282163712 + n) % 256] := by
          simp only [var_encode, if_neg h1, if_neg h2, if_neg h3]
          rw [show 3 * 2 ^ 62 + n % 2 ^ 62 = 13835058055282163712 + n from by omega,
            show (8 : Nat) = 7 + 1 from rfl, beBytes_cons,
            show (7 : Nat) = 6 + 1 from rfl, beBytes_cons,
            show (6 : Nat) = 5 + 1 from rfl, beBytes_cons,
            show (5 : Nat) = 4 + 1 from rfl, beBytes_cons,
            show (4 : Nat) = 3 + 1 from rfl, beBytes_cons,
            show (3 : Nat) = 2 + 1 from rfl, beBytes_cons,
            show (2 : Nat) = 1 + 1 from rfl, beBytes_cons]
          simp [beBytes]
        rw [he, var_size, if_neg h1, if_neg h2, if_neg h3]
        show read_varint ((13835058055282163712 + n) / 72057594037927936 % 256
          :: (13835058055282163712 + n) / 281474976710656 % 256
          :: (13835058055282163712 + n) / 1099511627776 % 256
          :: (13835058055282163712 + n) / 4294967296 % 256
          :: (13835058055282163712 + n) / 16777216 % 256
          :: (13835058055282163712 + n) / 65536 % 256
          :: (13835058055282163712 + n) / 256 % 256
          :: (13835058055282163712 + n) % 256 :: rest) = _
        rw [read_varint_head _ _ 8
          (by rw [show (13835058055282163712 + n) / 72057594037927936 % 256 / 64 = 3 from
            by omega]; norm_num)
          (by simp)]
        show some (beVal [(13835058055282163712 + n) / 72057594037927936 % 256,
          (13835058055282163712 + n) / 281474976710656 % 256,
          (13835058055282163712 + n) / 1099511627776 % 256,
          (13835058055282163712 + n) / 4294967296 % 256,
          (13835058055282163712 + n) / 16777216 % 256,
          (13835058055282163712 + n) / 65536 % 256,
          (13835058055282163712 + n) / 256 % 256,
          (13835058055282163712 + n) % 256] % 2 ^ 62, 8, rest) = _
        simp only [beVal, List.foldl, Option.some.injEq, Prod.mk.injEq]
        norm_num
        all_goals omega

/-! ### Frame model (`quic_frame.h` / `quic_frame.cc`)

Each C++ frame class becomes a structure holding exactly the fields its
`writeTo` / `readFrom` pair exchanges; the cached `m_size` and the `m_valid`
flag, which are computed during serialisation/parsing, are not part of the
model.  Byte tags are the `QuicFrameType` enum values, which the dispatch
in `QuicFrameCodec::parseFrame` fixes (`quic_frame.cc:2564-2778`). -/

/-- `QuicStreamFrame`.  `m_has_offset_field` and `m_has_length_field` default
to `true` in the class and are cleared only by `readTypeByte`. -/
structure StreamFrame where
  stream_id : Nat
  offset : Nat
  data : List Nat
  has_fin : Bool
  has_offset_field : Bool
  has_length_field : Bool
deriving DecidableEq, Repr

/-- `QuicCryptoFrame`. -/
structure CryptoFrame where
  offset : Nat
  data : List Nat
deriving DecidableEq, Repr

/-- `AckRange` (declared in `quic_utils.h`, used throughout
`quic_frame.cc`): a closed packet-number interval `[smallest, largest]`. -/
structure AckRange where
  smallest : Nat
  largest : Nat
deriving DecidableEq, Repr

/-- `QuicAckFrame::EcnSection` (the three ECN counters). -/
structure EcnSection where
  ect0 : Nat
  ect1 : Nat
  ecn_ce : Nat
deriving DecidableEq, Repr

/-- `QuicAckFrame`: `m_ack_ranges` is ordered largest-first, so
`largestAcked = ranges.head.largest`. -/
structure AckFrame where
  ranges : List AckRange
  ack_delay : Nat
  has_ecn : Bool
  ecn : Option EcnSection
deriving DecidableEq, Repr

/-- `QuicRstStreamFrame`. -/
structure RstStreamFrame where
  stream_id : Nat
  final_offset : Nat
  error_code : Nat
deriving DecidableEq, Repr

/-- `QuicConnectionCloseFrame`.  `m_frame_type` is carried as its numeric
enum value. -/
structure ConnectionCloseFrame where
  error_code : Nat
  frame_type : Nat
  reason_phrase_len : Nat
  reason_phrase : List Nat
  is_application_error : Bool
deriving DecidableEq, Repr

/-- `QuicMaxStreamsFrame`.  `writeTo` always emits tag `0x12` and
`readFrom` never assigns `m_type`, so after a parse the sub-kind is the
indeterminate value of an uninitialised member; `none` models that
indeterminate state, `some b` a constructor-set value (`b = true` for
bidirectional). -/
structure MaxStreamsFrame where
  stype : Option Bool
  maximum_streams : Nat
deriving DecidableEq, Repr

/-- `QuicStreamsBlockedFrame`; `stype = true` means bidirectional
(`QuicStreamTypeBidi`, tag `0x16`). -/
structure StreamsBlockedFrame where
  stype : Bool
  stream_limit : Nat
deriving DecidableEq, Repr

/-- `QuicNewConnectionIdFrame`. -/
structure NewConnectionIdFrame where
  sequence : Nat
  retire_prior_to : Nat
  connection_id : List Nat
  stateless_reset_token : List Nat
deriving DecidableEq, Repr

/-- `QuicNewTokenFrame`: `m_token_len` is a separate field from the token
bytes, written as the length varint. -/
structure NewTokenFrame where
  token : List Nat
  token_len : Nat
deriving DecidableEq, Repr

/-- The tagged variant of the 25 frame kinds handled by the codec. -/
inductive Frame where
  | padding : Frame
  | ping : Frame
  | ack : AckFrame → Frame
  | rstStream : RstStreamFrame → Frame
  | stopSending : (stream_id : Nat) → (error_code : Nat) → Frame
  | crypto : CryptoFrame → Frame
  | newToken : NewTokenFrame → Frame
  | stream : StreamFrame → Frame
  | maxData : (maximum_data : Nat) → Frame
  | maxStreamData : (stream_id : Nat) → (maximum_stream_data : Nat) → Frame
  | maxStreams : MaxStreamsFrame → Frame
  | dataBlocked : (offset : Nat) → Frame
  | streamDataBlocked : (stream_id : Nat) → (offset : Nat) → Frame
  | streamsBlocked : StreamsBlockedFrame → Frame
  | newConnectionId : NewConnectionIdFrame → Frame
  | retireConnectionId : (seq_num : Nat) → Frame
  | pathChallenge : (data : List Nat) → Frame
  | pathResponse : (data : List Nat) → Frame
  | connectionClose : ConnectionCloseFrame → Frame
  | handshakeDone : Frame
deriving DecidableEq, Repr

/-- `QuicAckFrame::largestAcked`: `m_ack_ranges[0]->m_largest`. -/
def AckFrame.largestAcked (f : AckFrame) : Nat :=
  (f.ranges.headD ⟨0, 0⟩).largest

/-- `QuicAckFrame::encodeAckRange(idx).len` for `idx = 0`
(`uint64_t(largest - smallest)` with `uint64_t` wrap-around). -/
def AckFrame.firstRangeLen (f : AckFrame) : Nat :=
  ((f.ranges.headD ⟨0, 0⟩).largest + W64 - (f.ranges.headD ⟨0, 0⟩).smallest) % W64

/-- The `gap`/`len` pairs produced by `QuicAckFrame::encodeAckRange(i)` for
`i = 1 .. count-1`: each range after the first is paired with its
predecessor; `uint64_t` subtractions wrap. -/
def ackGapBytes : AckRange → List AckRange → List Nat
  | _, [] => []
  | prev, r :: rs =>
      var_encode ((prev.smallest + W64 + W64 - r.largest - 2) % W64)
        ++ var_encode ((r.largest + W64 - r.smallest) % W64)
        ++ ackGapBytes r rs

/-- `QuicAckFrame::numEncodableAckRanges`: walks ranges `1..` adding their
encoded gap/len size to a running length that starts at
`1 + var_size(largestAcked) + var_size(ack_delay) + 2`; the first range
that would push the length past 1024 stops the walk with `i - 1`. -/
def numEncodableAux (length : Nat) (prev : AckRange) (i : Nat) :
    List AckRange → Nat
  | [] => i
  | r :: rs =>
      let gap := (prev.smallest + W64 + W64 - r.largest - 2) % W64
      let len := (r.largest + W64 - r.smallest) % W64
      let range_len := var_size gap + var_size len
      if length + range_len > 1024 then i - 1
      else numEncodableAux (length + range_len) r (i + 1) rs

def AckFrame.numEncodableAckRanges (f : AckFrame) : Nat :=
  numEncodableAux (1 + var_size f.largestAcked + var_size f.ack_delay + 2)
    (f.ranges.headD ⟨0, 0⟩) 1 f.ranges.tail

/-- `QuicAckFrame::writeTo`: tag `0x02` (the ECN tag is never emitted and
the ECN counters are never written), largest acked, ack delay,
`numEncodableAckRanges() - 1` (an `int`, converted to `uint64_t` when
encoded), the first range length, then the gap/len pairs. -/
def AckFrame.writeTo (f : AckFrame) : List Nat :=
  let cnt := f.numEncodableAckRanges
  0x02 :: var_encode f.largestAcked
    ++ var_encode f.ack_delay
    ++ var_encode ((cnt + W64 - 1) % W64)
    ++ var_encode f.firstRangeLen
    ++ ackGapBytes (f.ranges.headD ⟨0, 0⟩) (f.ranges.tail.take (cnt - 1))

/-- `QuicStreamFrame::writeTo`: tag `0x08` xor-ed with the OFF/LEN/FIN
bits, stream id, optional offset, optional length, then the data bytes. -/
def StreamFrame.writeTo (f : StreamFrame) : List Nat :=
  let tb := (((0x08 ^^^ (if f.has_offset_field then 0x04 else 0))
    ^^^ (if f.has_length_field then 0x02 else 0))
    ^^^ (if f.has_fin then 0x01 else 0))
  tb :: var_encode f.stream_id
    ++ (if f.has_offset_field then var_encode f.offset else [])
    ++ (if f.has_length_field then var_encode f.data.length else [])
    ++ f.data

/-- `writeTo` of every frame kind (`quic_frame.cc`), producing the emitted
bytes. -/
def Frame.writeTo : Frame → List Nat
  | padding => [0x00]
  | ping => [0x01]
  | ack f => f.writeTo
  | rstStream f =>
      0x04 :: var_encode f.stream_id ++ var_encode f.final_offset
        ++ var_encode f.error_code
  | stopSending sid err => 0x05 :: var_encode sid ++ var_encode err
  | crypto f =>
      0x06 :: var_encode f.offset ++ var_encode f.data.length ++ f.data
  | newToken f => 0x07 :: var_encode f.token_len ++ f.token
  | stream f => f.writeTo
  | maxData m => 0x10 :: var_encode m
  | maxStreamData sid m => 0x11 :: var_encode sid ++ var_encode m
  | maxStreams f => 0x12 :: var_encode f.maximum_streams
  | dataBlocked off => 0x14 :: var_encode off
  | streamDataBlocked sid off => 0x15 :: var_encode sid ++ var_encode off
  | streamsBlocked f =>
      (if f.stype then 0x16 else 0x17) :: var_encode f.stream_limit
  | newConnectionId f =>
      0x18 :: var_encode f.sequence ++ var_encode f.retire_prior_to
        ++ var_encode f.connection_id.length ++ f.connection_id
        ++ f.stateless_reset_token
  | retireConnectionId seq => 0x19 :: var_encode seq
  | pathChallenge d => 0x1a :: d.take 8
  | pathResponse d => 0x1b :: d.take 8
  | connectionClose f =>
      (if f.is_application_error then 0x1d else 0x1c) :: var_encode f.error_code
        ++ (if f.is_application_error then [] else var_encode f.frame_type)
        ++ var_encode f.reason_phrase_len ++ f.reason_phrase
  | handshakeDone => [0x1e]

/-- Numeric value of `QuicFrameType::UNKNOWN`.  Modelled from the spec: the
enum itself is declared in `quic_type.h`, which is not in the provided
sources; the range dispatch in `QuicFrame::type` (every byte `≥ UNKNOWN`
maps to `UNKNOWN`, and `0x1e` `HANDSHAKE_DONE` must stay below it) fixes it
at `0x1f`. -/
def UNKNOWN_FT : Nat := 0x1f

/-- `QuicStreamFrame::readFrom`, with the OFF/LEN/FIN flags already decoded
from the type byte by `readTypeByte`.  Without a length field the parser
reads a zero `data_len` and therefore copies no data bytes. -/
def StreamFrame.readFrom (hasFin hasLen hasOff : Bool) (l : List Nat) :
    Option (StreamFrame × List Nat) := do
  let (sid, _, l1) ← read_varint l
  let (off, l2) ←
    if hasOff then (read_varint l1).map fun p => (p.1, p.2.2) else pure (0, l1)
  let (data_len, l3) ←
    if hasLen then (read_varint l2).map fun p => (p.1, p.2.2) else pure (0, l2)
  if l3.length < data_len then none
  else
    some (⟨sid, off, l3.take data_len, hasFin, hasOff, hasLen⟩, l3.drop data_len)

/-- The loop of `QuicAckFrame::readFrom` over the `ACK Range Count` extra
blocks: each iteration reads a gap and a block length and derives the next
`[smallest, largest]` pair with wrapping `uint64_t` subtractions. -/
def parseAckBlocks : Nat → Nat → List Nat → Option (List AckRange × List Nat)
  | 0, _, l => some ([], l)
  | n + 1, smallest, l => do
      let (gap, _, l1) ← read_varint l
      let largest := (smallest + W64 + W64 - gap - 2) % W64
      let (ack_block, _, l2) ← read_varint l1
      let smallest' := (largest + W64 - ack_block) % W64
      let (rs, l3) ← parseAckBlocks n smallest' l2
      some (⟨smallest', largest⟩ :: rs, l3)

/-- `QuicAckFrame::readFrom`, with `has_ecn` decoded from the type byte. -/
def AckFrame.readFrom (hasEcn : Bool) (l : List Nat) :
    Option (AckFrame × List Nat) := do
  let (largest, _, l1) ← read_varint l
  let (delay, _, l2) ← read_varint l1
  let (cnt, _, l3) ← read_varint l2
  let (first, _, l4) ← read_varint l3
  let smallest := (largest + W64 - first) % W64
  let (rs, l5) ← parseAckBlocks cnt smallest l4
  if hasEcn then do
    let (e0, _, l6) ← read_varint l5
    let (e1, _, l7) ← read_varint l6
    let (e2, _, l8) ← read_varint l7
    some (⟨⟨smallest, largest⟩ :: rs, delay, true, some ⟨e0, e1, e2⟩⟩, l8)
  else
    some (⟨⟨smallest, largest⟩ :: rs, delay, false, none⟩, l5)

/-- `QuicConnectionCloseFrame::readFrom`; on the application-error tag no
frame type is read and `m_frame_type` keeps its default `UNKNOWN`. -/
def ConnectionCloseFrame.readFrom (isApp : Bool) (l : List Nat) :
    Option (ConnectionCloseFrame × List Nat) := do
  let (ec, _, l1) ← read_varint l
  let (ft, l2) ←
    if isApp then pure (UNKNOWN_FT, l1)
    else (read_varint l1).map fun p => (p.1, p.2.2)
  let (rlen, _, l3) ← read_varint l2
  if l3.length < rlen then none
  else some (⟨ec, ft, rlen, l3.take rlen, isApp⟩, l3.drop rlen)

/-- `QuicNewConnectionIdFrame::readFrom`.  The connection-id length is read
as one fixed byte; the 16 stateless-reset-token bytes are copied but, unlike
every other field, never consumed from the buffer. -/
def NewConnectionIdFrame.readFrom (l : List Nat) :
    Option (NewConnectionIdFrame × List Nat) := do
  let (seq, _, l1) ← read_varint l
  let (retire, _, l2) ← read_varint l1
  match l2 with
  | [] => none
  | cid_len :: l3 =>
      if l3.length < cid_len then none
      else
        let cid := l3.take cid_len
        let l4 := l3.drop cid_len
        if l4.length < 16 then none
        else some (⟨seq, retire, cid, l4.take 16⟩, l4)

/-- `QuicFrameCodec::parseFrame` (`quic_frame.cc:2564`): dispatch on the
type byte; unhandled tags (including the unimplemented DATAGRAM pair) yield
no frame. -/
def QuicFrameCodec.parseFrame (l : List Nat) (type_byte : Nat) :
    Option (Frame × List Nat) :=
  if type_byte &&& 0xf8 == 0x8 then
    (StreamFrame.readFrom (type_byte &&& 0x1 > 0) (type_byte &&& 0x2 > 0)
      (type_byte &&& 0x4 > 0) l).map fun p => (Frame.stream p.1, p.2)
  else
    match type_byte with
    | 0x01 => some (Frame.ping, l)
    | 0x02 => (AckFrame.readFrom false l).map fun p => (Frame.ack p.1, p.2)
    | 0x03 => (AckFrame.readFrom true l).map fun p => (Frame.ack p.1, p.2)
    | 0x04 => do
        let (sid, _, l1) ← read_varint l
        let (foff, _, l2) ← read_varint l1
        let (ec, _, l3) ← read_varint l2
        some (Frame.rstStream ⟨sid, foff, ec⟩, l3)
    | 0x05 => do
        let (sid, _, l1) ← read_varint l
        let (ec, _, l2) ← read_varint l1
        some (Frame.stopSending sid ec, l2)
    | 0x06 => do
        let (off, _, l1) ← read_varint l
        let (data_len, _, l2) ← read_varint l1
        if l2.length < data_len then none
        else some (Frame.crypto ⟨off, l2.take data_len⟩, l2.drop data_len)
    | 0x07 => do
        let (tok_len, _, l1) ← read_varint l
        if l1.length < tok_len then none
        else some (Frame.newToken ⟨l1.take tok_len, tok_len⟩, l1.drop tok_len)
    | 0x10 => do
        let (m, _, l1) ← read_varint l
        some (Frame.maxData m, l1)
    | 0x11 => do
        let (sid, _, l1) ← read_varint l
        let (m, _, l2) ← read_varint l1
        some (Frame.maxStreamData sid m, l2)
    | 0x12 => do
        let (m, _, l1) ← read_varint l
        some (Frame.maxStreams ⟨none, m⟩, l1)
    | 0x13 => do
        let (m, _, l1) ← read_varint l
        some (Frame.maxStreams ⟨none, m⟩, l1)
    | 0x14 => do
        let (off, _, l1) ← read_varint l
        some (Frame.dataBlocked off, l1)
    | 0x15 => do
        let (sid, _, l1) ← read_varint l
        let (off, _, l2) ← read_varint l1
        some (Frame.streamDataBlocked sid off, l2)
    | 0x16 => do
        let (lim, _, l1) ← read_varint l
        some (Frame.streamsBlocked ⟨true, lim⟩, l1)
    | 0x17 => do
        let (lim, _, l1) ← read_varint l
        some (Frame.streamsBlocked ⟨false, lim⟩, l1)
    | 0x18 => (NewConnectionIdFrame.readFrom l).map
        fun p => (Frame.newConnectionId p.1, p.2)
    | 0x19 => do
        let (seq, _, l1) ← read_varint l
        some (Frame.retireConnectionId seq, l1)
    | 0x1a =>
        if l.length < 8 then none
        else some (Frame.pathChallenge (l.take 8), l)
    | 0x1b =>
        if l.length < 8 then none
        else some (Frame.pathResponse (l.take 8), l)
    | 0x1c => (ConnectionCloseFrame.readFrom false l).map
        fun p => (Frame.connectionClose p.1, p.2)
    | 0x1d => (ConnectionCloseFrame.readFrom true l).map
        fun p => (Frame.connectionClose p.1, p.2)
    | 0x1e => some (Frame.handshakeDone, l)
    | _ => none

/-- `QuicFrameCodec::parseNext` (`quic_frame.cc:2515`): consume the type
byte, skip PADDING bytes, then dispatch through `parseFrame`. -/
def QuicFrameCodec.parseNext : List Nat → Option (Frame × List Nat)
  | [] => none
  | b :: rest =>
      if b == 0x0 then QuicFrameCodec.parseNext rest
      else QuicFrameCodec.parseFrame rest b

/-- Descending, separated, bounded ack ranges: each subsequent range sits at
least two packet numbers below its predecessor and every bound is a valid
varint value. -/
def ackRangesChain : AckRange → List AckRange → Bool
  | _, [] => true
  | prev, r :: rs =>
      decide (r.largest + 2 ≤ prev.smallest) && decide (r.smallest ≤ r.largest)
        && decide (r.largest < 2 ^ 62) && ackRangesChain r rs

/-- Well-formedness of a frame: the conditions under which its `writeTo`
output is loss-free (every varint-encoded value below `2^62`, declared
lengths matching carried lengths, ack ranges descending and within the
1024-byte budget of `numEncodableAckRanges`, no ECN section, a length field
on data-carrying STREAM frames, and not PADDING). -/
def FrameWF : Frame → Bool
  | Frame.padding => false
  | Frame.ping => true
  | Frame.ack f =>
      (!f.ranges.isEmpty) && !f.has_ecn && f.ecn.isNone
        && decide (f.ack_delay < 2 ^ 62)
        && decide ((f.ranges.headD ⟨0, 0⟩).smallest ≤ (f.ranges.headD ⟨0, 0⟩).largest)
        && decide ((f.ranges.headD ⟨0, 0⟩).largest < 2 ^ 62)
        && ackRangesChain (f.ranges.headD ⟨0, 0⟩) f.ranges.tail
        && decide (f.numEncodableAckRanges = f.ranges.length)
        && decide (f.ranges.length < 2 ^ 62)
  | Frame.rstStream f =>
      decide (f.stream_id < 2 ^ 62) && decide (f.final_offset < 2 ^ 62)
        && decide (f.error_code < 2 ^ 62)
  | Frame.stopSending sid ec => decide (sid < 2 ^ 62) && decide (ec < 2 ^ 62)
  | Frame.crypto f => decide (f.offset < 2 ^ 62) && decide (f.data.length < 2 ^ 62)
  | Frame.newToken f =>
      decide (f.token_len = f.token.length) && decide (f.token_len < 2 ^ 62)
  | Frame.stream f =>
      decide (f.stream_id < 2 ^ 62) && decide (f.offset < 2 ^ 62)
        && decide (f.data.length < 2 ^ 62)
        && (f.has_offset_field || decide (f.offset = 0))
        && (f.has_length_field || f.data.isEmpty)
  | Frame.maxData m => decide (m < 2 ^ 62)
  | Frame.maxStreamData sid m => decide (sid < 2 ^ 62) && decide (m < 2 ^ 62)
  | Frame.maxStreams f => f.stype.isNone && decide (f.maximum_streams < 2 ^ 62)
  | Frame.dataBlocked off => decide (off < 2 ^ 62)
  | Frame.streamDataBlocked sid off => decide (sid < 2 ^ 62) && decide (off < 2 ^ 62)
  | Frame.streamsBlocked f => decide (f.stream_limit < 2 ^ 62)
  | Frame.newConnectionId f =>
      decide (f.sequence < 2 ^ 62) && decide (f.retire_prior_to < 2 ^ 62)
        && decide (f.connection_id.length ≤ 20)
        && decide (f.stateless_reset_token.length = 16)
  | Frame.retireConnectionId seq => decide (seq < 2 ^ 62)
  | Frame.pathChallenge d => decide (d.length = 8)
  | Frame.pathResponse d => decide (d.length = 8)
  | Frame.connectionClose f =>
      decide (f.error_code < 2 ^ 62)
        && (if f.is_application_error then decide (f.frame_type = UNKNOWN_FT)
            else decide (f.frame_type < 2 ^ 62))
        && decide (f.reason_phrase_len = f.reason_phrase.length)
        && decide (f.reason_phrase_len < 2 ^ 62)
  | Frame.handshakeDone => true

theorem var_encode_small (n : Nat) (h : n < 64) : var_encode n = [n] := by
  rw [var_encode, if_pos (show n < 2 ^ 6 by omega), show (1 : Nat) = 0 + 1 from rfl,
    beBytes_cons, show n / 256 ^ 0 % 256 = n from by omega]
  rfl

theorem parseNext_cons (b : Nat) (l : List Nat) (hb : b ≠ 0) :
    QuicFrameCodec.parseNext (b :: l) = QuicFrameCodec.parseFrame l b := by
  rw [QuicFrameCodec.parseNext]
  simp [hb]

theorem take_append_self (l r : List Nat) : (l ++ r).take l.length = l := by
  simp

theorem drop_append_self (l r : List Nat) : (l ++ r).drop l.length = r := by
  simp

/-- The gap/len block loop of `readFrom` inverts the block loop of
`writeTo` on a descending, separated chain of ranges. -/
theorem parseAckBlocks_gapBytes (rs : List AckRange) (prev : AckRange)
    (rest : List Nat) (hps : prev.smallest < 2 ^ 62)
    (hchain : ackRangesChain prev rs = true) :
    parseAckBlocks rs.length prev.smallest (ackGapBytes prev rs ++ rest)
      = some (rs, rest) := by
  induction rs generalizing prev rest with
  | nil => simp [parseAckBlocks, ackGapBytes]
  | cons r rs ih =>
      simp only [ackRangesChain, Bool.and_eq_true, decide_eq_true_eq] at hchain
      obtain ⟨⟨⟨hsep, hle⟩, hlt⟩, hrest⟩ := hchain
      simp only [List.length_cons]
      rw [parseAckBlocks, ackGapBytes]
      simp only [List.append_assoc]
      rw [read_varint_var_encode _ (by unfold W64; omega) _]
      simp only [Option.bind_eq_bind, Option.some_bind]
      rw [read_varint_var_encode _ (by unfold W64; omega) _]
      simp only [Option.bind_eq_bind, Option.some_bind]
      have hlg : (prev.smallest + W64 + W64
          - (prev.smallest + W64 + W64 - r.largest - 2) % W64 - 2) % W64 = r.largest := by
        unfold W64 at *
        omega
      rw [hlg]
      have hsm : (r.largest + W64 - (r.largest + W64 - r.smallest) % W64) % W64
          = r.smallest := by
        unfold W64 at *
        omega
      rw [hsm]
      rw [ih r rest (by omega) hrest]
      rfl

/-- C5, corrected: serialise-then-parse is the identity on well-formed
frames — frames whose varint-carried fields fit in `2^62`, whose length
fields agree with their payloads, and that are not PADDING (the parser
skips 0x00 bytes instead of returning a frame) nor an ACK with ECN
counters or more ranges than `numEncodableAckRanges` admits. -/
theorem frame_parse_serialize_roundtrip (f : Frame) (h : FrameWF f = true)
    (rest : List Nat) :
    (QuicFrameCodec.parseNext (f.writeTo ++ rest)).map Prod.fst = some f := by
  cases f with
  | padding => simp [FrameWF] at h
  | ping => rfl
  | handshakeDone => rfl
  | maxData m =>
      simp only [FrameWF, decide_eq_true_eq] at h
      show (QuicFrameCodec.parseNext (0x10 :: (var_encode m ++ rest))).map Prod.fst = _
      rw [parseNext_cons _ _ (by norm_num)]
      rw [show ∀ l, QuicFrameCodec.parseFrame l 0x10
          = (read_varint l).bind (fun p => some (Frame.maxData p.1, p.2.2)) from
          fun _ => rfl]
      rw [read_varint_var_encode m h rest]
      rfl
  | dataBlocked off =>
      simp only [FrameWF, decide_eq_true_eq] at h
      show (QuicFrameCodec.parseNext (0x14 :: (var_encode off ++ rest))).map Prod.fst = _
      rw [parseNext_cons _ _ (by norm_num)]
      rw [show ∀ l, QuicFrameCodec.parseFrame l 0x14
          = (read_varint l).bind (fun p => some (Frame.dataBlocked p.1, p.2.2)) from
          fun _ => rfl]
      rw [read_varint_var_encode off h rest]
      rfl
  | retireConnectionId seq =>
      simp only [FrameWF, decide_eq_true_eq] at h
      show (QuicFrameCodec.parseNext (0x19 :: (var_encode seq ++ rest))).map Prod.fst = _
      rw [parseNext_cons _ _ (by norm_num)]
      rw [show ∀ l, QuicFrameCodec.parseFrame l 0x19
          = (read_varint l).bind (fun p => some (Frame.retireConnectionId p.1, p.2.2)) from
          fun _ => rfl]
      rw [read_varint_var_encode seq h rest]
      rfl
  | maxStreams g =>
      obtain ⟨stype, m⟩ := g
      simp only [FrameWF, Bool.and_eq_true, decide_eq_true_eq, Option.isNone_iff_eq_none]
        at h
      obtain ⟨hst, hm⟩ := h
      subst hst
      show (QuicFrameCodec.parseNext (0x12 :: (var_encode m ++ rest))).map Prod.fst = _
      rw [parseNext_cons _ _ (by norm_num)]
      rw [show ∀ l, QuicFrameCodec.parseFrame l 0x12
          = (read_varint l).bind
            (fun p => some (Frame.maxStreams ⟨none, p.1⟩, p.2.2)) from fun _ => rfl]
      rw [read_varint_var_encode m hm rest]
      rfl
  | maxStreamData sid m =>
      simp only [FrameWF, Bool.and_eq_true, decide_eq_true_eq] at h
      obtain ⟨h1, h2⟩ := h
      rw [Frame.writeTo]
      simp only [List.cons_append, List.append_assoc]
      rw [parseNext_cons _ _ (by norm_num)]
      rw [show ∀ l, QuicFrameCodec.parseFrame l 0x11
          = (read_varint l).bind (fun p => (read_varint p.2.2).bind
            (fun q => some (Frame.maxStreamData p.1 q.1, q.2.2))) from fun _ => rfl]
      rw [read_varint_var_encode sid h1 _]
      simp only [Option.bind_eq_bind, Option.some_bind]
      rw [read_varint_var_encode m h2 rest]
      rfl
  | streamDataBlocked sid off =>
      simp only [FrameWF, Bool.and_eq_true, decide_eq_true_eq] at h
      obtain ⟨h1, h2⟩ := h
      rw [Frame.writeTo]
      simp only [List.cons_append, List.append_assoc]
      rw [parseNext_cons _ _ (by norm_num)]
      rw [show ∀ l, QuicFrameCodec.parseFrame l 0x15
          = (read_varint l).bind (fun p => (read_varint p.2.2).bind
            (fun q => some (Frame.streamDataBlocked p.1 q.1, q.2.2))) from fun _ => rfl]
      rw [read_varint_var_encode sid h1 _]
      simp only [Option.bind_eq_bind, Option.some_bind]
      rw [read_varint_var_encode off h2 rest]
      rfl
  | stopSending sid ec =>
      simp only [FrameWF, Bool.and_eq_true, decide_eq_true_eq] at h
      obtain ⟨h1, h2⟩ := h
      rw [Frame.writeTo]
      simp only [List.cons_append, List.append_assoc]
      rw [parseNext_cons _ _ (by norm_num)]
      rw [show ∀ l, QuicFrameCodec.parseFrame l 0x05
          = (read_varint l).bind (fun p => (read_varint p.2.2).bind
            (fun q => some (Frame.stopSending p.1 q.1, q.2.2))) from fun _ => rfl]
      rw [read_varint_var_encode sid h1 _]
      simp only [Option.bind_eq_bind, Option.some_bind]
      rw [read_varint_var_encode ec h2 rest]
      rfl
  | streamsBlocked g =>
      obtain ⟨stype, lim⟩ := g
      simp only [FrameWF, decide_eq_true_eq] at h
      cases stype with
      | true =>
          show (QuicFrameCodec.parseNext (0x16 :: (var_encode lim ++ rest))).map
            Prod.fst = _
          rw [parseNext_cons _ _ (by norm_num)]
          rw [show ∀ l, QuicFrameCodec.parseFrame l 0x16
              = (read_varint l).bind
                (fun p => some (Frame.streamsBlocked ⟨true, p.1⟩, p.2.2)) from
              fun _ => rfl]
          rw [read_varint_var_encode lim h rest]
          rfl
      | false =>
          show (QuicFrameCodec.parseNext (0x17 :: (var_encode lim ++ rest))).map
            Prod.fst = _
          rw [parseNext_cons _ _ (by norm_num)]
          rw [show ∀ l, QuicFrameCodec.parseFrame l 0x17
              = (read_varint l).bind
                (fun p => some (Frame.streamsBlocked ⟨false, p.1⟩, p.2.2)) from
              fun _ => rfl]
          rw [read_varint_var_encode lim h rest]
          rfl
  | rstStream g =>
      obtain ⟨sid, foff, ec⟩ := g
      simp only [FrameWF, Bool.and_eq_true, decide_eq_true_eq] at h
      obtain ⟨⟨h1, h2⟩, h3⟩ := h
      rw [Frame.writeTo]
      simp only [List.cons_append, List.append_assoc]
      rw [parseNext_cons _ _ (by norm_num)]
      rw [show ∀ l, QuicFrameCodec.parseFrame l 0x04
          = (read_varint l).bind (fun p => (read_varint p.2.2).bind
            (fun q => (read_varint q.2.2).bind
              (fun u => some (Frame.rstStream ⟨p.1, q.1, u.1⟩, u.2.2)))) from
          fun _ => rfl]
      rw [read_varint_var_encode sid h1 _]
      simp only [Option.bind_eq_bind, Option.some_bind]
      rw [read_varint_var_encode foff h2 _]
      simp only [Option.bind_eq_bind, Option.some_bind]
      rw [read_varint_var_encode ec h3 rest]
      rfl
  | crypto g =>
      obtain ⟨off, data⟩ := g
      simp only [FrameWF, Bool.and_eq_true, decide_eq_true_eq] at h
      obtain ⟨h1, h2⟩ := h
      rw [Frame.writeTo]
      simp only [List.cons_append, List.append_assoc]
      rw [parseNext_cons _ _ (by norm_num)]
      rw [show ∀ l, QuicFrameCodec.parseFrame l 0x06
          = (read_varint l).bind (fun p => (read_varint p.2.2).bind
            (fun q => if q.2.2.length < q.1 then none
              else some (Frame.crypto ⟨p.1, q.2.2.take q.1⟩, q.2.2.drop q.1))) from
          fun _ => rfl]
      rw [read_varint_var_encode off h1 _]
      simp only [Option.bind_eq_bind, Option.some_bind]
      rw [read_varint_var_encode data.length h2 _]
      simp only [Option.bind_eq_bind, Option.some_bind]
      rw [if_neg (by simp)]
      rw [take_append_self data rest, drop_append_self data rest]
      rfl
  | newToken g =>
      obtain ⟨tok, tok_len⟩ := g
      simp only [FrameWF, Bool.and_eq_true, decide_eq_true_eq] at h
      obtain ⟨h1, h2⟩ := h
      subst h1
      rw [Frame.writeTo]
      simp only [List.cons_append, List.append_assoc]
      rw [parseNext_cons _ _ (by norm_num)]
      rw [show ∀ l, QuicFrameCodec.parseFrame l 0x07
          = (read_varint l).bind (fun p => if p.2.2.length < p.1 then none
            else some (Frame.newToken ⟨p.2.2.take p.1, p.1⟩, p.2.2.drop p.1)) from
          fun _ => rfl]
      rw [read_varint_var_encode tok.length h2 _]
      simp only [Option.bind_eq_bind, Option.some_bind]
      rw [if_neg (by simp)]
      rw [take_append_self tok rest, drop_append_self tok rest]
      rfl
  | pathChallenge d =>
      simp only [FrameWF, decide_eq_true_eq] at h
      rw [Frame.writeTo]
      rw [List.take_of_length_le (by omega)]
      show (QuicFrameCodec.parseNext (0x1a :: (d ++ rest))).map Prod.fst = _
      rw [parseNext_cons _ _ (by norm_num)]
      rw [show ∀ l, QuicFrameCodec.parseFrame l 0x1a
          = (if l.length < 8 then none else some (Frame.pathChallenge (l.take 8), l)) from
          fun _ => rfl]
      rw [if_neg (by simp; omega)]
      rw [show List.take 8 (d ++ rest) = d from by rw [← h]; exact take_append_self d rest]
      rfl
  | pathResponse d =>
      simp only [FrameWF, decide_eq_true_eq] at h
      rw [Frame.writeTo]
      rw [List.take_of_length_le (by omega)]
      show (QuicFrameCodec.parseNext (0x1b :: (d ++ rest))).map Prod.fst = _
      rw [parseNext_cons _ _ (by norm_num)]
      rw [show ∀ l, QuicFrameCodec.parseFrame l 0x1b
          = (if l.length < 8 then none else some (Frame.pathResponse (l.take 8), l)) from
          fun _ => rfl]
      rw [if_neg (by simp; omega)]
      rw [show List.take 8 (d ++ rest) = d from by rw [← h]; exact take_append_self d rest]
      rfl
  | newConnectionId g =>
      obtain ⟨seq, retire, cid, tok⟩ := g
      simp only [FrameWF, Bool.and_eq_true, decide_eq_true_eq] at h
      obtain ⟨⟨⟨h1, h2⟩, h3⟩, h4⟩ := h
      rw [Frame.writeTo]
      rw [var_encode_small cid.length (by omega)]
      simp only [List.cons_append, List.append_assoc]
      rw [parseNext_cons _ _ (by norm_num)]
      rw [show ∀ l, QuicFrameCodec.parseFrame l 0x18
          = (NewConnectionIdFrame.readFrom l).map
            (fun p => (Frame.newConnectionId p.1, p.2)) from fun _ => rfl]
      rw [NewConnectionIdFrame.readFrom]
      rw [read_varint_var_encode seq h1 _]
      simp only [Option.bind_eq_bind, Option.some_bind]
      rw [read_varint_var_encode retire h2 _]
      simp only [Option.bind_eq_bind, Option.some_bind, List.nil_append]
      rw [if_neg (by simp)]
      rw [take_append_self cid (tok ++ rest), drop_append_self cid (tok ++ rest)]
      rw [if_neg (by simp; omega)]
      rw [show List.take 16 (tok ++ rest) = tok from by
        rw [← h4]; exact take_append_self tok rest]
      rfl
  | connectionClose g =>
      obtain ⟨ec, ft, rlen, reason, isApp⟩ := g
      cases isApp with
      | false =>
          simp only [FrameWF, Bool.and_eq_true, decide_eq_true_eq, if_false,
            Bool.false_eq_true] at h
          obtain ⟨⟨⟨h1, h2⟩, h3⟩, h4⟩ := h
          subst h3
          rw [Frame.writeTo]
          simp only [List.cons_append, List.append_assoc, if_neg, Bool.false_eq_true,
            not_false_eq_true, List.nil_append]
          rw [parseNext_cons _ _ (by norm_num)]
          rw [show ∀ l, QuicFrameCodec.parseFrame l 0x1c
              = (ConnectionCloseFrame.readFrom false l).map
                (fun p => (Frame.connectionClose p.1, p.2)) from fun _ => rfl]
          rw [ConnectionCloseFrame.readFrom]
          rw [read_varint_var_encode ec h1 _]
          simp only [Option.bind_eq_bind, Option.some_bind, Bool.cond_false,
            Option.map_some', if_neg, Bool.false_eq_true, not_false_eq_true]
          rw [read_varint_var_encode ft h2 _]
          simp only [Option.bind_eq_bind, Option.some_bind, Option.map_some']
          rw [read_varint_var_encode reason.length h4 _]
          simp only [Option.bind_eq_bind, Option.some_bind]
          rw [if_neg (by simp)]
          rw [take_append_self reason rest, drop_append_self reason rest]
          rfl
      | true =>
          simp only [FrameWF, Bool.and_eq_true, decide_eq_true_eq, if_true] at h
          obtain ⟨⟨⟨h1, h2⟩, h3⟩, h4⟩ := h
          subst h3
          subst h2
          rw [Frame.writeTo]
          simp only [List.cons_append, List.append_assoc, if_true, List.nil_append]
          rw [parseNext_cons _ _ (by norm_num)]
          rw [show ∀ l, QuicFrameCodec.parseFrame l 0x1d
              = (ConnectionCloseFrame.readFrom true l).map
                (fun p => (Frame.connectionClose p.1, p.2)) from fun _ => rfl]
          rw [ConnectionCloseFrame.readFrom]
          rw [read_varint_var_encode ec h1 _]
          simp only [Option.pure_def, Option.bind_eq_bind, Option.some_bind, if_true,
            Option.map_some']
          rw [read_varint_var_encode reason.length h4 _]
          simp only [Option.bind_eq_bind, Option.some_bind]
          rw [if_neg (by simp)]
          rw [take_append_self reason rest, drop_append_self reason rest]
          rfl
  | stream g =>
      obtain ⟨sid, off, data, fin, hasOff, hasLen⟩ := g
      simp only [FrameWF, Bool.and_eq_true, decide_eq_true_eq] at h
      obtain ⟨⟨⟨⟨h1, h2⟩, h3⟩, h4⟩, h5⟩ := h
      cases fin <;> cases hasOff <;> cases hasLen
      · -- fin=false, offset field=false, length field=false
        simp only [Bool.false_or, decide_eq_true_eq] at h4
        subst h4
        simp only [Bool.false_or, List.isEmpty_iff] at h5
        subst h5
        rw [Frame.writeTo, StreamFrame.writeTo]
        simp only [eq_self_iff_true, if_true, Bool.false_eq_true, if_false,
          List.cons_append, List.append_assoc, List.append_nil, List.nil_append]
        rw [parseNext_cons _ _ (by decide)]
        rw [show ∀ l, QuicFrameCodec.parseFrame l (((0x08 ^^^ 0) ^^^ 0) ^^^ 0)
            = (StreamFrame.readFrom false false false l).map
              (fun p => (Frame.stream p.1, p.2)) from fun _ => rfl]
        rw [StreamFrame.readFrom]
        rw [read_varint_var_encode sid h1 _]
        simp only [Option.pure_def, Option.bind_eq_bind, Option.some_bind,
          Option.map_some', eq_self_iff_true, if_true, Bool.false_eq_true, if_false]
        rw [if_neg (by omega)]
        simp only [List.take_zero, List.drop_zero]
        rfl
      · -- fin=false, offset field=false, length field=true
        simp only [Bool.false_or, decide_eq_true_eq] at h4
        subst h4
        rw [Frame.writeTo, StreamFrame.writeTo]
        simp only [eq_self_iff_true, if_true, Bool.false_eq_true, if_false,
          List.cons_append, List.append_assoc, List.append_nil, List.nil_append]
        rw [parseNext_cons _ _ (by decide)]
        rw [show ∀ l, QuicFrameCodec.parseFrame l (((0x08 ^^^ 0) ^^^ 0x02) ^^^ 0)
            = (StreamFrame.readFrom false true false l).map
              (fun p => (Frame.stream p.1, p.2)) from fun _ => rfl]
        rw [StreamFrame.readFrom]
        rw [read_varint_var_encode sid h1 _]
        simp only [Option.pure_def, Option.bind_eq_bind, Option.some_bind,
          Option.map_some', eq_self_iff_true, if_true, Bool.false_eq_true, if_false]
        rw [read_varint_var_encode data.length h3 _]
        simp only [Option.pure_def, Option.bind_eq_bind, Option.some_bind,
          Option.map_some', eq_self_iff_true, if_true, Bool.false_eq_true, if_false]
        rw [if_neg (by simp)]
        rw [take_append_self data rest, drop_append_self data rest]
        rfl
      · -- fin=false, offset field=true, length field=false
        simp only [Bool.false_or, List.isEmpty_iff] at h5
        subst h5
        rw [Frame.writeTo, StreamFrame.writeTo]
        simp only [eq_self_iff_true, if_true, Bool.false_eq_true, if_false,
          List.cons_append, List.append_assoc, List.append_nil, List.nil_append]
        rw [parseNext_cons _ _ (by decide)]
        rw [show ∀ l, QuicFrameCodec.parseFrame l (((0x08 ^^^ 0x04) ^^^ 0) ^^^ 0)
            = (StreamFrame.readFrom false false true l).map
              (fun p => (Frame.stream p.1, p.2)) from fun _ => rfl]
        rw [StreamFrame.readFrom]
        rw [read_varint_var_encode sid h1 _]
        simp only [Option.pure_def, Option.bind_eq_bind, Option.some_bind,
          Option.map_some', eq_self_iff_true, if_true, Bool.false_eq_true, if_false]
        rw [read_varint_var_encode off h2 _]
        simp only [Option.pure_def, Option.bind_eq_bind, Option.some_bind,
          Option.map_some', eq_self_iff_true, if_true, Bool.false_eq_true, if_false]
        rw [if_neg (by omega)]
        simp only [List.take_zero, List.drop_zero]
        rfl
      · -- fin=false, offset field=true, length field=true
        rw [Frame.writeTo, StreamFrame.writeTo]
        simp only [eq_self_iff_true, if_true, Bool.false_eq_true, if_false,
          List.cons_append, List.append_assoc, List.append_nil, List.nil_append]
        rw [parseNext_cons _ _ (by decide)]
        rw [show ∀ l, QuicFrameCodec.parseFrame l (((0x08 ^^^ 0x04) ^^^ 0x02) ^^^ 0)
            = (StreamFrame.readFrom false true true l).map
              (fun p => (Frame.stream p.1, p.2)) from fun _ => rfl]
        rw [StreamFrame.readFrom]
        rw [read_varint_var_encode sid h1 _]
        simp only [Option.pure_def, Option.bind_eq_bind, Option.some_bind,
          Option.map_some', eq_self_iff_true, if_true, Bool.false_eq_true, if_false]
        rw [read_varint_var_encode off h2 _]
        simp only [Option.pure_def, Option.bind_eq_bind, Option.some_bind,
          Option.map_some', eq_self_iff_true, if_true, Bool.false_eq_true, if_false]
        rw [read_varint_var_encode data.length h3 _]
        simp only [Option.pure_def, Option.bind_eq_bind, Option.some_bind,
          Option.map_some', eq_self_iff_true, if_true, Bool.false_eq_true, if_false]
        rw [if_neg (by simp)]
        rw [take_append_self data rest, drop_append_self data rest]
        rfl
      · -- fin=true, offset field=false, length field=false
        simp only [Bool.false_or, decide_eq_true_eq] at h4
        subst h4
        simp only [Bool.false_or, List.isEmpty_iff] at h5
        subst h5
        rw [Frame.writeTo, StreamFrame.writeTo]
        simp only [eq_self_iff_true, if_true, Bool.false_eq_true, if_false,
          List.cons_append, List.append_assoc, List.append_nil, List.nil_append]
        rw [parseNext_cons _ _ (by decide)]
        rw [show ∀ l, QuicFrameCodec.parseFrame l (((0x08 ^^^ 0) ^^^ 0) ^^^ 0x01)
            = (StreamFrame.readFrom true false false l).map
              (fun p => (Frame.stream p.1, p.2)) from fun _ => rfl]
        rw [StreamFrame.readFrom]
        rw [read_varint_var_encode sid h1 _]
        simp only [Option.pure_def, Option.bind_eq_bind, Option.some_bind,
          Option.map_some', eq_self_iff_true, if_true, Bool.false_eq_true, if_false]
        rw [if_neg (by omega)]
        simp only [List.take_zero, List.drop_zero]
        rfl
      · -- fin=true, offset field=false, length field=true
        simp only [Bool.false_or, decide_eq_true_eq] at h4
        subst h4
        rw [Frame.writeTo, StreamFrame.writeTo]
        simp only [eq_self_iff_true, if_true, Bool.false_eq_true, if_false,
          List.cons_append, List.append_assoc, List.append_nil, List.nil_append]
        rw [parseNext_cons _ _ (by decide)]
        rw [show ∀ l, QuicFrameCodec.parseFrame l (((0x08 ^^^ 0) ^^^ 0x02) ^^^ 0x01)
            = (StreamFrame.readFrom true true false l).map
              (fun p => (Frame.stream p.1, p.2)) from fun _ => rfl]
        rw [StreamFrame.readFrom]
        rw [read_varint_var_encode sid h1 _]
        simp only [Option.pure_def, Option.bind_eq_bind, Option.some_bind,
          Option.map_some', eq_self_iff_true, if_true, Bool.false_eq_true, if_false]
        rw [read_varint_var_encode data.length h3 _]
        simp only [Option.pure_def, Option.bind_eq_bind, Option.some_bind,
          Option.map_some', eq_self_iff_true, if_true, Bool.false_eq_true, if_false]
        rw [if_neg (by simp)]
        rw [take_append_self data rest, drop_append_self data rest]
        rfl
      · -- fin=true, offset field=true, length field=false
        simp only [Bool.false_or, List.isEmpty_iff] at h5
        subst h5
        rw [Frame.writeTo, StreamFrame.writeTo]
        simp only [eq_self_iff_true, if_true, Bool.false_eq_true, if_false,
          List.cons_append, List.append_assoc, List.append_nil, List.nil_append]
        rw [parseNext_cons _ _ (by decide)]
        rw [show ∀ l, QuicFrameCodec.parseFrame l (((0x08 ^^^ 0x04) ^^^ 0) ^^^ 0x01)
            = (StreamFrame.readFrom true false true l).map
              (fun p => (Frame.stream p.1, p.2)) from fun _ => rfl]
        rw [StreamFrame.readFrom]
        rw [read_varint_var_encode sid h1 _]
        simp only [Option.pure_def, Option.bind_eq_bind, Option.some_bind,
          Option.map_some', eq_self_iff_true, if_true, Bool.false_eq_true, if_false]
        rw [read_varint_var_encode off h2 _]
        simp only [Option.pure_def, Option.bind_eq_bind, Option.some_bind,
          Option.map_some', eq_self_iff_true, if_true, Bool.false_eq_true, if_false]
        rw [if_neg (by omega)]
        simp only [List.take_zero, List.drop_zero]
        rfl
      · -- fin=true, offset field=true, length field=true
        rw [Frame.writeTo, StreamFrame.writeTo]
        simp only [eq_self_iff_true, if_true, Bool.false_eq_true, if_false,
          List.cons_append, List.append_assoc, List.append_nil, List.nil_append]
        rw [parseNext_cons _ _ (by decide)]
        rw [show ∀ l, QuicFrameCodec.parseFrame l (((0x08 ^^^ 0x04) ^^^ 0x02) ^^^ 0x01)
            = (StreamFrame.readFrom true true true l).map
              (fun p => (Frame.stream p.1, p.2)) from fun _ => rfl]
        rw [StreamFrame.readFrom]
        rw [read_varint_var_encode sid h1 _]
        simp only [Option.pure_def, Option.bind_eq_bind, Option.some_bind,
          Option.map_some', eq_self_iff_true, if_true, Bool.false_eq_true, if_false]
        rw [read_varint_var_encode off h2 _]
        simp only [Option.pure_def, Option.bind_eq_bind, Option.some_bind,
          Option.map_some', eq_self_iff_true, if_true, Bool.false_eq_true, if_false]
        rw [read_varint_var_encode data.length h3 _]
        simp only [Option.pure_def, Option.bind_eq_bind, Option.some_bind,
          Option.map_some', eq_self_iff_true, if_true, Bool.false_eq_true, if_false]
        rw [if_neg (by simp)]
        rw [take_append_self data rest, drop_append_self data rest]
        rfl
  | ack g =>
      obtain ⟨ranges, delay, hasEcn, ecn⟩ := g
      simp only [FrameWF, Bool.and_eq_true, decide_eq_true_eq, Bool.not_eq_true',
        Option.isNone_iff_eq_none, List.isEmpty_eq_false] at h
      obtain ⟨⟨⟨⟨⟨⟨⟨⟨hne, hecn⟩, hecnN⟩, hdel⟩, hhead⟩, hheadlt⟩, hchain⟩, hcnt⟩, hlen⟩ := h
      subst hecn
      subst hecnN
      cases ranges with
      | nil => exact absurd rfl hne
      | cons head tail =>
          simp only [List.headD_cons, List.tail_cons] at hhead hheadlt hchain hcnt
          rw [Frame.writeTo, AckFrame.writeTo]
          simp only [AckFrame.largestAcked, AckFrame.firstRangeLen, List.headD_cons,
            List.tail_cons, hcnt, List.length_cons]
          have hc1 : (tail.length + 1 + W64 - 1) % W64 = tail.length := by
            unfold W64
            simp only [List.length_cons] at hlen
            omega
          rw [hc1]
          have hfr : (head.largest + W64 - head.smallest) % W64
              = head.largest - head.smallest := by
            unfold W64
            omega
          rw [hfr]
          have hc2 : tail.length + 1 - 1 = tail.length := by omega
          rw [hc2, List.take_length]
          simp only [List.cons_append, List.append_assoc]
          rw [parseNext_cons _ _ (by norm_num)]
          rw [show ∀ l, QuicFrameCodec.parseFrame l 0x02
              = (AckFrame.readFrom false l).map (fun p => (Frame.ack p.1, p.2)) from
              fun _ => rfl]
          rw [AckFrame.readFrom]
          rw [read_varint_var_encode head.largest hheadlt _]
          simp only [Option.bind_eq_bind, Option.some_bind]
          rw [read_varint_var_encode delay hdel _]
          simp only [Option.bind_eq_bind, Option.some_bind]
          rw [read_varint_var_encode tail.length
            (by simp only [List.length_cons] at hlen; omega) _]
          simp only [Option.bind_eq_bind, Option.some_bind]
          rw [read_varint_var_encode (head.largest - head.smallest) (by omega) _]
          simp only [Option.bind_eq_bind, Option.some_bind]
          have hsm : (head.largest + W64 - (head.largest - head.smallest)) % W64
              = head.smallest := by
            unfold W64
            omega
          rw [hsm]
          rw [parseAckBlocks_gapBytes tail head rest (by omega) hchain]
          simp only [Option.bind_eq_bind, Option.some_bind, Bool.false_eq_true, if_false,
            eq_self_iff_true, if_true, Option.map_some']

/-! ### Received-packet history (`quic_packet_sorter.cc:34-238`)

`ReceivedPacketHistory::m_ranges` is a `std::list<PacketInterval::ptr>`
kept in ascending packet-number order; `addToRanges` walks it with reverse
iterators, so its loop is embedded as the structural recursion `addRev`
over the reversed (descending, highest-first) list. -/

/-- `PacketInterval`: a closed interval of received packet numbers. -/
structure PacketInterval where
  m_start : Nat
  m_end : Nat
deriving DecidableEq, Repr

/-- `MAX_NUMBER_ACK_RANGES` (`quic_packet_sorter.h:22`). -/
def MAX_NUMBER_ACK_RANGES : Nat := 64

/-- The reverse-iterator loop of `ReceivedPacketHistory::addToRanges`,
acting on the reversed (descending) interval list.  The `pn - 1` / `pn + 1`
comparisons are `uint64_t` arithmetic, hence the `% W64` forms: C++
`e == pn - 1` is `(e + 1) % W64 = pn` and `s == pn + 1` is
`(pn + 1) % W64 = s`.  Falling off the end of the loop is the
`push_front` of case 5. -/
def addRev (pn : Nat) : List PacketInterval → List PacketInterval × Bool
  | [] => ([⟨pn, pn⟩], true)
  | i :: rest =>
      if pn ≥ i.m_start ∧ pn ≤ i.m_end then (i :: rest, false)
      else if (i.m_end + 1) % W64 = pn then (⟨i.m_start, pn⟩ :: rest, true)
      else if (pn + 1) % W64 = i.m_start then
        match rest with
        | prev :: rest' =>
            if (prev.m_end + 1) % W64 = pn then (⟨prev.m_start, i.m_end⟩ :: rest', true)
            else (⟨pn, i.m_end⟩ :: prev :: rest', true)
        | [] => ([⟨pn, i.m_end⟩], true)
      else if pn > i.m_end then (⟨pn, pn⟩ :: i :: rest, true)
      else
        let r := addRev pn rest
        (i :: r.1, r.2)

/-- `ReceivedPacketHistory`: ascending interval list plus the
`deleteBelow` watermark (zero after value-initialisation). -/
structure ReceivedPacketHistory where
  m_ranges : List PacketInterval
  m_deleted_below : Nat
deriving DecidableEq, Repr

/-- `ReceivedPacketHistory::addToRanges`. -/
def ReceivedPacketHistory.addToRanges (h : ReceivedPacketHistory) (pn : Nat) :
    ReceivedPacketHistory × Bool :=
  if h.m_ranges.length = 0 then ({ h with m_ranges := [⟨pn, pn⟩] }, true)
  else
    let r := addRev pn h.m_ranges.reverse
    ({ h with m_ranges := r.1.reverse }, r.2)

/-- `ReceivedPacketHistory::maybeDeleteOldRanges`: pop the lowest range
while more than `MAX_NUMBER_ACK_RANGES` remain. -/
def popFrontWhileTooLong : List PacketInterval → List PacketInterval
  | [] => []
  | i :: rest =>
      if (i :: rest).length > MAX_NUMBER_ACK_RANGES then popFrontWhileTooLong rest
      else i :: rest

def ReceivedPacketHistory.maybeDeleteOldRanges (h : ReceivedPacketHistory) :
    ReceivedPacketHistory :=
  { h with m_ranges := popFrontWhileTooLong h.m_ranges }

/-- `ReceivedPacketHistory::receivedPacket`. -/
def ReceivedPacketHistory.receivedPacket (h : ReceivedPacketHistory) (pn : Nat) :
    ReceivedPacketHistory × Bool :=
  if pn < h.m_deleted_below then (h, false)
  else
    let r := h.addToRanges pn
    (r.1.maybeDeleteOldRanges, r.2)

/-- A freshly value-initialised `ReceivedPacketHistory` (no ranges,
watermark 0). -/
def ReceivedPacketHistory.empty : ReceivedPacketHistory := ⟨[], 0⟩

/-- `ReceivedPacketHistory::getHighestAckRange`: the last (highest)
interval, as an ACK range, or `none` when the list is empty. -/
def ReceivedPacketHistory.getHighestAckRange (h : ReceivedPacketHistory) :
    Option AckRange :=
  match h.m_ranges.getLast? with
  | none => none
  | some i => some ⟨i.m_start, i.m_end⟩

/-- Feeding a list of packet numbers into `receivedPacket` one by one. -/
def runReceived (h : ReceivedPacketHistory) (pns : List Nat) : ReceivedPacketHistory :=
  pns.foldl (fun h pn => (h.receivedPacket pn).1) h

/-- Packet number `n` is covered by one of the intervals. -/
def covP (l : List PacketInterval) (n : Nat) : Prop :=
  ∃ i ∈ l, i.m_start ≤ n ∧ n ≤ i.m_end

instance covP_decidable (l : List PacketInterval) (n : Nat) : Decidable (covP l n) := by
  unfold covP
  infer_instance

/-- Sortedness invariant of the descending interval list: every interval is
proper and sits at least two packet numbers above its successor. -/
def descChain : List PacketInterval → Prop
  | [] => True
  | [i] => i.m_start ≤ i.m_end
  | i :: j :: rest => i.m_start ≤ i.m_end ∧ j.m_end + 2 ≤ i.m_start ∧ descChain (j :: rest)

theorem PI_start (a b : Nat) : (PacketInterval.mk a b).m_start = a := rfl

theorem PI_end (a b : Nat) : (PacketInterval.mk a b).m_end = b := rfl

theorem covP_nil (n : Nat) : ¬ covP [] n := by
  simp [covP]

theorem covP_cons (i : PacketInterval) (l : List PacketInterval) (n : Nat) :
    covP (i :: l) n ↔ (i.m_start ≤ n ∧ n ≤ i.m_end) ∨ covP l n := by
  simp [covP]

theorem descChain_tail (i : PacketInterval) (l : List PacketInterval)
    (h : descChain (i :: l)) : descChain l := by
  cases l with
  | nil => trivial
  | cons j rest => exact h.2.2

theorem descChain_head (i : PacketInterval) (l : List PacketInterval)
    (h : descChain (i :: l)) : i.m_start ≤ i.m_end := by
  cases l with
  | nil => exact h
  | cons j rest => exact h.1

theorem descChain_head_gap (i : PacketInterval) (l : List PacketInterval)
    (h : descChain (i :: l)) : ∀ j ∈ l, j.m_end + 2 ≤ i.m_start := by
  induction l generalizing i with
  | nil => intro j hj; cases hj
  | cons k rest ih =>
      intro j hj
      rw [List.mem_cons] at hj
      rcases hj with hj | hj
      · subst hj; exact h.2.1
      · have h1 := ih k h.2.2 j hj
        have h2 := h.2.1
        have h3 := descChain_head k rest h.2.2
        omega

theorem descChain_cons (i : PacketInterval) (l : List PacketInterval)
    (hii : i.m_start ≤ i.m_end) (hl : descChain l)
    (hgap : ∀ j ∈ l, j.m_end + 2 ≤ i.m_start) : descChain (i :: l) := by
  cases l with
  | nil => exact hii
  | cons j rest => exact ⟨hii, hgap j (by simp), hl⟩

theorem descChain_not_cov_above (l : List PacketInterval)
    (n : Nat) (hn : ∀ i ∈ l, i.m_end < n) : ¬ covP l n := by
  rintro ⟨i, hi, _, h2⟩
  exact absurd h2 (by have := hn i hi; omega)

theorem addRev_cons (pn : Nat) (i : PacketInterval) (rest : List PacketInterval) :
    addRev pn (i :: rest)
    = if pn ≥ i.m_start ∧ pn ≤ i.m_end then (i :: rest, false)
      else if (i.m_end + 1) % W64 = pn then (⟨i.m_start, pn⟩ :: rest, true)
      else if (pn + 1) % W64 = i.m_start then
        match rest with
        | prev :: rest' =>
            if (prev.m_end + 1) % W64 = pn then (⟨prev.m_start, i.m_end⟩ :: rest', true)
            else (⟨pn, i.m_end⟩ :: prev :: rest', true)
        | [] => ([⟨pn, i.m_end⟩], true)
      else if pn > i.m_end then (⟨pn, pn⟩ :: i :: rest, true)
      else
        let r := addRev pn rest
        (i :: r.1, r.2) := by
  rfl

/-- Main invariant of the `addToRanges` loop: on a well-formed descending
list bounded by `B` (with `B + 1` below the `uint64_t` wrap), inserting
`pn ≤ B` preserves the chain invariant and the bound, extends the covered
set by exactly `pn`, and reports `true` exactly when `pn` was new. -/
theorem addRev_spec (pn : Nat) :
    ∀ (l : List PacketInterval) (B : Nat), pn ≤ B → B + 1 < W64 →
      descChain l → (∀ i ∈ l, i.m_end ≤ B) →
      descChain (addRev pn l).1
      ∧ (∀ i ∈ (addRev pn l).1, i.m_end ≤ B)
      ∧ (∀ n, covP (addRev pn l).1 n ↔ covP l n ∨ n = pn)
      ∧ ((addRev pn l).2 = true ↔ ¬ covP l pn) := by
  intro l
  induction l with
  | nil =>
      intro B hpn hB _ _
      have he : addRev pn ([] : List PacketInterval) = ([⟨pn, pn⟩], true) := rfl
      rw [he]
      refine ⟨le_refl pn, ?_, ?_, ?_⟩
      · intro j hj
        simp only [List.mem_singleton] at hj
        subst hj; exact hpn
      · intro n
        rw [covP_cons]
        simp only [covP_nil, PI_start, PI_end, or_false, false_or]
        omega
      · exact ⟨fun _ => covP_nil pn, fun _ => rfl⟩
  | cons i rest ih =>
      intro B hpn hB hc hbd
      have hie : i.m_start ≤ i.m_end := descChain_head i rest hc
      have hiB : i.m_end ≤ B := hbd i (List.mem_cons_self i rest)
      have hrb : ∀ j ∈ rest, j.m_end ≤ B := fun j hj => hbd j (List.mem_cons_of_mem i hj)
      have hgap : ∀ j ∈ rest, j.m_end + 2 ≤ i.m_start := descChain_head_gap i rest hc
      have hcr : descChain rest := descChain_tail i rest hc
      have hm1 : (i.m_end + 1) % W64 = i.m_end + 1 := Nat.mod_eq_of_lt (by omega)
      have hm2 : (pn + 1) % W64 = pn + 1 := Nat.mod_eq_of_lt (by omega)
      by_cases h1 : pn ≥ i.m_start ∧ pn ≤ i.m_end
      · have he : addRev pn (i :: rest) = (i :: rest, false) := by
          rw [addRev_cons, if_pos h1]
        rw [he]
        refine ⟨hc, hbd, ?_, ?_⟩
        · intro n
          constructor
          · exact Or.inl
          · rintro (hn | rfl)
            · exact hn
            · exact ⟨i, List.mem_cons_self i rest, h1.1, h1.2⟩
        · simp only [Bool.false_eq_true, false_iff, not_not]
          exact ⟨i, List.mem_cons_self i rest, h1.1, h1.2⟩
      · by_cases h2 : (i.m_end + 1) % W64 = pn
        · have hpe : pn = i.m_end + 1 := by rw [hm1] at h2; omega
          have he : addRev pn (i :: rest) = (⟨i.m_start, pn⟩ :: rest, true) := by
            rw [addRev_cons, if_neg h1, if_pos h2]
          rw [he]
          refine ⟨?_, ?_, ?_, ?_⟩
          · exact descChain_cons _ _ (show i.m_start ≤ pn by omega) hcr
              (fun j hj => hgap j hj)
          · intro j hj
            rcases List.mem_cons.mp hj with rfl | hj
            · exact hpn
            · exact hrb j hj
          · intro n
            rw [covP_cons, covP_cons]
            by_cases hr : covP rest n
            · simp [hr]
            · simp only [hr, or_false, PI_start, PI_end]
              omega
          · simp only [true_iff]
            refine descChain_not_cov_above _ pn ?_
            intro j hj
            rcases List.mem_cons.mp hj with rfl | hj
            · omega
            · have := hgap j hj; omega
        · by_cases h3 : (pn + 1) % W64 = i.m_start
          · have hps : pn + 1 = i.m_start := by rw [hm2] at h3; omega
            cases rest with
            | nil =>
                have he : addRev pn (i :: ([] : List PacketInterval))
                    = ([⟨pn, i.m_end⟩], true) := by
                  rw [addRev_cons, if_neg h1, if_neg h2, if_pos h3]
                rw [he]
                refine ⟨show pn ≤ i.m_end by omega, ?_, ?_, ?_⟩
                · intro j hj
                  simp only [List.mem_singleton] at hj
                  subst hj; exact hiB
                · intro n
                  rw [covP_cons, covP_cons]
                  simp only [covP_nil, PI_start, PI_end, or_false]
                  omega
                · simp only [true_iff]
                  rintro ⟨j, hj, hj1, hj2⟩
                  simp only [List.mem_singleton] at hj
                  subst hj
                  exact absurd hj1 (by omega)
            | cons prev rest' =>
                have hpb : prev.m_end ≤ B := hrb prev (List.mem_cons_self prev rest')
                have hm3 : (prev.m_end + 1) % W64 = prev.m_end + 1 :=
                  Nat.mod_eq_of_lt (by omega)
                have hpe : prev.m_start ≤ prev.m_end := descChain_head prev rest' hcr
                have hg2 : ∀ j ∈ rest', j.m_end + 2 ≤ prev.m_start :=
                  descChain_head_gap prev rest' hcr
                have hcr' : descChain rest' := descChain_tail prev rest' hcr
                have hpregap : prev.m_end + 2 ≤ i.m_start :=
                  hgap prev (List.mem_cons_self prev rest')
                by_cases h4 : (prev.m_end + 1) % W64 = pn
                · have hpp : prev.m_end + 1 = pn := by rw [hm3] at h4; omega
                  have he : addRev pn (i :: prev :: rest')
                      = (⟨prev.m_start, i.m_end⟩ :: rest', true) := by
                    rw [addRev_cons, if_neg h1, if_neg h2, if_pos h3]
                    exact if_pos h4
                  rw [he]
                  refine ⟨?_, ?_, ?_, ?_⟩
                  · exact descChain_cons _ _ (show prev.m_start ≤ i.m_end by omega)
                      hcr' (fun j hj => hg2 j hj)
                  · intro j hj
                    rcases List.mem_cons.mp hj with rfl | hj
                    · exact hiB
                    · exact hrb j (List.mem_cons_of_mem prev hj)
                  · intro n
                    rw [covP_cons, covP_cons, covP_cons]
                    by_cases hr : covP rest' n
                    · simp [hr]
                    · simp only [hr, or_false, PI_start, PI_end]
                      omega
                  · simp only [true_iff]
                    rintro ⟨j, hj, hj1, hj2⟩
                    rcases List.mem_cons.mp hj with rfl | hj
                    · omega
                    · rcases List.mem_cons.mp hj with rfl | hj
                      · omega
                      · have := hg2 j hj; omega
                · have hstrict : prev.m_end + 2 ≤ pn := by
                    rw [hm3] at h4
                    have : prev.m_end + 1 ≤ pn := by omega
                    omega
                  have he : addRev pn (i :: prev :: rest')
                      = (⟨pn, i.m_end⟩ :: prev :: rest', true) := by
                    rw [addRev_cons, if_neg h1, if_neg h2, if_pos h3]
                    exact if_neg h4
                  rw [he]
                  refine ⟨?_, ?_, ?_, ?_⟩
                  · refine descChain_cons _ _ (show pn ≤ i.m_end by omega) hcr ?_
                    intro j hj
                    show j.m_end + 2 ≤ pn
                    rcases List.mem_cons.mp hj with rfl | hj
                    · exact hstrict
                    · have := hg2 j hj; omega
                  · intro j hj
                    rcases List.mem_cons.mp hj with rfl | hj
                    · exact hiB
                    · exact hrb j hj
                  · intro n
                    rw [covP_cons, covP_cons, covP_cons, covP_cons]
                    simp only [PI_start, PI_end]
                    by_cases hr : covP rest' n
                    · simp [hr]
                    · simp only [hr, or_false]
                      omega
                  · simp only [true_iff]
                    rintro ⟨j, hj, hj1, hj2⟩
                    rcases List.mem_cons.mp hj with rfl | hj
                    · omega
                    · rcases List.mem_cons.mp hj with rfl | hj
                      · omega
                      · have := hg2 j hj; omega
          · by_cases h4 : pn > i.m_end
            · have hsep : i.m_end + 2 ≤ pn := by rw [hm1] at h2; omega
              have he : addRev pn (i :: rest) = (⟨pn, pn⟩ :: i :: rest, true) := by
                rw [addRev_cons, if_neg h1, if_neg h2, if_neg h3, if_pos h4]
              rw [he]
              refine ⟨?_, ?_, ?_, ?_⟩
              · refine descChain_cons _ _ (le_refl pn) hc ?_
                intro j hj
                show j.m_end + 2 ≤ pn
                rcases List.mem_cons.mp hj with rfl | hj
                · exact hsep
                · have := hgap j hj; omega
              · intro j hj
                rcases List.mem_cons.mp hj with rfl | hj
                · exact hpn
                · exact hbd j hj
              · intro n
                rw [covP_cons]
                constructor
                · rintro (⟨hn1, hn2⟩ | hn)
                  · have ha : pn ≤ n := hn1
                    have hb : n ≤ pn := hn2
                    exact Or.inr (by omega)
                  · exact Or.inl hn
                · rintro (hn | rfl)
                  · exact Or.inr hn
                  · exact Or.inl ⟨le_refl n, le_refl n⟩
              · simp only [true_iff]
                refine descChain_not_cov_above _ pn ?_
                intro j hj
                rcases List.mem_cons.mp hj with rfl | hj
                · omega
                · have := hgap j hj; omega
            · have hlow : pn + 2 ≤ i.m_start := by
                rw [hm2] at h3
                rcases Nat.lt_or_ge pn i.m_start with hlt | hge
                · omega
                · exact absurd ⟨hge, by omega⟩ h1
              have he : addRev pn (i :: rest)
                  = (i :: (addRev pn rest).1, (addRev pn rest).2) := by
                rw [addRev_cons, if_neg h1, if_neg h2, if_neg h3, if_neg h4]
              obtain ⟨ch, bd, cov, fl⟩ :=
                ih (i.m_start - 2) (by omega) (by omega) hcr
                  (fun j hj => by have := hgap j hj; omega)
              rw [he]
              refine ⟨?_, ?_, ?_, ?_⟩
              · refine descChain_cons _ _ hie ch ?_
                intro j hj
                have := bd j hj; omega
              · intro j hj
                rcases List.mem_cons.mp hj with rfl | hj
                · exact hiB
                · have := bd j hj; omega
              · intro n
                rw [covP_cons, covP_cons, cov n]
                tauto
              · rw [fl, covP_cons]
                have hni : ¬ (i.m_start ≤ pn ∧ pn ≤ i.m_end) := by omega
                simp [hni]

/-- A well-formed descending chain bounded by `B` has at most `(B + 2) / 2`
intervals: each interval takes a packet number and a gap. -/
theorem descChain_length (l : List PacketInterval) :
    ∀ B : Nat, descChain l → (∀ i ∈ l, i.m_end ≤ B) → 2 * l.length ≤ B + 2 := by
  induction l with
  | nil => intro B _ _; simp
  | cons i rest ih =>
      intro B hc hbd
      have hiB : i.m_end ≤ B := hbd i (List.mem_cons_self i rest)
      cases rest with
      | nil => simp only [List.length_singleton]; omega
      | cons j rest' =>
          have hcj : descChain (j :: rest') := hc.2.2
          have h1 := ih j.m_end hcj ?_
          · have h2 : j.m_end + 2 ≤ i.m_start := hc.2.1
            have h3 : i.m_start ≤ i.m_end := hc.1
            simp only [List.length_cons] at h1 ⊢
            omega
          · intro k hk
            rcases List.mem_cons.mp hk with rfl | hk
            · exact le_refl _
            · have := descChain_head_gap j rest' hcj k hk
              have := descChain_head j rest' hcj
              omega

theorem popFront_id (l : List PacketInterval) (h : l.length ≤ MAX_NUMBER_ACK_RANGES) :
    popFrontWhileTooLong l = l := by
  cases l with
  | nil => rfl
  | cons i rest =>
      have hn : ¬ (i :: rest).length > MAX_NUMBER_ACK_RANGES := by omega
      rw [popFrontWhileTooLong, if_neg hn]

/-- `addToRanges` is the reverse-iterator loop on the reversed list, also
when the list starts empty. -/
theorem addToRanges_eq (h : ReceivedPacketHistory) (pn : Nat) :
    h.addToRanges pn
    = ({ h with m_ranges := (addRev pn h.m_ranges.reverse).1.reverse },
       (addRev pn h.m_ranges.reverse).2) := by
  rw [ReceivedPacketHistory.addToRanges]
  by_cases hl : h.m_ranges.length = 0
  · rw [if_pos hl]
    have hnil : h.m_ranges = [] := List.length_eq_zero.mp hl
    rw [hnil]
    rfl
  · rw [if_neg hl]

/-- One `receivedPacket` step preserves the chain invariant, the bound and
the watermark, and adds exactly `pn` to the covered set (for packet numbers
up to 127 the 64-range cap is never hit). -/
theorem receivedPacket_inv (h : ReceivedPacketHistory) (pn : Nat) (S : Nat → Prop)
    (hpn : pn ≤ 127) (hdb : h.m_deleted_below = 0)
    (hch : descChain h.m_ranges.reverse)
    (hbd : ∀ i ∈ h.m_ranges.reverse, i.m_end ≤ 127)
    (hcov : ∀ n, covP h.m_ranges.reverse n ↔ S n) :
    (h.receivedPacket pn).1.m_deleted_below = 0
    ∧ descChain (h.receivedPacket pn).1.m_ranges.reverse
    ∧ (∀ i ∈ (h.receivedPacket pn).1.m_ranges.reverse, i.m_end ≤ 127)
    ∧ (∀ n, covP (h.receivedPacket pn).1.m_ranges.reverse n ↔ S n ∨ n = pn) := by
  obtain ⟨ch, bd, cov, _⟩ :=
    addRev_spec pn h.m_ranges.reverse 127 hpn (by norm_num [W64]) hch hbd
  have hlen : (addRev pn h.m_ranges.reverse).1.reverse.length ≤ MAX_NUMBER_ACK_RANGES := by
    have := descChain_length (addRev pn h.m_ranges.reverse).1 127 ch bd
    rw [List.length_reverse, MAX_NUMBER_ACK_RANGES]
    omega
  have hstep : (h.receivedPacket pn).1
      = { h with m_ranges := (addRev pn h.m_ranges.reverse).1.reverse } := by
    rw [ReceivedPacketHistory.receivedPacket, if_neg (by omega)]
    show (h.addToRanges pn).1.maybeDeleteOldRanges = _
    rw [addToRanges_eq]
    show ReceivedPacketHistory.maybeDeleteOldRanges _ = _
    rw [ReceivedPacketHistory.maybeDeleteOldRanges]
    simp only [popFront_id _ hlen]
  rw [hstep]
  refine ⟨hdb, ?_, ?_, ?_⟩
  · show descChain (addRev pn h.m_ranges.reverse).1.reverse.reverse
    rw [List.reverse_reverse]
    exact ch
  · show ∀ i ∈ (addRev pn h.m_ranges.reverse).1.reverse.reverse, i.m_end ≤ 127
    rw [List.reverse_reverse]
    exact bd
  · intro n
    show covP (addRev pn h.m_ranges.reverse).1.reverse.reverse n ↔ _
    rw [List.reverse_reverse, cov n, hcov n]

/-- A descending chain covering exactly `{0, …, 127}` is the single
interval `[0, 127]`. -/
theorem descChain_cover_singleton (l : List PacketInterval) (hc : descChain l)
    (hcov : ∀ n, covP l n ↔ n ≤ 127) : l = [⟨0, 127⟩] := by
  cases l with
  | nil => exact absurd ((hcov 0).mpr (by omega)) (covP_nil 0)
  | cons i rest =>
      cases rest with
      | cons j rest' =>
          exfalso
          have hgap : j.m_end + 2 ≤ i.m_start := hc.2.1
          have hie : i.m_start ≤ i.m_end := hc.1
          have hje : j.m_start ≤ j.m_end := descChain_head j rest' hc.2.2
          have hg2 : ∀ k ∈ rest', k.m_end + 2 ≤ j.m_start :=
            descChain_head_gap j rest' hc.2.2
          have hiend : i.m_end ≤ 127 :=
            (hcov i.m_end).mp ⟨i, by simp, hie, le_refl _⟩
          have hcv : covP (i :: j :: rest') (j.m_end + 1) :=
            (hcov _).mpr (by omega)
          rcases hcv with ⟨k, hk, hk1, hk2⟩
          rcases List.mem_cons.mp hk with rfl | hk
          · omega
          · rcases List.mem_cons.mp hk with rfl | hk
            · omega
            · have := hg2 k hk; omega
      | nil =>
          cases i with
          | mk a b =>
              have h0 : covP [⟨a, b⟩] 0 := (hcov 0).mpr (by omega)
              have h127 : covP [⟨a, b⟩] 127 := (hcov 127).mpr (by omega)
              have hbnd : b ≤ 127 :=
                (hcov b).mp ⟨⟨a, b⟩, by simp, hc, le_refl _⟩
              rw [covP_cons] at h0 h127
              simp only [covP_nil, or_false, PI_start, PI_end] at h0 h127
              have ha : a = 0 := by omega
              have hb : b = 127 := by omega
              rw [ha, hb]

/-- Folding `receivedPacket` over any list of packet numbers `≤ 127`
keeps the invariant and covers exactly the packets seen. -/
theorem runReceived_inv (pns : List Nat) :
    ∀ (h : ReceivedPacketHistory) (S : Nat → Prop), h.m_deleted_below = 0 →
      descChain h.m_ranges.reverse →
      (∀ i ∈ h.m_ranges.reverse, i.m_end ≤ 127) →
      (∀ n, covP h.m_ranges.reverse n ↔ S n) →
      (∀ x ∈ pns, x ≤ 127) →
      (runReceived h pns).m_deleted_below = 0
      ∧ descChain (runReceived h pns).m_ranges.reverse
      ∧ (∀ i ∈ (runReceived h pns).m_ranges.reverse, i.m_end ≤ 127)
      ∧ (∀ n, covP (runReceived h pns).m_ranges.reverse n ↔ S n ∨ n ∈ pns) := by
  induction pns with
  | nil =>
      intro h S hdb hc hbd hcov _
      refine ⟨hdb, hc, hbd, ?_⟩
      intro n
      rw [show runReceived h [] = h from rfl, hcov n]
      simp
  | cons p ps ih =>
      intro h S hdb hc hbd hcov hmem
      obtain ⟨hdb', hc', hbd', hcov'⟩ :=
        receivedPacket_inv h p S (hmem p (List.mem_cons_self p ps)) hdb hc hbd hcov
      have hrun : runReceived h (p :: ps) = runReceived (h.receivedPacket p).1 ps := rfl
      rw [hrun]
      obtain ⟨g1, g2, g3, g4⟩ :=
        ih (h.receivedPacket p).1 (fun n => S n ∨ n = p) hdb' hc' hbd' hcov'
          (fun x hx => hmem x (List.mem_cons_of_mem p hx))
      refine ⟨g1, g2, g3, ?_⟩
      intro n
      rw [g4 n, List.mem_cons]
      tauto

set_option maxRecDepth 100000 in
/-- C7, counterexample: the claim fails for the permutation of `0..255`
that delivers all even packet numbers first and then all odd ones.  While
the odd numbers arrive, every even number is its own interval, the list
grows past `MAX_NUMBER_ACK_RANGES = 64`, and `maybeDeleteOldRanges` drops
the lowest ranges, so the final list is not `[[0, 255]]` (it is
`[[127, 255]]`). -/
theorem C7_evens_then_odds_not_full_range :
    ((List.range 128).map (fun i => 2 * i)
        ++ (List.range 128).map (fun i => 2 * i + 1)).Perm (List.range 256)
    ∧ (runReceived ReceivedPacketHistory.empty
        ((List.range 128).map (fun i => 2 * i)
          ++ (List.range 128).map (fun i => 2 * i + 1))).m_ranges
      = [⟨127, 255⟩]
    ∧ [(⟨127, 255⟩ : PacketInterval)] ≠ [⟨0, 255⟩] := by
  refine ⟨by decide, by decide, by decide⟩

/-- C7, corrected: starting from an empty `ReceivedPacketHistory`, after
calling `receivedPacket` once with each element of any permutation of the
packet numbers `0..127`, the interval list contains exactly the one
interval `[0, 127]`.  (For `0..127` at most 64 disjoint intervals can ever
coexist, so the `MAX_NUMBER_ACK_RANGES` cap never truncates the list; the
original claim's range `0..255` can exceed the cap and is refuted by
`C7_evens_then_odds_not_full_range`.) -/
theorem C7_received_history_permutation (l : List Nat)
    (hl : l.Perm (List.range 128)) :
    (runReceived ReceivedPacketHistory.empty l).m_ranges = [⟨0, 127⟩] := by
  have hmem : ∀ x ∈ l, x ≤ 127 := by
    intro x hx
    have hx' := hl.mem_iff.mp hx
    rw [List.mem_range] at hx'
    omega
  obtain ⟨_, hc, _, hcov⟩ :=
    runReceived_inv l ReceivedPacketHistory.empty (fun _ => False) rfl trivial
      (fun i hi => absurd hi (List.not_mem_nil i))
      (fun n => ⟨fun hn => covP_nil n hn, False.elim⟩) hmem
  have hsing : (runReceived ReceivedPacketHistory.empty l).m_ranges.reverse
      = [⟨0, 127⟩] := by
    refine descChain_cover_singleton _ hc ?_
    intro n
    rw [hcov n]
    simp only [false_or]
    constructor
    · intro hn
      have hn' := hl.mem_iff.mp hn
      rw [List.mem_range] at hn'
      omega
    · intro hn
      exact hl.mem_iff.mpr (List.mem_range.mpr (by omega))
  have hrr := congrArg List.reverse hsing
  rw [List.reverse_reverse] at hrr
  rw [hrr]
  rfl

/-- Witness for C7 at the identity permutation of `0..127`. -/
theorem C7_received_history_permutation_witness :
    (runReceived ReceivedPacketHistory.empty (List.range 128)).m_ranges
      = [⟨0, 127⟩] :=
  C7_received_history_permutation (List.range 128) (List.Perm.refl _)

/-! ### Received-packet tracker (`quic_packet_sorter.cc:240-450`) -/

/-- `AckRange::len()` — `quic_utils.h` is not in the repository; modelled
from the spec: the number of packet numbers in the closed range,
`largest - smallest + 1`. -/
def AckRange.len (r : AckRange) : Nat := r.largest - r.smallest + 1

/-- `PacketsBeforeAck` config default (`quic_packet_sorter.cc:15`). -/
def PacketsBeforeAck : Nat := 2

/-- `MAX_ACK_DELAY` config default, microseconds
(`quic_packet_sorter.cc:17`). -/
def MAX_ACK_DELAY : Nat := 25 * 1000

/-- `ReceivedPacketTracker` state (`quic_packet_sorter.h:126-238`): the
constructor leaves `m_ack_queued` false, the counters zero and
`m_last_ack` null. -/
structure ReceivedPacketTracker where
  m_packet_history : ReceivedPacketHistory
  m_ack_queued : Bool
  m_ack_eliciting_packets_received_since_last_ack : Nat
  m_ack_alarm : Nat
  m_last_ack : Option AckFrame
  m_ignore_below : Nat
  m_largest_observed : Nat
  m_largest_observed_received_time : Nat
  m_has_new_ack : Bool
deriving DecidableEq, Repr

/-- `ReceivedPacketTracker::hasNewMissingPackets`
(`quic_packet_sorter.cc:301-310`): the highest received range sits above
`largestAcked + 1` of the last sent ACK and has length 1.  When the
history is empty the C++ dereferences a null `AckRange::ptr`; `false`
here models the only reachable uses, where the history is non-empty. -/
def ReceivedPacketTracker.hasNewMissingPackets (t : ReceivedPacketTracker) : Bool :=
  match t.m_last_ack with
  | none => false
  | some la =>
      match t.m_packet_history.getHighestAckRange with
      | none => false
      | some hr =>
          decide (hr.smallest > (la.largestAcked + 1) % W64)
            && decide (AckRange.len hr = 1)

/-- `ReceivedPacketTracker::maybeQueueAck` (`quic_packet_sorter.cc:323-373`). -/
def ReceivedPacketTracker.maybeQueueAck (t : ReceivedPacketTracker)
    (_pn recv_time : Nat) (was_missing : Bool) : ReceivedPacketTracker :=
  match t.m_last_ack with
  | none => { t with m_ack_queued := true }
  | some _ =>
      if t.m_ack_queued then t
      else
        let t1 := { t with m_ack_eliciting_packets_received_since_last_ack :=
          t.m_ack_eliciting_packets_received_since_last_ack + 1 }
        let t2 := if was_missing then { t1 with m_ack_queued := true } else t1
        let t3 :=
          if t2.m_ack_eliciting_packets_received_since_last_ack ≥ PacketsBeforeAck then
            { t2 with m_ack_queued := true }
          else if t2.m_ack_alarm = 0 then
            { t2 with m_ack_alarm := (recv_time + MAX_ACK_DELAY) % W64 }
          else t2
        let t4 :=
          if t3.hasNewMissingPackets then { t3 with m_ack_queued := true } else t3
        if t4.m_ack_queued then { t4 with m_ack_alarm := 0 } else t4

/-- C8, counterexample: with a previous ACK on file, an empty alarm and a
zero counter, processing an ack-eliciting packet that `was_missing`
queues the ACK immediately and leaves the alarm cleared, although the
counter only reached 1 — the claim's `otherwise arm the alarm to
recv_time + max_ack_delay` branch does not happen. -/
theorem C8_was_missing_preempts_alarm :
    (ReceivedPacketTracker.maybeQueueAck
        { m_packet_history := ⟨[⟨0, 12⟩], 0⟩, m_ack_queued := false,
          m_ack_eliciting_packets_received_since_last_ack := 0, m_ack_alarm := 0,
          m_last_ack := some ⟨[⟨0, 10⟩], 0, false, none⟩, m_ignore_below := 0,
          m_largest_observed := 0, m_largest_observed_received_time := 0,
          m_has_new_ack := false }
        11 1000 true).m_ack_queued = true
    ∧ (ReceivedPacketTracker.maybeQueueAck
        { m_packet_history := ⟨[⟨0, 12⟩], 0⟩, m_ack_queued := false,
          m_ack_eliciting_packets_received_since_last_ack := 0, m_ack_alarm := 0,
          m_last_ack := some ⟨[⟨0, 10⟩], 0, false, none⟩, m_ignore_below := 0,
          m_largest_observed := 0, m_largest_observed_received_time := 0,
          m_has_new_ack := false }
        11 1000 true).m_ack_alarm ≠ 1000 + MAX_ACK_DELAY := by
  constructor
  · decide
  · decide

/-- C8, corrected: when a previous ACK exists and no ACK is queued yet,
`maybeQueueAck` increments the counter and queues the ACK exactly when
the packet was missing, or the counter reached `PacketsBeforeAck = 2`,
or a new missing packet is to be reported; the alarm ends cleared when
the ACK is queued, is armed to `recv_time + MAX_ACK_DELAY` when it was
unarmed, and is kept otherwise. -/
theorem C8_maybe_queue_ack (t : ReceivedPacketTracker) (pn rt : Nat) (wm : Bool)
    (hla : t.m_last_ack.isSome = true) (hq : t.m_ack_queued = false) :
    ((t.maybeQueueAck pn rt wm).m_ack_queued
      = (wm
          || decide (t.m_ack_eliciting_packets_received_since_last_ack + 1
              ≥ PacketsBeforeAck)
          || t.hasNewMissingPackets))
    ∧ (t.maybeQueueAck pn rt wm).m_ack_eliciting_packets_received_since_last_ack
        = t.m_ack_eliciting_packets_received_since_last_ack + 1
    ∧ (t.maybeQueueAck pn rt wm).m_ack_alarm
        = (if (wm
              || decide (t.m_ack_eliciting_packets_received_since_last_ack + 1
                  ≥ PacketsBeforeAck)
              || t.hasNewMissingPackets) then 0
           else if t.m_ack_alarm = 0 then (rt + MAX_ACK_DELAY) % W64
           else t.m_ack_alarm)
    ∧ (t.maybeQueueAck pn rt wm).m_packet_history = t.m_packet_history
    ∧ (t.maybeQueueAck pn rt wm).m_last_ack = t.m_last_ack := by
  obtain ⟨hist, q0, cnt0, al0, la0, ib0, lo0, lot0, hn0⟩ := t
  obtain ⟨la, rfl⟩ : ∃ la, la0 = some la := by
    cases la0 with
    | none => exact absurd hla (by simp)
    | some la => exact ⟨la, rfl⟩
  simp only at hq
  subst hq
  have hm : ∀ (q : Bool) (c a i : Nat),
      (ReceivedPacketTracker.mk hist q c a (some la) i lo0 lot0 hn0).hasNewMissingPackets
      = (ReceivedPacketTracker.mk hist false cnt0 al0 (some la) ib0
          lo0 lot0 hn0).hasNewMissingPackets :=
    fun _ _ _ _ => rfl
  simp only [ReceivedPacketTracker.maybeQueueAck]
  by_cases hwm : wm = true
  · subst hwm
    by_cases hcnt : cnt0 + 1 ≥ PacketsBeforeAck
    · simp [hcnt, hm]
    · simp only [hcnt]
      by_cases hal : al0 = 0
      · subst hal
        simp [hcnt, hm]
      · simp [hcnt, hal, hm]
  · have hwm' : wm = false := by revert hwm; cases wm <;> simp
    subst hwm'
    by_cases hcnt : cnt0 + 1 ≥ PacketsBeforeAck
    · simp [hcnt, hm]
    · simp only [hcnt]
      by_cases hnm : (ReceivedPacketTracker.mk hist false cnt0 al0
          (some la) ib0 lo0 lot0 hn0).hasNewMissingPackets = true
      · by_cases hal : al0 = 0
        · subst hal
          simp [hcnt, hm, hnm]
        · simp [hcnt, hal, hm, hnm]
      · have hnm' : (ReceivedPacketTracker.mk hist false cnt0 al0
            (some la) ib0 lo0 lot0 hn0).hasNewMissingPackets = false := by
          revert hnm
          cases (ReceivedPacketTracker.mk hist false cnt0 al0
            (some la) ib0 lo0 lot0 hn0).hasNewMissingPackets <;> simp
        by_cases hal : al0 = 0
        · subst hal
          simp [hcnt, hm, hnm']
        · simp [hcnt, hal, hm, hnm']

/-- Witness for C8: a fresh tracker with a previous ACK arms the alarm to
`1000 + 25000`. -/
theorem C8_maybe_queue_ack_witness :
    ((ReceivedPacketTracker.mk ⟨[⟨0, 10⟩], 0⟩ false 0 0
        (some (AckFrame.mk [⟨0, 10⟩] 0 false none)) 0 0 0 false).maybeQueueAck
        11 1000 false).m_ack_alarm = 26000 := by
  have h := C8_maybe_queue_ack
    (ReceivedPacketTracker.mk ⟨[⟨0, 10⟩], 0⟩ false 0 0
      (some (AckFrame.mk [⟨0, 10⟩] 0 false none)) 0 0 0 false) 11 1000 false rfl rfl
  rw [h.2.2.1]
  decide

end Quic
end AgentLink

namespace AgentLink
namespace Quic

/-! ### Sent-packet history and handler (`quic_packet_sorter.cc:455-1160`) -/

/-- `QuicPacket` — its class lives in `quic_packet.h`, which is not in the
repository; the fields are modelled from the spec and from every use in
`quic_packet_sorter.cc`.  `largest_acked` is `~0ull` (`U64MAX`) when the
packet carried no ACK frame; `frame_count` stands for `frames().size()`
(only the size and the per-frame `onAcked`/`onLost` events are observable
to the claims). -/
structure QPacket where
  pn : Nat
  len : Nat
  send_time : Nat
  frame_count : Nat
  largest_acked : Nat
  included_in_bytes_inflight : Bool
  declared_lost : Bool
  skipped : Bool
deriving DecidableEq, Repr

/-- A default-constructed `QuicPacket` (as made for skip placeholders). -/
def QPacket.mkDefault : QPacket := ⟨0, 0, 0, 0, U64MAX, false, false, false⟩

/-- Dereference a packet "pointer" (an index into the object store). -/
def storeGet (s : List QPacket) (i : Nat) : QPacket := s.getD i QPacket.mkDefault

/-- `std::map`/`std::unordered_map` from packet number to list node:
insert overwrites the key. -/
def mapInsert (k v : Nat) (m : List (Nat × Nat)) : List (Nat × Nat) :=
  (k, v) :: m.filter (fun e => e.1 != k)

def mapFind (k : Nat) (m : List (Nat × Nat)) : Option Nat :=
  (m.find? (fun e => e.1 == k)).map (fun e => e.2)

def mapErase (k : Nat) (m : List (Nat × Nat)) : List (Nat × Nat) :=
  m.filter (fun e => e.1 != k)

/-- `SentPacketHistory` state: shared mutable `QuicPacket` objects live in
`store` (a pointer is an index), `m_packet_list` is the list of nodes
`(node id, packet pointer)` in list order, `m_packet_map` maps a packet
number to the node id its iterator designates. -/
structure SPHistory where
  store : List QPacket
  node_list : List (Nat × Nat)
  node_map : List (Nat × Nat)
  next_node : Nat
  m_highest_sent : Nat
deriving DecidableEq, Repr

def SPHistory.empty : SPHistory := ⟨[], [], [], 0, 0⟩

/-- The packet numbers of the history list, in list order. -/
def SPHistory.pnList (h : SPHistory) : List Nat :=
  h.node_list.map (fun e => (storeGet h.store e.2).pn)

/-- `SentPacketHistory::sentPacket` (`quic_packet_sorter.cc:507-535`).
The guard `packet->packetNumber() < m_highest_sent` only logs in a release
build (`_ASSERT` expands to `assert`, disabled under `NDEBUG`), so the
function proceeds for every input; in particular `pn == m_highest_sent`
passes the guard silently. -/
def SPHistory.sentPacket (h : SPHistory) (pid : Nat) (is_ack_eliciting : Bool)
    (now : Nat) : SPHistory :=
  let packet := storeGet h.store pid
  let skips := (List.range (packet.pn - (h.m_highest_sent + 1))).map
    (fun k => h.m_highest_sent + 1 + k)
  let h1 := skips.foldl (fun (acc : SPHistory) pn =>
    { acc with
      store := acc.store ++
        [{ QPacket.mkDefault with pn := pn, send_time := now, skipped := true }],
      node_list := acc.node_list ++ [(acc.next_node, acc.store.length)],
      node_map := mapInsert pn acc.next_node acc.node_map,
      next_node := acc.next_node + 1 }) h
  let h2 := { h1 with m_highest_sent := packet.pn }
  if is_ack_eliciting then
    { h2 with
      node_list := h2.node_list ++ [(h2.next_node, pid)],
      node_map := mapInsert packet.pn h2.next_node h2.node_map,
      next_node := h2.next_node + 1 }
  else h2

/-- `SentPacketHistory::remove` (`quic_packet_sorter.cc:581-594`). -/
def SPHistory.remove (h : SPHistory) (pn : Nat) : SPHistory × Bool :=
  match mapFind pn h.node_map with
  | none => (h, false)
  | some nid =>
      ({ h with node_list := h.node_list.filter (fun e => e.1 != nid),
                node_map := mapErase pn h.node_map }, true)

/-- `SentPacketHistory::firstOutstanding` (`quic_packet_sorter.cc:560-569`):
the first node that is neither declared lost nor a skip placeholder. -/
def SPHistory.firstOutstanding (h : SPHistory) : Option Nat :=
  (h.node_list.find? (fun e =>
    !(storeGet h.store e.2).declared_lost && !(storeGet h.store e.2).skipped)).map
    (fun e => e.2)

/-- The loop body of `SentPacketHistory::deleteOldPackets`
(`quic_packet_sorter.cc:608-632`): returns the remaining node list and the
packet numbers erased from the map. -/
def deleteOldGo (store : List QPacket) (cutoff : Nat) :
    List (Nat × Nat) → List (Nat × Nat) × List Nat
  | [] => ([], [])
  | (nid, pid) :: rest =>
      let p := storeGet store pid
      if cutoff < p.send_time then ((nid, pid) :: rest, [])
      else if !p.skipped && !p.declared_lost then
        let r := deleteOldGo store cutoff rest
        ((nid, pid) :: r.1, r.2)
      else
        let r := deleteOldGo store cutoff rest
        (r.1, p.pn :: r.2)

/-- `SentPacketHistory::deleteOldPackets`; `cutoff` is the `uint64_t`
value `now - max_age`. -/
def SPHistory.deleteOldPackets (h : SPHistory) (cutoff : Nat) : SPHistory :=
  let r := deleteOldGo h.store cutoff h.node_list
  { h with node_list := r.1,
           node_map := r.2.foldl (fun m pn => mapErase pn m) h.node_map }

/-- `RTTStats` — `quic_utils.h` is not in the repository; modelled from the
spec: PTO is `smoothed_rtt + max(4*rttvar, 1ms) + max_ack_delay`, and an
RTT update records the sample (`update_count` makes "an RTT update
happened" observable). -/
structure RTTStats where
  latest : Nat
  smoothed : Nat
  rttvar : Nat
  max_ack_delay_us : Nat
  update_count : Nat
deriving DecidableEq, Repr

def RTTStats.PTO (r : RTTStats) (_include_max_ack_delay : Bool) : Nat :=
  r.smoothed + max (4 * r.rttvar) 1000 + r.max_ack_delay_us

/-- `RTTStats::updateRTT` — modelled from the spec only as far as the
claims observe it: the sample is stored and the update is counted. -/
def RTTStats.updateRTT (r : RTTStats) (sample _ack_delay _now : Nat) : RTTStats :=
  { r with latest := sample, update_count := r.update_count + 1 }

/-- `QuicAckFrame::lowestAcked` (`quic_frame.cc:734-737`):
`m_ack_ranges[size-1]->m_smallest`. -/
def AckFrame.lowestAcked (f : AckFrame) : Nat :=
  ((f.ranges.getLast?).getD ⟨0, 0⟩).smallest

/-- `SentPacketHandler` state (`quic_packet_sorter.h:322-554`), with the
congestion controller and the per-frame callbacks modelled as event
counters/lists: `cong_on_sent` counts `onPacketSent`, `cong_events` counts
BBR `onCongEvent` (the constructor sets `m_is_bbr = 1`),
`cong_slow_start_exits` counts `maybeExitSlowStart`, `acked_frames` and
`lost_frames` record the packet numbers whose frames received
`onAcked`/`onLost`. -/
structure SentPacketHandlerS where
  hist : SPHistory
  m_rtt_stats : RTTStats
  m_bytes_inflight : Nat
  m_bytes_sent : Nat
  m_bytes_received : Nat
  m_largest_sent : Nat
  m_largest_acked : Nat
  m_loss_time : Nat
  m_last_ack_eliciting_packet_time : Nat
  m_send_interval : Nat
  m_lowest_not_confirmed_acked : Nat
  m_PTO_count : Nat
  m_num_probes_to_send : Nat
  m_alarm : Nat
  cong_on_sent : Nat
  cong_events : Nat
  cong_slow_start_exits : Nat
  acked_frames : List Nat
  lost_frames : List Nat
deriving DecidableEq, Repr

/-- A freshly constructed handler (`quic_packet_sorter.h` member
initialisers: `m_largest_sent = ~0ull`, `m_largest_acked = 0`, the rest
zero / empty). -/
def SentPacketHandlerS.init (rtt : RTTStats) : SentPacketHandlerS :=
  { hist := SPHistory.empty, m_rtt_stats := rtt, m_bytes_inflight := 0,
    m_bytes_sent := 0, m_bytes_received := 0, m_largest_sent := U64MAX,
    m_largest_acked := 0, m_loss_time := 0,
    m_last_ack_eliciting_packet_time := 0, m_send_interval := 0,
    m_lowest_not_confirmed_acked := 0, m_PTO_count := 0,
    m_num_probes_to_send := 0, m_alarm := 0, cong_on_sent := 0,
    cong_events := 0, cong_slow_start_exits := 0, acked_frames := [],
    lost_frames := [] }

/-- `SentPacketHandler::removeFromBytesInflight`
(`quic_packet_sorter.cc:670-682`); the negative-bytes guard only logs in a
release build, so the `uint64_t` subtraction wraps. -/
def SentPacketHandlerS.removeFromBytesInflight (s : SentPacketHandlerS)
    (pid : Nat) : SentPacketHandlerS :=
  let p := storeGet s.hist.store pid
  if p.included_in_bytes_inflight then
    let st := s.hist.store.set pid ({ p with included_in_bytes_inflight := false })
    { s with
      m_bytes_inflight := (s.m_bytes_inflight + W64 - p.len % W64) % W64,
      hist := { s.hist with store := st } }
  else s

/-- `SentPacketHandler::queueFramesForRetransmission`
(`quic_packet_sorter.cc:870-886`): every frame gets `onLost` (recorded as
an event) and the packet's frames are cleared. -/
def SentPacketHandlerS.queueFramesForRetransmission (s : SentPacketHandlerS)
    (pid : Nat) : SentPacketHandlerS :=
  let p := storeGet s.hist.store pid
  let st := s.hist.store.set pid ({ p with frame_count := 0 })
  { s with lost_frames := s.lost_frames ++ [p.pn],
           hist := { s.hist with store := st } }

/-- `SentPacketHandler::sentPacketImpl` (`quic_packet_sorter.cc:716-746`). -/
def SentPacketHandlerS.sentPacketImpl (s : SentPacketHandlerS) (pid : Nat) :
    SentPacketHandlerS × Bool :=
  let packet := storeGet s.hist.store pid
  let s1 := { s with m_largest_sent := packet.pn }
  let is_ack_eliciting := packet.frame_count > 0
  let s2 :=
    if is_ack_eliciting then
      let pst := packet.send_time
      let sa := if s1.m_last_ack_eliciting_packet_time ≠ 0 then
          { s1 with m_send_interval :=
              (pst + W64 - s1.m_last_ack_eliciting_packet_time % W64) % W64 }
        else s1
      let sb := { sa with m_last_ack_eliciting_packet_time := pst }
      let st := sb.hist.store.set pid ({ packet with included_in_bytes_inflight := true })
      let sc := { sb with
        hist := { sb.hist with store := st },
        m_bytes_inflight := (sb.m_bytes_inflight + packet.len) % W64 }
      if sc.m_num_probes_to_send > 0 then
        { sc with m_num_probes_to_send := sc.m_num_probes_to_send - 1 }
      else sc
    else s1
  let s3 := { s2 with hist := s2.hist.sentPacket pid is_ack_eliciting packet.send_time }
  ({ s3 with cong_on_sent := s3.cong_on_sent + 1 }, is_ack_eliciting)

/-- `SentPacketHandler::setLossDetectionTimer`
(`quic_packet_sorter.cc:777-807`). -/
def SentPacketHandlerS.setLossDetectionTimer (s : SentPacketHandlerS) :
    SentPacketHandlerS :=
  if s.m_loss_time ≠ 0 then { s with m_alarm := s.m_loss_time }
  else if (s.hist.firstOutstanding).isNone then { s with m_alarm := 0 }
  else
    let rtt_pto := s.m_rtt_stats.PTO false
    let pto := if s.m_last_ack_eliciting_packet_time ≠ 0 then
        (s.m_last_ack_eliciting_packet_time + rtt_pto * 2 ^ s.m_PTO_count) % W64
      else 0
    { s with m_alarm := pto }

/-- `SentPacketHandler::sentPacket` (`quic_packet_sorter.cc:816-835`);
`now` stands for the `GetCurrentUS()` value that shadows the parameter.
Note the history records the packet TWICE: once inside `sentPacketImpl`
and once directly. -/
def SentPacketHandlerS.sentPacket (s : SentPacketHandlerS) (pid : Nat)
    (now : Nat) : SentPacketHandlerS :=
  let packet := storeGet s.hist.store pid
  let s1 := { s with m_bytes_sent := (s.m_bytes_sent + packet.len) % W64 }
  let r := s1.sentPacketImpl pid
  let s2 := r.1
  let p2 := storeGet s2.hist.store pid
  let st := s2.hist.store.set pid ({ p2 with send_time := now })
  let s3 := { s2 with hist := { s2.hist with store := st } }
  let s4 := { s3 with hist := s3.hist.sentPacket pid r.2 now }
  if r.2 then s4.setLossDetectionTimer else s4

/-- `timeThreshold = 9.0/8`, `std::ceil`, and the `loss_delay > 1.0`
floor of `detectLostPackets` (`quic_packet_sorter.cc:903-923`), combined
into the integer `⌈loss_delay⌉`: this is exact for the float computation
whenever `9 * max_rtt < 2^24` (the products fit a `float` mantissa). -/
def lossDelayCeil (max_rtt : Nat) : Nat :=
  if 9 * max_rtt > 8 then (9 * max_rtt + 7) / 8 else 1

/-- `packetThreshold` (`quic_packet_sorter.h:330`). -/
def packetThreshold : Nat := 3

/-- The `Iterate` callback loop of `SentPacketHandler::detectLostPackets`
(`quic_packet_sorter.cc:930-974`), with `m_is_bbr = 1`: walks the nodes in
list order, stops at the first packet above `largest_acked`, marks lost
packets (clearing their in-flight flag and queuing their frames), and
lets the first surviving packet set `m_loss_time` once. -/
def detectLostGo (la lost_send_time ldc : Nat) :
    List (Nat × Nat) → SentPacketHandlerS → List Nat →
      SentPacketHandlerS × List Nat
  | [], s, lost => (s, lost)
  | (_, pid) :: rest, s, lost =>
      let p := storeGet s.hist.store pid
      if p.pn > la then (s, lost)
      else if p.declared_lost || p.skipped then
        detectLostGo la lost_send_time ldc rest s lost
      else if p.send_time < lost_send_time ∨ la ≥ p.pn + packetThreshold then
        let st := s.hist.store.set pid ({ p with declared_lost := true })
        let s1 := { s with hist := { s.hist with store := st } }
        let s2 := s1.removeFromBytesInflight pid
        let s3 := s2.queueFramesForRetransmission pid
        detectLostGo la lost_send_time ldc rest s3 (lost ++ [pid])
      else if s.m_loss_time = 0 then
        detectLostGo la lost_send_time ldc rest
          { s with m_loss_time := (p.send_time + ldc) % W64 } lost
      else detectLostGo la lost_send_time ldc rest s lost

/-- `SentPacketHandler::detectLostPackets` (`quic_packet_sorter.cc:903-978`);
the C++ always returns `true`, so only the state and the collected lost
packets are produced. -/
def SentPacketHandlerS.detectLostPackets (s : SentPacketHandlerS) (now : Nat) :
    SentPacketHandlerS × List Nat :=
  let s0 := { s with m_loss_time := 0 }
  let max_rtt := max s.m_rtt_stats.latest s.m_rtt_stats.smoothed
  let ldc := lossDelayCeil max_rtt
  let lost_send_time := (now + W64 - ldc % W64) % W64
  detectLostGo s.m_largest_acked lost_send_time ldc s0.hist.node_list s0 []

/-- The `while` that advances `ack_range_idx` in
`detectAndRemoveAckedPackets` (`quic_packet_sorter.cc:1020-1024`); the
fuel is the range count, an upper bound on the loop's trips. -/
def advanceIdxGo (ranges : List AckRange) (pn : Nat) : Nat → Nat → Nat
  | idx, 0 => idx
  | idx, fuel + 1 =>
      let n := ranges.length
      let r := ranges.getD (n - 1 - idx) ⟨0, 0⟩
      if r.largest < pn ∧ idx < n - 1 then advanceIdxGo ranges pn (idx + 1) fuel
      else idx

/-- The `Iterate` collect loop of `detectAndRemoveAckedPackets`
(`quic_packet_sorter.cc:1003-1044`): gathers the acked packets in list
order, walking the ACK ranges smallest-first when the frame has missing
ranges. -/
def collectAckedGo (frame : AckFrame) (lowest largest : Nat)
    (store : List QPacket) :
    List (Nat × Nat) → Nat → List Nat → List Nat
  | [], _, acc => acc
  | (_, pid) :: rest, idx, acc =>
      let p := storeGet store pid
      if p.pn < lowest then collectAckedGo frame lowest largest store rest idx acc
      else if p.pn > largest then acc
      else if frame.ranges.length > 1 then
        let idx' := advanceIdxGo frame.ranges p.pn idx frame.ranges.length
        let r := frame.ranges.getD (frame.ranges.length - 1 - idx') ⟨0, 0⟩
        if p.pn < r.smallest then
          collectAckedGo frame lowest largest store rest idx' acc
        else if p.pn > r.largest then acc
        else if p.skipped then acc
        else collectAckedGo frame lowest largest store rest idx' (acc ++ [pid])
      else if p.skipped then acc
      else collectAckedGo frame lowest largest store rest idx (acc ++ [pid])

/-- The per-acked-packet loop of `detectAndRemoveAckedPackets`
(`quic_packet_sorter.cc:1046-1065`): updates
`m_lowest_not_confirmed_acked`, fires `onAcked` for the packet's frames,
and removes the packet from the history; a failing remove aborts with
`false` (the C++ returns an empty vector). -/
def processAckedGo : SentPacketHandlerS → List Nat → SentPacketHandlerS × Bool
  | s, [] => (s, true)
  | s, pid :: rest =>
      let p := storeGet s.hist.store pid
      let lnca := max s.m_lowest_not_confirmed_acked ((p.largest_acked + 1) % W64)
      let s1 := if p.largest_acked ≠ U64MAX then
          { s with m_lowest_not_confirmed_acked := lnca }
        else s
      let s2 := { s1 with acked_frames := s1.acked_frames ++ [p.pn] }
      let r := s2.hist.remove p.pn
      let s3 := { s2 with hist := r.1 }
      if r.2 then processAckedGo s3 rest else (s3, false)

/-- `SentPacketHandler::detectAndRemoveAckedPackets`
(`quic_packet_sorter.cc:988-1069`). -/
def SentPacketHandlerS.detectAndRemoveAckedPackets (s : SentPacketHandlerS)
    (frame : AckFrame) : SentPacketHandlerS × List Nat :=
  let acked := collectAckedGo frame frame.lowestAcked frame.largestAcked
    s.hist.store s.hist.node_list 0 []
  let r := processAckedGo s acked
  (r.1, if r.2 then acked else [])

/-- `SentPacketHandler::receivedAck` (`quic_packet_sorter.cc:1080-1160`),
with `m_is_bbr = 1` (one bulk `onCongEvent` per successful call) and
`acked_1RTT_packet` never set, so a completed call returns `false` too. -/
def SentPacketHandlerS.receivedAck (s : SentPacketHandlerS) (frame : AckFrame)
    (recv_time : Nat) : SentPacketHandlerS × Bool :=
  let largest_acked := frame.largestAcked
  if largest_acked > s.m_largest_sent then (s, false)
  else
    let s1 := { s with m_largest_acked := max s.m_largest_acked largest_acked }
    let r1 := s1.detectAndRemoveAckedPackets frame
    let s2 := r1.1
    let acked := r1.2
    if acked.length = 0 then (s2, false)
    else
      let pid := acked.getLastD 0
      let p := storeGet s2.hist.store pid
      let s3 :=
        if p.pn = frame.largestAcked then
          let ack_delay := min frame.ack_delay s2.m_rtt_stats.max_ack_delay_us
          let real_rtt := (recv_time + W64 - p.send_time % W64) % W64
          let rs := s2.m_rtt_stats.updateRTT real_rtt ack_delay recv_time
          { s2 with
            m_rtt_stats := rs,
            cong_slow_start_exits := s2.cong_slow_start_exits + 1 }
        else s2
      let r2 := s3.detectLostPackets recv_time
      let s4 := acked.foldl (fun s pid => s.removeFromBytesInflight pid) r2.1
      let s5 := { s4 with cong_events := s4.cong_events + 1 }
      let s6 := { s5 with m_PTO_count := 0, m_num_probes_to_send := 0 }
      let cutoff := (recv_time + W64 - (3 * s6.m_rtt_stats.PTO false) % W64) % W64
      let s7 := { s6 with hist := s6.hist.deleteOldPackets cutoff }
      (s7.setLossDetectionTimer, false)

end Quic
end AgentLink

namespace AgentLink
namespace Quic

/-- Sum of `len` over history packets whose in-flight flag is set (the
right-hand side of the C3 invariant). -/
def SPHistory.inflightSum (h : SPHistory) : Nat :=
  (h.node_list.map (fun e =>
    let p := storeGet h.store e.2
    if p.included_in_bytes_inflight then p.len else 0)).sum

/-- The loss condition of the `detectLostPackets` loop, as a predicate of
the packet's pre-call state. -/
def lostCondB (la lst : Nat) (p : QPacket) : Bool :=
  !p.declared_lost && !p.skipped && decide (p.pn ≤ la)
    && (decide (p.send_time < lst) || decide (la ≥ p.pn + packetThreshold))

/-- A surviving packet: considered by the loop but not lost (it is such a
packet — the first one — that sets `m_loss_time`). -/
def survivorCondB (la lst : Nat) (p : QPacket) : Bool :=
  !p.declared_lost && !p.skipped && decide (p.pn ≤ la)
    && !(decide (p.send_time < lst) || decide (la ≥ p.pn + packetThreshold))

/-- What `detectLostPackets` does to one packet. -/
def markLost (la lst : Nat) (p : QPacket) : QPacket :=
  if lostCondB la lst p then
    { p with declared_lost := true, included_in_bytes_inflight := false,
             frame_count := 0 }
  else p

/-- The packet pointers the loop declares lost, in list order. -/
def lostPidsOf (la lst : Nat) (store : List QPacket)
    (nodes : List (Nat × Nat)) : List Nat :=
  (nodes.filter (fun e => lostCondB la lst (storeGet store e.2))).map
    (fun e => e.2)

/-- The `m_loss_time` the loop computes when it starts from zero: the
first survivor's `send_time + ⌈loss_delay⌉`. -/
def lossTimeOf (la lst ldc : Nat) (store : List QPacket)
    (nodes : List (Nat × Nat)) : Nat :=
  match nodes.find? (fun e => survivorCondB la lst (storeGet store e.2)) with
  | some e => ((storeGet store e.2).send_time + ldc) % W64
  | none => 0

theorem storeGet_set_self (st : List QPacket) (i : Nat) (v : QPacket)
    (h : i < st.length) : storeGet (st.set i v) i = v := by
  simp [storeGet, List.getD, List.getElem?_set_self', h]

theorem storeGet_set_ne (st : List QPacket) (i j : Nat) (v : QPacket)
    (h : i ≠ j) : storeGet (st.set i v) j = storeGet st j := by
  simp [storeGet, List.getD, List.getElem?_set_ne h]

theorem lostPidsOf_congr (la lst : Nat) (st1 st2 : List QPacket)
    (nodes : List (Nat × Nat))
    (h : ∀ e ∈ nodes, storeGet st1 e.2 = storeGet st2 e.2) :
    lostPidsOf la lst st1 nodes = lostPidsOf la lst st2 nodes := by
  unfold lostPidsOf
  rw [List.filter_congr]
  intro e he
  rw [h e he]

theorem lossTimeOf_congr (la lst ldc : Nat) (st1 st2 : List QPacket)
    (nodes : List (Nat × Nat))
    (h : ∀ e ∈ nodes, storeGet st1 e.2 = storeGet st2 e.2) :
    lossTimeOf la lst ldc st1 nodes = lossTimeOf la lst ldc st2 nodes := by
  induction nodes with
  | nil => rfl
  | cons e rest ih =>
      have he : storeGet st1 e.2 = storeGet st2 e.2 := h e (List.mem_cons_self e rest)
      have ih' := ih (fun x hx => h x (List.mem_cons_of_mem e hx))
      unfold lossTimeOf
      rw [List.find?_cons, List.find?_cons, he]
      by_cases hc : survivorCondB la lst (storeGet st2 e.2) = true
      · simp only [hc]
        rw [he]
      · have hc' : survivorCondB la lst (storeGet st2 e.2) = false := by
          revert hc; cases survivorCondB la lst (storeGet st2 e.2) <;> simp
        simp only [hc']
        exact ih'

theorem lostPidsOf_nil_of_high (la lst : Nat) (store : List QPacket)
    (nodes : List (Nat × Nat))
    (h : ∀ e ∈ nodes, ¬ (storeGet store e.2).pn ≤ la) :
    lostPidsOf la lst store nodes = [] := by
  unfold lostPidsOf
  rw [List.filter_eq_nil_iff.mpr]
  · rfl
  · intro e he
    simp [lostCondB, h e he]

theorem lossTimeOf_zero_of_high (la lst ldc : Nat) (store : List QPacket)
    (nodes : List (Nat × Nat))
    (h : ∀ e ∈ nodes, ¬ (storeGet store e.2).pn ≤ la) :
    lossTimeOf la lst ldc store nodes = 0 := by
  unfold lossTimeOf
  rw [List.find?_eq_none.mpr]
  intro e he
  simp [survivorCondB, h e he]

end Quic
end AgentLink

namespace AgentLink
namespace Quic

theorem lostCondB_false_of_high (la lst : Nat) (p : QPacket)
    (h : ¬ p.pn ≤ la) : lostCondB la lst p = false := by
  simp [lostCondB, h]

theorem survivorCondB_false_of_high (la lst : Nat) (p : QPacket)
    (h : ¬ p.pn ≤ la) : survivorCondB la lst p = false := by
  simp [survivorCondB, h]

theorem lostCondB_false_of_flag (la lst : Nat) (p : QPacket)
    (h : (p.declared_lost || p.skipped) = true) : lostCondB la lst p = false := by
  have h' : p.declared_lost = true ∨ p.skipped = true := by simpa using h
  rcases h' with h' | h' <;> simp [lostCondB, h']

theorem survivorCondB_false_of_flag (la lst : Nat) (p : QPacket)
    (h : (p.declared_lost || p.skipped) = true) : survivorCondB la lst p = false := by
  have h' : p.declared_lost = true ∨ p.skipped = true := by simpa using h
  rcases h' with h' | h' <;> simp [survivorCondB, h']

theorem lostCondB_false_of_within (la lst : Nat) (p : QPacket)
    (h : ¬ (p.send_time < lst ∨ la ≥ p.pn + packetThreshold)) :
    lostCondB la lst p = false := by
  push_neg at h
  simp [lostCondB, h.1, h.2]

theorem lostCondB_true_of (la lst : Nat) (p : QPacket)
    (h1 : ¬ (p.declared_lost || p.skipped) = true) (h2 : ¬ p.pn > la)
    (h3 : p.send_time < lst ∨ la ≥ p.pn + packetThreshold) :
    lostCondB la lst p = true := by
  have hd : p.declared_lost = false := by
    revert h1; cases p.declared_lost <;> simp
  have hs : p.skipped = false := by
    revert h1; cases p.skipped <;> simp
  have h2' : p.pn ≤ la := Nat.le_of_not_lt h2
  rcases h3 with h3 | h3 <;> simp [lostCondB, hd, hs, h2', h3]

theorem survivorCondB_true_of (la lst : Nat) (p : QPacket)
    (h1 : ¬ (p.declared_lost || p.skipped) = true) (h2 : ¬ p.pn > la)
    (h3 : ¬ (p.send_time < lst ∨ la ≥ p.pn + packetThreshold)) :
    survivorCondB la lst p = true := by
  have hd : p.declared_lost = false := by
    revert h1; cases p.declared_lost <;> simp
  have hs : p.skipped = false := by
    revert h1; cases p.skipped <;> simp
  have h2' : p.pn ≤ la := Nat.le_of_not_lt h2
  push_neg at h3
  simp [survivorCondB, hd, hs, h2', h3.1, h3.2]

theorem markLost_eq_self (la lst : Nat) (p : QPacket)
    (h : lostCondB la lst p = false) : markLost la lst p = p := by
  simp [markLost, h]

theorem lostPidsOf_cons_true (la lst : Nat) (st : List QPacket)
    (x : Nat × Nat) (rest : List (Nat × Nat))
    (h : lostCondB la lst (storeGet st x.2) = true) :
    lostPidsOf la lst st (x :: rest) = x.2 :: lostPidsOf la lst st rest := by
  simp [lostPidsOf, List.filter_cons, h]

theorem lostPidsOf_cons_false (la lst : Nat) (st : List QPacket)
    (x : Nat × Nat) (rest : List (Nat × Nat))
    (h : lostCondB la lst (storeGet st x.2) = false) :
    lostPidsOf la lst st (x :: rest) = lostPidsOf la lst st rest := by
  simp [lostPidsOf, List.filter_cons, h]

theorem lossTimeOf_cons_true (la lst ldc : Nat) (st : List QPacket)
    (x : Nat × Nat) (rest : List (Nat × Nat))
    (h : survivorCondB la lst (storeGet st x.2) = true) :
    lossTimeOf la lst ldc st (x :: rest)
      = ((storeGet st x.2).send_time + ldc) % W64 := by
  simp [lossTimeOf, List.find?_cons, h]

theorem lossTimeOf_cons_false (la lst ldc : Nat) (st : List QPacket)
    (x : Nat × Nat) (rest : List (Nat × Nat))
    (h : survivorCondB la lst (storeGet st x.2) = false) :
    lossTimeOf la lst ldc st (x :: rest) = lossTimeOf la lst ldc st rest := by
  simp [lossTimeOf, List.find?_cons, h]

end Quic
end AgentLink

namespace AgentLink
namespace Quic

theorem removeFromBytesInflight_facts (s : SentPacketHandlerS) (pid : Nat)
    (hpid : pid < s.hist.store.length) :
    (s.removeFromBytesInflight pid).m_loss_time = s.m_loss_time
    ∧ (s.removeFromBytesInflight pid).hist.store.length = s.hist.store.length
    ∧ storeGet (s.removeFromBytesInflight pid).hist.store pid
        = { storeGet s.hist.store pid with included_in_bytes_inflight := false }
    ∧ (∀ j, j ≠ pid →
        storeGet (s.removeFromBytesInflight pid).hist.store j
          = storeGet s.hist.store j) := by
  unfold SentPacketHandlerS.removeFromBytesInflight
  by_cases hpi : (storeGet s.hist.store pid).included_in_bytes_inflight = true
  · rw [if_pos hpi]
    refine ⟨rfl, by simp, ?_, ?_⟩
    · exact storeGet_set_self _ _ _ hpid
    · intro j hj
      exact storeGet_set_ne _ _ _ _ (fun h => hj h.symm)
  · rw [if_neg hpi]
    have hpi' : (storeGet s.hist.store pid).included_in_bytes_inflight = false := by
      revert hpi; cases (storeGet s.hist.store pid).included_in_bytes_inflight <;> simp
    refine ⟨rfl, rfl, ?_, fun j _ => rfl⟩
    rw [show ({ storeGet s.hist.store pid with
        included_in_bytes_inflight := false } : QPacket)
      = { storeGet s.hist.store pid with
        included_in_bytes_inflight := (storeGet s.hist.store pid).included_in_bytes_inflight }
      from by rw [hpi']]

theorem queueFrames_facts (s : SentPacketHandlerS) (pid : Nat)
    (hpid : pid < s.hist.store.length) :
    (s.queueFramesForRetransmission pid).m_loss_time = s.m_loss_time
    ∧ (s.queueFramesForRetransmission pid).hist.store.length = s.hist.store.length
    ∧ storeGet (s.queueFramesForRetransmission pid).hist.store pid
        = { storeGet s.hist.store pid with frame_count := 0 }
    ∧ (∀ j, j ≠ pid →
        storeGet (s.queueFramesForRetransmission pid).hist.store j
          = storeGet s.hist.store j) := by
  unfold SentPacketHandlerS.queueFramesForRetransmission
  refine ⟨rfl, by simp, ?_, ?_⟩
  · exact storeGet_set_self _ _ _ hpid
  · intro j hj
    exact storeGet_set_ne _ _ _ _ (fun h => hj h.symm)

end Quic
end AgentLink

namespace AgentLink
namespace Quic

/-- Complete characterization of the `detectLostPackets` iteration on a
well-formed history segment: the collected lost packets are exactly those
satisfying the loss condition, every packet's final state is `markLost` of
its initial state, and `m_loss_time` (when it starts at zero) becomes the
first survivor's `send_time + ⌈loss_delay⌉`. -/
theorem detectLostGo_spec (la lst ldc : Nat) (hldc : 1 ≤ ldc) :
    ∀ (nodes : List (Nat × Nat)) (s : SentPacketHandlerS) (lost : List Nat),
      (nodes.map (fun e => e.2)).Nodup →
      List.Pairwise (fun a b =>
        (storeGet s.hist.store a.2).pn ≤ (storeGet s.hist.store b.2).pn) nodes →
      (∀ e ∈ nodes, e.2 < s.hist.store.length) →
      (∀ e ∈ nodes, (storeGet s.hist.store e.2).send_time + ldc < W64) →
      (detectLostGo la lst ldc nodes s lost).2
          = lost ++ lostPidsOf la lst s.hist.store nodes
      ∧ (detectLostGo la lst ldc nodes s lost).1.m_loss_time
          = (if s.m_loss_time ≠ 0 then s.m_loss_time
             else lossTimeOf la lst ldc s.hist.store nodes)
      ∧ (∀ e ∈ nodes,
          storeGet (detectLostGo la lst ldc nodes s lost).1.hist.store e.2
            = markLost la lst (storeGet s.hist.store e.2))
      ∧ (∀ j, j ∉ nodes.map (fun e => e.2) →
          storeGet (detectLostGo la lst ldc nodes s lost).1.hist.store j
            = storeGet s.hist.store j)
      ∧ (detectLostGo la lst ldc nodes s lost).1.hist.store.length
          = s.hist.store.length := by
  intro nodes
  induction nodes with
  | nil =>
      intro s lost _ _ _ _
      refine ⟨by simp [detectLostGo, lostPidsOf], ?_, by simp [detectLostGo],
        fun j _ => rfl, rfl⟩
      by_cases hl : s.m_loss_time = 0
      · simp [detectLostGo, hl, lossTimeOf]
      · simp [detectLostGo, hl]
  | cons e rest ih =>
      obtain ⟨nid, pid⟩ := e
      intro s lost hnd hpw hbd hnw
      have hpid : pid < s.hist.store.length :=
        hbd (nid, pid) (List.mem_cons_self _ _)
      have hnd2 := hnd
      rw [List.map_cons, List.nodup_cons] at hnd2
      obtain ⟨hpnotin, hndr⟩ := hnd2
      have hpwr : List.Pairwise (fun a b =>
          (storeGet s.hist.store a.2).pn ≤ (storeGet s.hist.store b.2).pn) rest :=
        hpw.of_cons
      have hpwh : ∀ b ∈ rest, (storeGet s.hist.store pid).pn
          ≤ (storeGet s.hist.store b.2).pn :=
        fun b hb => List.rel_of_pairwise_cons hpw hb
      have hbdr : ∀ x ∈ rest, x.2 < s.hist.store.length :=
        fun x hx => hbd x (List.mem_cons_of_mem _ hx)
      have hnwr : ∀ x ∈ rest, (storeGet s.hist.store x.2).send_time + ldc < W64 :=
        fun x hx => hnw x (List.mem_cons_of_mem _ hx)
      have hne : ∀ x ∈ rest, x.2 ≠ pid := by
        intro x hx h
        exact hpnotin (h ▸ List.mem_map_of_mem (fun e => e.2) hx)
      simp only [detectLostGo]
      by_cases hB1 : (storeGet s.hist.store pid).pn > la
      · rw [if_pos hB1]
        have hhigh : ∀ x ∈ (nid, pid) :: rest, ¬ (storeGet s.hist.store x.2).pn ≤ la := by
          intro x hx
          rcases List.mem_cons.mp hx with rfl | hx
          · show ¬ (storeGet s.hist.store pid).pn ≤ la
            omega
          · have := hpwh x hx; omega
        refine ⟨?_, ?_, ?_, fun j _ => rfl, rfl⟩
        · rw [lostPidsOf_nil_of_high la lst _ _ hhigh, List.append_nil]
        · rw [lossTimeOf_zero_of_high la lst ldc _ _ hhigh]
          by_cases hl : s.m_loss_time = 0
          · simp [hl]
          · simp [hl]
        · intro x hx
          rw [markLost_eq_self _ _ _
            (lostCondB_false_of_high _ _ _ (hhigh x hx))]
      · by_cases hB2 : ((storeGet s.hist.store pid).declared_lost
            || (storeGet s.hist.store pid).skipped) = true
        · rw [if_neg hB1, if_pos hB2]
          obtain ⟨c1, c2, c3, c4, c5⟩ := ih s lost hndr hpwr hbdr hnwr
          refine ⟨?_, ?_, ?_, ?_, c5⟩
          · rw [c1, lostPidsOf_cons_false _ _ _ _ _
              (lostCondB_false_of_flag _ _ _ hB2)]
          · rw [c2, lossTimeOf_cons_false _ _ _ _ _ _
              (survivorCondB_false_of_flag _ _ _ hB2)]
          · intro x hx
            rcases List.mem_cons.mp hx with hx | hx
            · rw [hx]
              rw [c4 pid hpnotin, markLost_eq_self _ _ _
                (lostCondB_false_of_flag _ _ _ hB2)]
            · exact c3 x hx
          · intro j hj
            rw [List.map_cons, List.mem_cons] at hj
            push_neg at hj
            exact c4 j hj.2
        · by_cases hB3 : (storeGet s.hist.store pid).send_time < lst
              ∨ la ≥ (storeGet s.hist.store pid).pn + packetThreshold
          · rw [if_neg hB1, if_neg hB2, if_pos hB3]
            have hcond : lostCondB la lst (storeGet s.hist.store pid) = true :=
              lostCondB_true_of _ _ _ hB2 hB1 hB3
            set p := storeGet s.hist.store pid with hpdef
            set st1 := s.hist.store.set pid ({ p with declared_lost := true }) with hst1
            set s1 : SentPacketHandlerS := { s with hist := { s.hist with store := st1 } } with hs1
            have hs1len : s1.hist.store.length = s.hist.store.length := by
              simp [hs1, hst1]
            have hs1pid : storeGet s1.hist.store pid = { p with declared_lost := true } := by
              rw [hs1]
              show storeGet st1 pid = _
              rw [hst1]
              exact storeGet_set_self _ _ _ hpid
            have hs1ne : ∀ j, j ≠ pid → storeGet s1.hist.store j = storeGet s.hist.store j := by
              intro j hj
              rw [hs1]
              show storeGet st1 j = _
              rw [hst1]
              exact storeGet_set_ne _ _ _ _ (fun h => hj h.symm)
            obtain ⟨r1, r2, r3, r4⟩ := removeFromBytesInflight_facts s1 pid
              (by rw [hs1len]; exact hpid)
            obtain ⟨q1, q2, q3, q4⟩ := queueFrames_facts (s1.removeFromBytesInflight pid) pid
              (by rw [r2, hs1len]; exact hpid)
            set s3 := (s1.removeFromBytesInflight pid).queueFramesForRetransmission pid
              with hs3
            have hlen3 : s3.hist.store.length = s.hist.store.length := by
              rw [hs3, q2, r2, hs1len]
            have hloss3 : s3.m_loss_time = s.m_loss_time := by
              rw [hs3, q1, r1]
            have hpid3 : storeGet s3.hist.store pid
                = { p with declared_lost := true,
                           included_in_bytes_inflight := false, frame_count := 0 } := by
              rw [hs3, q3, r3, hs1pid]
            have hne3 : ∀ j, j ≠ pid → storeGet s3.hist.store j = storeGet s.hist.store j := by
              intro j hj
              rw [hs3, q4 j hj, r4 j hj, hs1ne j hj]
            have hrestst : ∀ x ∈ rest, storeGet s3.hist.store x.2 = storeGet s.hist.store x.2 :=
              fun x hx => hne3 x.2 (hne x hx)
            obtain ⟨c1, c2, c3, c4, c5⟩ := ih s3 (lost ++ [pid]) hndr
              (hpwr.imp_of_mem (by
                intro a b ha hb hab
                rw [hrestst a ha, hrestst b hb]
                exact hab))
              (fun x hx => by rw [hlen3]; exact hbdr x hx)
              (fun x hx => by rw [hrestst x hx]; exact hnwr x hx)
            refine ⟨?_, ?_, ?_, ?_, by rw [c5, hlen3]⟩
            · rw [c1, lostPidsOf_congr la lst _ _ _ hrestst,
                lostPidsOf_cons_true _ _ _ _ _ hcond]
              simp
            · rw [c2, hloss3, lossTimeOf_congr la lst ldc _ _ _ hrestst]
              have hsurv : survivorCondB la lst (storeGet s.hist.store pid) = false := by
                have : lostCondB la lst (storeGet s.hist.store pid) = true := hcond
                simp only [lostCondB, survivorCondB, Bool.and_eq_true] at this ⊢
                simp [this.2]
              rw [lossTimeOf_cons_false _ _ _ _ _ _ hsurv]
            · intro x hx
              rcases List.mem_cons.mp hx with hx | hx
              · rw [hx]
                rw [c4 pid hpnotin, hpid3]
                rw [markLost, if_pos hcond]
              · rw [c3 x hx, hrestst x hx]
            · intro j hj
              rw [List.map_cons, List.mem_cons] at hj
              push_neg at hj
              rw [c4 j hj.2, hne3 j hj.1]
          · rw [if_neg hB1, if_neg hB2, if_neg hB3]
            have hcondf : lostCondB la lst (storeGet s.hist.store pid) = false :=
              lostCondB_false_of_within _ _ _ hB3
            have hsurv : survivorCondB la lst (storeGet s.hist.store pid) = true :=
              survivorCondB_true_of _ _ _ hB2 hB1 hB3
            by_cases hB4 : s.m_loss_time = 0
            · rw [if_pos hB4]
              set lt4 := ((storeGet s.hist.store pid).send_time + ldc) % W64 with hlt4
              set s4 : SentPacketHandlerS := { s with m_loss_time := lt4 } with hs4
              have hst4 : s4.hist.store = s.hist.store := rfl
              obtain ⟨c1, c2, c3, c4, c5⟩ := ih s4 lost hndr
                (by rw [show (fun (a b : Nat × Nat) =>
                    (storeGet s4.hist.store a.2).pn ≤ (storeGet s4.hist.store b.2).pn)
                    = (fun a b => (storeGet s.hist.store a.2).pn
                        ≤ (storeGet s.hist.store b.2).pn) from rfl]; exact hpwr)
                (fun x hx => hbdr x hx) (fun x hx => hnwr x hx)
              have hmod : ((storeGet s.hist.store pid).send_time + ldc) % W64
                  = (storeGet s.hist.store pid).send_time + ldc :=
                Nat.mod_eq_of_lt (hnw (nid, pid) (List.mem_cons_self _ _))
              have hnz : s4.m_loss_time ≠ 0 := by
                rw [hs4]
                show lt4 ≠ 0
                rw [hlt4, hmod]
                omega
              refine ⟨?_, ?_, ?_, ?_, c5⟩
              · rw [c1, lostPidsOf_cons_false _ _ _ _ _ hcondf]
              · rw [c2, if_pos hnz, lossTimeOf_cons_true _ _ _ _ _ _ hsurv,
                  if_neg (fun h => h hB4)]
              · intro x hx
                rcases List.mem_cons.mp hx with hx | hx
                · rw [hx]
                  rw [c4 pid hpnotin]
                  rw [markLost_eq_self _ _ _ hcondf]
                · exact c3 x hx
              · intro j hj
                rw [List.map_cons, List.mem_cons] at hj
                push_neg at hj
                exact c4 j hj.2
            · rw [if_neg hB4]
              obtain ⟨c1, c2, c3, c4, c5⟩ := ih s lost hndr hpwr hbdr hnwr
              refine ⟨?_, ?_, ?_, ?_, c5⟩
              · rw [c1, lostPidsOf_cons_false _ _ _ _ _ hcondf]
              · rw [c2, if_pos hB4, if_pos hB4]
              · intro x hx
                rcases List.mem_cons.mp hx with hx | hx
                · rw [hx]
                  rw [c4 pid hpnotin, markLost_eq_self _ _ _ hcondf]
                · exact c3 x hx
              · intro j hj
                rw [List.map_cons, List.mem_cons] at hj
                push_neg at hj
                exact c4 j hj.2

end Quic
end AgentLink

namespace AgentLink
namespace Quic

theorem one_le_lossDelayCeil (x : Nat) : 1 ≤ lossDelayCeil x := by
  unfold lossDelayCeil
  by_cases h : 9 * x > 8
  · rw [if_pos h]
    omega
  · rw [if_neg h]

/-- C2, corrected: on a well-formed history (distinct packet objects,
packet numbers non-decreasing along the list, no `uint64` wrap of
`send_time + ⌈loss_delay⌉`), `detectLostPackets(now)` computes
`loss_delay = max(latest_rtt, smoothed_rtt) * 9/8` with a floor of
1 MICROSECOND (not 1 ms: the code's `1.0` floor and all times are in µs),
rounds it up, and declares lost exactly the not-yet-lost, non-skipped
packets with `pn ≤ largest_acked` whose `send_time < now − ⌈loss_delay⌉`
or `pn + 3 ≤ largest_acked`; the FIRST surviving packet (not the earliest
send time in general, though the two agree on send-ordered histories)
sets the new `loss_time = send_time + ⌈loss_delay⌉`, and `loss_time` is 0
when no packet survives. -/
theorem C2_detect_lost_packets (s : SentPacketHandlerS) (now : Nat)
    (hnd : (s.hist.node_list.map (fun e => e.2)).Nodup)
    (hpw : List.Pairwise (fun a b =>
        (storeGet s.hist.store a.2).pn ≤ (storeGet s.hist.store b.2).pn)
        s.hist.node_list)
    (hbd : ∀ e ∈ s.hist.node_list, e.2 < s.hist.store.length)
    (hnw : ∀ e ∈ s.hist.node_list,
        (storeGet s.hist.store e.2).send_time
          + lossDelayCeil (max s.m_rtt_stats.latest s.m_rtt_stats.smoothed) < W64) :
    (s.detectLostPackets now).2
        = lostPidsOf s.m_largest_acked
            ((now + W64 - lossDelayCeil (max s.m_rtt_stats.latest s.m_rtt_stats.smoothed) % W64) % W64)
            s.hist.store s.hist.node_list
    ∧ (∀ e ∈ s.hist.node_list,
        storeGet (s.detectLostPackets now).1.hist.store e.2
          = markLost s.m_largest_acked
              ((now + W64 - lossDelayCeil (max s.m_rtt_stats.latest s.m_rtt_stats.smoothed) % W64) % W64)
              (storeGet s.hist.store e.2))
    ∧ (s.detectLostPackets now).1.m_loss_time
        = lossTimeOf s.m_largest_acked
            ((now + W64 - lossDelayCeil (max s.m_rtt_stats.latest s.m_rtt_stats.smoothed) % W64) % W64)
            (lossDelayCeil (max s.m_rtt_stats.latest s.m_rtt_stats.smoothed))
            s.hist.store s.hist.node_list := by
  have hldc : 1 ≤ lossDelayCeil (max s.m_rtt_stats.latest s.m_rtt_stats.smoothed) :=
    one_le_lossDelayCeil _
  obtain ⟨c1, c2, c3, c4, c5⟩ :=
    detectLostGo_spec s.m_largest_acked
      ((now + W64 - lossDelayCeil (max s.m_rtt_stats.latest s.m_rtt_stats.smoothed) % W64) % W64)
      (lossDelayCeil (max s.m_rtt_stats.latest s.m_rtt_stats.smoothed)) hldc
      s.hist.node_list ({ s with m_loss_time := 0 }) [] hnd hpw hbd hnw
  refine ⟨?_, ?_, ?_⟩
  · rw [show (s.detectLostPackets now).2
        = (detectLostGo s.m_largest_acked
            ((now + W64 - lossDelayCeil (max s.m_rtt_stats.latest s.m_rtt_stats.smoothed) % W64) % W64)
            (lossDelayCeil (max s.m_rtt_stats.latest s.m_rtt_stats.smoothed))
            s.hist.node_list ({ s with m_loss_time := 0 }) []).2 from rfl]
    rw [c1, List.nil_append]
  · intro e he
    rw [show (s.detectLostPackets now).1
        = (detectLostGo s.m_largest_acked
            ((now + W64 - lossDelayCeil (max s.m_rtt_stats.latest s.m_rtt_stats.smoothed) % W64) % W64)
            (lossDelayCeil (max s.m_rtt_stats.latest s.m_rtt_stats.smoothed))
            s.hist.node_list ({ s with m_loss_time := 0 }) []).1 from rfl]
    exact c3 e he
  · rw [show (s.detectLostPackets now).1
        = (detectLostGo s.m_largest_acked
            ((now + W64 - lossDelayCeil (max s.m_rtt_stats.latest s.m_rtt_stats.smoothed) % W64) % W64)
            (lossDelayCeil (max s.m_rtt_stats.latest s.m_rtt_stats.smoothed))
            s.hist.node_list ({ s with m_loss_time := 0 }) []).1 from rfl]
    rw [c2]
    simp

end Quic
end AgentLink

namespace AgentLink
namespace Quic

def testRtt : RTTStats := ⟨100, 100, 25, 25000, 0⟩

/-- C2 counterexample state: one in-flight ack-eliciting packet `pn 0`
sent at `t = 500`, `largest_acked = 0`, both RTT samples 100 µs. -/
def C2state : SentPacketHandlerS :=
  { SentPacketHandlerS.init testRtt with
    hist := ⟨[⟨0, 100, 500, 1, U64MAX, true, false, false⟩], [(0, 0)], [(0, 0)], 1, 0⟩,
    m_largest_sent := 0, m_largest_acked := 0, m_bytes_inflight := 100 }

/-- C2, counterexample to the spec's 1 ms floor: with both RTT samples at
100 µs, `loss_delay = ⌈112.5⌉ = 113 µs`.  A packet sent at `t = 500` and
checked at `now = 1000` is declared lost (`500 < 1000 − 113`), although
under the claimed 1 ms floor it would be within the delay
(`¬(500 < 1000 − 1000)`) and the packet threshold does not apply
(`¬(0 + 3 ≤ 0)`). -/
theorem C2_floor_is_microseconds :
    (C2state.detectLostPackets 1000).2 = [0]
    ∧ (storeGet (C2state.detectLostPackets 1000).1.hist.store 0).declared_lost = true
    ∧ ¬ ((500 : Nat) < 1000 - 1000 ∨ (0 : Nat) + 3 ≤ 0) := by
  refine ⟨by decide, by decide, by decide⟩

/-- Witness for C2 at the counterexample state: the characterization
evaluates to the concrete lost set `[0]`. -/
theorem C2_witness_eval :
    (C2state.detectLostPackets 1000).2 = [0] := by
  have h := C2_detect_lost_packets C2state 1000 (by decide) (by decide)
    (by decide) (by decide)
  rw [h.1]
  decide

def C4state : SentPacketHandlerS :=
  { SentPacketHandlerS.init testRtt with
    hist := { SPHistory.empty with
      store := [⟨0, 100, 50, 1, U64MAX, false, false, false⟩] } }

/-- C4, code bug: `SentPacketHandler::sentPacket` records the same packet
in the history twice (`sentPacketImpl` calls `history->sentPacket` at
`quic_packet_sorter.cc:739` and `sentPacket` calls it again at `:829`);
the second insertion passes the `<`-only guard since `pn == highest_sent`,
so after one send of packet 0 the list holds pn 0 twice and the map points
at the second node — the claimed "each tracked pn appears exactly once"
invariant is false. -/
theorem C4_eval :
    ((C4state.sentPacket 0 100).hist.pnList = [0, 0])
    ∧ mapFind 0 (C4state.sentPacket 0 100).hist.node_map = some 1 := by
  refine ⟨by decide, by decide⟩

def C3state : SentPacketHandlerS :=
  { SentPacketHandlerS.init testRtt with
    hist := { SPHistory.empty with
      store := [⟨0, 100, 50, 1, U64MAX, false, false, false⟩,
                ⟨1, 200, 60, 1, U64MAX, false, false, false⟩] } }

def C3run : SentPacketHandlerS × Bool :=
  ((C3state.sentPacket 0 100).sentPacket 1 110).receivedAck
    ⟨[⟨1, 1⟩], 0, false, none⟩ 200

/-- C3, code bug: send ack-eliciting packets 0 (len 100) and 1 (len 200),
then receive an ACK for `[1,1]`.  Because every sent packet sits in the
history twice, `detectAndRemoveAckedPackets` collects packet 1 twice, the
second `remove` fails, and `receivedAck` returns `false` having removed
one node: afterwards `bytes_in_flight = 300` but the history's
`Σ len · included_in_bytes_inflight = 400`, so the claimed invariant
fails. -/
theorem C3_eval :
    C3run.2 = false
    ∧ C3run.1.m_bytes_inflight = 300
    ∧ C3run.1.hist.inflightSum = 400 := by
  refine ⟨by decide, by decide, by decide⟩

theorem collectAckedGo_nil (frame : AckFrame) (lowest largest : Nat)
    (store : List QPacket) (nodes : List (Nat × Nat))
    (h : ∀ e ∈ nodes, (storeGet store e.2).pn < lowest
        ∨ (storeGet store e.2).pn > largest) :
    ∀ idx, collectAckedGo frame lowest largest store nodes idx [] = [] := by
  induction nodes with
  | nil => intro idx; rfl
  | cons e rest ih =>
      intro idx
      obtain ⟨nid, pid⟩ := e
      simp only [collectAckedGo]
      by_cases h1 : (storeGet store pid).pn < lowest
      · rw [if_pos h1]
        exact ih (fun x hx => h x (List.mem_cons_of_mem _ hx)) idx
      · rw [if_neg h1]
        rcases h (nid, pid) (List.mem_cons_self _ _) with h2 | h2
        · exact absurd h2 h1
        · rw [if_pos h2]

/-- `QuicAckFrame::acksPacket` (`quic_frame.cc:749-765`): overall-bounds
check, then a largest-first search for the first range whose smallest
bound the pn reaches. -/
def AckFrame.acksPacket (f : AckFrame) (pn : Nat) : Bool :=
  if pn < f.lowestAcked ∨ pn > f.largestAcked then false
  else
    let i := f.ranges.findIdx (fun r => decide (pn ≥ r.smallest))
    decide (pn ≤ (f.ranges.getD i ⟨0, 0⟩).largest)

/-- A pn lying in none of a (nonempty) ACK frame's ranges is rejected by
the code's own matcher `acksPacket`. -/
lemma acksPacket_false_of_no_range (f : AckFrame) (pn : Nat)
    (hne : f.ranges ≠ [])
    (h : ∀ r ∈ f.ranges, pn < r.smallest ∨ pn > r.largest) :
    f.acksPacket pn = false := by
  simp only [AckFrame.acksPacket]
  by_cases hg : pn < f.lowestAcked ∨ pn > f.largestAcked
  · rw [if_pos hg]
  · rw [if_neg hg]
    push_neg at hg
    have hrl : f.ranges.getLast? = some (f.ranges.getLast hne) :=
      List.getLast?_eq_getLast_of_ne_nil hne
    have hrlmem : f.ranges.getLast hne ∈ f.ranges := List.getLast_mem hne
    have hlow : f.lowestAcked = (f.ranges.getLast hne).smallest := by
      rw [AckFrame.lowestAcked, hrl]
      rfl
    have hex : ∃ r ∈ f.ranges, (fun r : AckRange => decide (pn ≥ r.smallest)) r = true := by
      refine ⟨f.ranges.getLast hne, hrlmem, ?_⟩
      simp only [decide_eq_true_eq]
      rw [← hlow]
      exact hg.1
    have hlt : f.ranges.findIdx (fun r => decide (pn ≥ r.smallest)) < f.ranges.length :=
      List.findIdx_lt_length_of_exists hex
    have hgetD : f.ranges.getD (f.ranges.findIdx (fun r => decide (pn ≥ r.smallest))) ⟨0, 0⟩
        = f.ranges[f.ranges.findIdx (fun r => decide (pn ≥ r.smallest))] :=
      List.getD_eq_getElem _ _ hlt
    have hp := @List.findIdx_getElem _ (fun r : AckRange => decide (pn ≥ r.smallest))
      f.ranges hlt
    simp only [decide_eq_true_eq] at hp
    have hmem : f.ranges[f.ranges.findIdx (fun r => decide (pn ≥ r.smallest))] ∈ f.ranges :=
      List.getElem_mem _
    rcases h _ hmem with h4 | h4
    · omega
    · rw [hgetD]
      simp only [decide_eq_false_iff_not]
      omega

/-- The range cursor of the collect loop never runs past the last range. -/
lemma advanceIdxGo_le (ranges : List AckRange) (pn : Nat) :
    ∀ (fuel idx : Nat), idx ≤ ranges.length - 1 →
      advanceIdxGo ranges pn idx fuel ≤ ranges.length - 1 := by
  intro fuel
  induction fuel with
  | zero =>
    intro idx h
    simpa [advanceIdxGo] using h
  | succ fuel ih =>
    intro idx h
    simp only [advanceIdxGo]
    by_cases hc : (ranges.getD (ranges.length - 1 - idx) ⟨0, 0⟩).largest < pn
        ∧ idx < ranges.length - 1
    · rw [if_pos hc]
      exact ih (idx + 1) (by omega)
    · rw [if_neg hc]
      exact h

/-- If every tracked pn lies in none of the (nonempty) frame's ranges,
the collect loop of `detectAndRemoveAckedPackets` gathers nothing. -/
theorem collectAckedGo_nil_of_no_range (frame : AckFrame) (store : List QPacket)
    (hne : frame.ranges ≠ []) :
    ∀ (nodes : List (Nat × Nat)) (idx : Nat),
      idx ≤ frame.ranges.length - 1 →
      (∀ e ∈ nodes, ∀ r ∈ frame.ranges,
          (storeGet store e.2).pn < r.smallest
          ∨ (storeGet store e.2).pn > r.largest) →
      collectAckedGo frame frame.lowestAcked frame.largestAcked store nodes idx [] = [] := by
  intro nodes
  induction nodes with
  | nil =>
    intro idx _ _
    rfl
  | cons e rest ih =>
    intro idx hidx h
    obtain ⟨nid, pid⟩ := e
    simp only [collectAckedGo]
    by_cases h1 : (storeGet store pid).pn < frame.lowestAcked
    · rw [if_pos h1]
      exact ih idx hidx (fun x hx => h x (List.mem_cons_of_mem _ hx))
    · rw [if_neg h1]
      by_cases h2 : (storeGet store pid).pn > frame.largestAcked
      · rw [if_pos h2]
      · rw [if_neg h2]
        by_cases h3 : frame.ranges.length > 1
        · rw [if_pos h3]
          have hidx' : advanceIdxGo frame.ranges (storeGet store pid).pn idx
              frame.ranges.length ≤ frame.ranges.length - 1 :=
            advanceIdxGo_le _ _ _ _ hidx
          have hj : frame.ranges.length - 1
              - advanceIdxGo frame.ranges (storeGet store pid).pn idx frame.ranges.length
              < frame.ranges.length := by omega
          have hrmem : frame.ranges.getD (frame.ranges.length - 1
              - advanceIdxGo frame.ranges (storeGet store pid).pn idx
                  frame.ranges.length) ⟨0, 0⟩ ∈ frame.ranges := by
            rw [List.getD_eq_getElem _ _ hj]
            exact List.getElem_mem _
          by_cases h5 : (storeGet store pid).pn
              < (frame.ranges.getD (frame.ranges.length - 1
                  - advanceIdxGo frame.ranges (storeGet store pid).pn idx
                      frame.ranges.length) ⟨0, 0⟩).smallest
          · rw [if_pos h5]
            exact ih _ hidx' (fun x hx => h x (List.mem_cons_of_mem _ hx))
          · rw [if_neg h5]
            rcases h (nid, pid) (List.mem_cons_self _ _) _ hrmem with h4 | h4
            · exact absurd h4 h5
            · rw [if_pos h4]
        · rw [if_neg h3]
          have hlen1 : frame.ranges.length = 1 := by
            have h0 : 0 < frame.ranges.length := List.length_pos.mpr hne
            omega
          obtain ⟨r0, hr0⟩ := List.length_eq_one.mp hlen1
          have hlow : frame.lowestAcked = r0.smallest := by
            rw [AckFrame.lowestAcked, hr0]
            rfl
          have hhigh : frame.largestAcked = r0.largest := by
            rw [AckFrame.largestAcked, hr0]
            rfl
          have hr0mem : r0 ∈ frame.ranges := by
            rw [hr0]
            exact List.mem_singleton_self r0
          rcases h (nid, pid) (List.mem_cons_self _ _) r0 hr0mem with h4 | h4
          · rw [← hlow] at h4
            exact absurd h4 h1
          · rw [← hhigh] at h4
            exact absurd h4 h2

/-- C10, confirmed: a `receivedAck` whose ACK frame matches no tracked
packet — each tracked pn lies in none of the frame's ACK ranges (so the
code's matcher `acksPacket` rejects it, see
`acksPacket_false_of_no_range`; this includes pns falling in the gaps of
a multi-range ACK), or `largestAcked > largest_sent` — returns `false`,
and the state is unchanged except that `m_largest_acked` may be raised
(it is raised only when `largestAcked ≤ largest_sent`): no RTT update,
no congestion notification, no PTO-count reset, no alarm re-arm. -/

theorem C10_received_ack_no_match (s : SentPacketHandlerS) (frame : AckFrame)
    (rt : Nat)
    (h : frame.largestAcked > s.m_largest_sent
       ∨ (frame.ranges ≠ []
          ∧ ∀ e ∈ s.hist.node_list, ∀ r ∈ frame.ranges,
              (storeGet s.hist.store e.2).pn < r.smallest
              ∨ (storeGet s.hist.store e.2).pn > r.largest)) :
    (s.receivedAck frame rt).2 = false
    ∧ (s.receivedAck frame rt).1
        = { s with m_largest_acked :=
              if frame.largestAcked > s.m_largest_sent then s.m_largest_acked
              else max s.m_largest_acked frame.largestAcked } := by
  by_cases hb : frame.largestAcked > s.m_largest_sent
  · unfold SentPacketHandlerS.receivedAck
    rw [if_pos hb]
    refine ⟨rfl, ?_⟩
    rw [if_pos hb]
  · rcases h with h | h
    · exact absurd h hb
    · have hc : collectAckedGo frame frame.lowestAcked frame.largestAcked
          ({ s with m_largest_acked := max s.m_largest_acked frame.largestAcked }
            : SentPacketHandlerS).hist.store
          ({ s with m_largest_acked := max s.m_largest_acked frame.largestAcked }
            : SentPacketHandlerS).hist.node_list 0 [] = [] :=
        collectAckedGo_nil_of_no_range frame s.hist.store h.1 s.hist.node_list 0
          (Nat.zero_le _) (fun e he => h.2 e he)
      unfold SentPacketHandlerS.receivedAck
      rw [if_neg hb]
      simp only [SentPacketHandlerS.detectAndRemoveAckedPackets, hc, processAckedGo,
        List.length_nil, if_true, eq_self_iff_true]
      rw [if_neg hb]
      exact ⟨trivial, rfl⟩

end Quic
end AgentLink

namespace AgentLink
namespace Quic

def C10state : SentPacketHandlerS :=
  { SentPacketHandlerS.init testRtt with
    hist := ⟨[⟨5, 100, 50, 1, U64MAX, true, false, false⟩], [(0, 0)], [(5, 0)], 1, 5⟩,
    m_largest_sent := 10 }

/-- Witness for C10: a two-range ACK `{[8,9], [1,3]}` whose gap contains
the only tracked packet, pn 5 — a no-match ACK on the
`hasMissingRanges` path. -/
theorem C10_received_ack_no_match_witness :
    ((C10state.receivedAck ⟨[⟨8, 9⟩, ⟨1, 3⟩], 0, false, none⟩ 200).2 = false
    ∧ (C10state.receivedAck ⟨[⟨8, 9⟩, ⟨1, 3⟩], 0, false, none⟩ 200).1
        = { C10state with
            m_largest_acked := if AckFrame.largestAcked ⟨[⟨8, 9⟩, ⟨1, 3⟩], 0, false, none⟩
                                   > C10state.m_largest_sent
                               then C10state.m_largest_acked
                               else max C10state.m_largest_acked
                                 (AckFrame.largestAcked ⟨[⟨8, 9⟩, ⟨1, 3⟩], 0, false, none⟩) }) :=
  C10_received_ack_no_match C10state ⟨[⟨8, 9⟩, ⟨1, 3⟩], 0, false, none⟩ 200
    (Or.inr ⟨by decide, by decide⟩)

end Quic
end AgentLink


namespace AgentLink
namespace Quic

/-! ### Send stream (`quic_stream.cc:438-662`) and session packet
assembly (`quic_session.cc:627-800`) -/

/-- The stream layer's view of a `QuicStreamFrame`: `m_data` is a nullable
buffer (`none` models a null `MBuffer::ptr`), and since every frame built
here goes through `set_offset`, the offset and length fields are always
present. -/
structure SStreamFrame where
  stream_id : Nat
  offset : Nat
  data : Option (List Nat)
  has_fin : Bool
deriving DecidableEq, Repr

/-- `QuicStreamFrame::size` (`quic_frame.cc:211-233`) for a stream-layer
frame (offset and length fields present). -/
def SStreamFrame.size (f : SStreamFrame) : Nat :=
  1 + var_size f.stream_id + var_size f.offset
    + var_size (f.data.getD []).length + (f.data.getD []).length

/-- `QuicStreamFrame::maybeSplitOffFrame` (`quic_frame.cc:275-299`):
returns `(split-off head frame?, updated original)`; the original advances
its offset past the split data.  Called only on retransmission-queue
frames, which carry data. -/
def SStreamFrame.maybeSplitOffFrame (f : SStreamFrame) (max_bytes : Nat) :
    Option SStreamFrame × SStreamFrame :=
  match f.data with
  | none => (none, f)
  | some d =>
      if d.length ≤ max_bytes then (none, f)
      else
        (some ⟨f.stream_id, f.offset, some (d.take max_bytes), false⟩,
         { f with data := some (d.drop max_bytes), offset := f.offset + max_bytes })

/-- `QuicStreamFrame::maxDataLen` (`quic_frame.cc:306-335`) with offset and
length fields present. -/
def SStreamFrame.maxDataLen (f : SStreamFrame) (max_size : Nat) : Nat :=
  let header_len := 1 + var_size f.stream_id + var_size f.offset + 1
  if header_len > max_size then 0
  else
    let max_data_len := max_size - header_len
    if var_size max_data_len ≠ 1 then max_data_len - 1 else max_data_len

/-- Stream-level flow controller — `quic_flow_control.*` is not in the
repository; modelled from the spec: the send window is the limit minus
the bytes already sent, and a newly reached limit is reported once
(`m_blocked_at` remembers the limit already reported). -/
structure StreamFlowController where
  m_send_win : Nat
  m_bytes_sent : Nat
  m_blocked_at : Nat
deriving DecidableEq, Repr

def StreamFlowController.sendWinSize (f : StreamFlowController) : Nat :=
  f.m_send_win - f.m_bytes_sent

def StreamFlowController.addBytesSent (f : StreamFlowController) (n : Nat) :
    StreamFlowController :=
  { f with m_bytes_sent := f.m_bytes_sent + n }

/-- `isNewlyBlocked`: the blocked offset (the current limit) when it has
not been reported yet, else 0; reporting records the limit. -/
def StreamFlowController.isNewlyBlocked (f : StreamFlowController) :
    Nat × StreamFlowController :=
  if f.m_blocked_at ≠ f.m_send_win then
    (f.m_send_win, { f with m_blocked_at := f.m_send_win })
  else (0, f)

/-- `QuicSndStream` state (`quic_stream.h`, fields used by
`quic_stream.cc:438-662`); `emitted_blocked` records the
`STREAM_DATA_BLOCKED` control frames handed to the session
(`sender->queueControlFrame`). -/
structure QuicSndStream where
  m_stream_id : Nat
  m_write_offset : Nat
  m_data_for_writing : Option (List Nat)
  m_next_frame : Option SStreamFrame
  m_retransmission_queue : List SStreamFrame
  m_finished_writing : Bool
  m_fin_sent : Bool
  m_canceled_write : Bool
  m_shutdown : Bool
  m_num_outstanding_frames : Int
  m_flow_controller : StreamFlowController
  emitted_blocked : List (Nat × Nat)
deriving DecidableEq, Repr

/-- `QuicSndStream::get_data_for_writing` (`quic_stream.cc:438-453`). -/
def QuicSndStream.get_data_for_writing (s : QuicSndStream) (frame : SStreamFrame)
    (max_bytes : Nat) : QuicSndStream × SStreamFrame :=
  match s.m_data_for_writing with
  | none => ({ s with m_data_for_writing := none }, { frame with data := none })
  | some d =>
      if d.length ≤ max_bytes then
        ({ s with m_data_for_writing := none }, { frame with data := some d })
      else
        ({ s with m_data_for_writing := some (d.drop max_bytes) },
         { frame with data := some (d.take max_bytes) })

/-- `QuicSndStream::popNewStreamFrameWithoutBuffer`
(`quic_stream.cc:455-464`). -/
def QuicSndStream.popNewStreamFrameWithoutBuffer (s : QuicSndStream)
    (frame : SStreamFrame) (max_bytes send_win : Nat) :
    QuicSndStream × SStreamFrame × Bool :=
  let max_data_len := frame.maxDataLen max_bytes
  if max_data_len = 0 then (s, frame, false)
  else
    let r := s.get_data_for_writing frame (min max_data_len send_win)
    (r.1, r.2, r.1.m_data_for_writing.isSome || r.1.m_next_frame.isSome || r.1.m_fin_sent)

/-- `QuicSndStream::popNewStreamFrame` (`quic_stream.cc:466-498`). -/
def QuicSndStream.popNewStreamFrame (s : QuicSndStream) (max_bytes send_win : Nat) :
    QuicSndStream × Option SStreamFrame × Bool :=
  match s.m_next_frame with
  | some nf =>
      let s1 := { s with m_next_frame := none }
      let max_data_len := min send_win (nf.maxDataLen max_bytes)
      match nf.data with
      | some d =>
          if d.length > max_data_len then
            let tail : SStreamFrame :=
              ⟨s.m_stream_id, s.m_write_offset + max_data_len,
               some (d.drop max_data_len), false⟩
            let s2 := { s1 with m_next_frame := some tail }
            (s2, some { nf with data := some (d.take max_data_len) },
             s2.m_next_frame.isSome || s2.m_data_for_writing.isSome)
          else
            (s1, some nf, s1.m_next_frame.isSome || s1.m_data_for_writing.isSome)
      | none => (s1, some nf, s1.m_next_frame.isSome || s1.m_data_for_writing.isSome)
  | none =>
      let frame0 : SStreamFrame := ⟨s.m_stream_id, s.m_write_offset, none, false⟩
      let r := s.popNewStreamFrameWithoutBuffer frame0 max_bytes send_win
      if r.2.1.data.isNone && !r.2.1.has_fin then (r.1, none, r.2.2)
      else (r.1, some r.2.1, r.2.2)

/-- `QuicSndStream::maybeGetRetransmission` (`quic_stream.cc:500-509`);
only called with a non-empty retransmission queue. -/
def QuicSndStream.maybeGetRetransmission (s : QuicSndStream) (max_bytes : Nat) :
    QuicSndStream × Option SStreamFrame × Bool :=
  match s.m_retransmission_queue with
  | [] => (s, none, false)
  | f :: rest =>
      let sp := f.maybeSplitOffFrame max_bytes
      match sp.1 with
      | some nf => ({ s with m_retransmission_queue := sp.2 :: rest }, some nf, true)
      | none =>
          ({ s with m_retransmission_queue := rest }, some f, decide (rest.length > 0))

/-- `QuicSndStream::popNewOrRetransmissitedStreamFrame`
(`quic_stream.cc:511-573`).  The frame returned from the retransmission
queue keeps its original offset; new data goes out at `m_write_offset`,
which then advances. -/
def QuicSndStream.popNewOrRetransmissitedStreamFrame (s : QuicSndStream)
    (max_bytes : Nat) : QuicSndStream × Option SStreamFrame × Bool :=
  if s.m_canceled_write || s.m_shutdown then (s, none, false)
  else if s.m_retransmission_queue.length > 0 then
    let r := s.maybeGetRetransmission max_bytes
    match r.2.1 with
    | some f => (r.1, some f, true)
    | none => (r.1, none, true)
  else if s.m_data_for_writing.isNone && s.m_next_frame.isNone then
    if s.m_finished_writing && !s.m_fin_sent then
      ({ s with m_fin_sent := true },
       some ⟨s.m_stream_id, s.m_write_offset, none, true⟩, false)
    else (s, none, false)
  else
    let send_win := s.m_flow_controller.sendWinSize
    if send_win = 0 then
      let nb := s.m_flow_controller.isNewlyBlocked
      if nb.1 ≠ 0 then
        let s2 := { s with
          m_flow_controller := nb.2,
          emitted_blocked := s.emitted_blocked ++ [(s.m_stream_id, nb.1)] }
        (s2, none, false)
      else (s, none, true)
    else
      let r := s.popNewStreamFrame max_bytes send_win
      let s1 := r.1
      let s2 := match r.2.1 with
        | some f =>
            match f.data with
            | some d =>
                if d.length > 0 then
                  { s1 with
                    m_write_offset := s1.m_write_offset + d.length,
                    m_flow_controller := s1.m_flow_controller.addBytesSent d.length }
                else s1
            | none => s1
        | none => s1
      if s2.m_finished_writing && s2.m_data_for_writing.isNone
          && s2.m_next_frame.isNone && !s2.m_fin_sent then
        match r.2.1 with
        | some f => ({ s2 with m_fin_sent := true },
            some { f with has_fin := true }, r.2.2)
        | none => (s2, none, r.2.2)
      else (s2, r.2.1, r.2.2)

/-- `QuicSndStream::popStreamFrame` (`quic_stream.cc:576-602`). -/
def QuicSndStream.popStreamFrame (s : QuicSndStream) (max_bytes : Nat) :
    QuicSndStream × Option SStreamFrame × Bool :=
  let r := s.popNewOrRetransmissitedStreamFrame max_bytes
  match r.2.1 with
  | some f =>
      ({ r.1 with m_num_outstanding_frames := r.1.m_num_outstanding_frames + 1 },
       some f, r.2.2)
  | none => (r.1, none, r.2.2)

/-- `QuicSndStream::queueRetransmission` (`quic_stream.cc:603-626`): the
lost frame is appended to the retransmission queue unchanged. -/
def QuicSndStream.queueRetransmission (s : QuicSndStream) (frame : SStreamFrame) :
    QuicSndStream :=
  if s.m_canceled_write then s
  else
    { s with
      m_retransmission_queue := s.m_retransmission_queue ++ [frame],
      m_num_outstanding_frames := s.m_num_outstanding_frames - 1 }

end Quic
end AgentLink

namespace AgentLink
namespace Quic

theorem get_data_for_writing_offsets (s : QuicSndStream) (frame : SStreamFrame)
    (mb : Nat) :
    (s.get_data_for_writing frame mb).2.offset = frame.offset
    ∧ (s.get_data_for_writing frame mb).2.has_fin = frame.has_fin
    ∧ (s.get_data_for_writing frame mb).1.m_write_offset = s.m_write_offset := by
  rcases hd : s.m_data_for_writing with _ | d
  · simp only [QuicSndStream.get_data_for_writing, hd]
    refine ⟨by trivial, by trivial, by trivial⟩
  · by_cases hl : d.length ≤ mb
    · simp only [QuicSndStream.get_data_for_writing, hd, if_pos hl]
      refine ⟨by trivial, by trivial, by trivial⟩
    · simp only [QuicSndStream.get_data_for_writing, hd, if_neg hl]
      refine ⟨by trivial, by trivial, by trivial⟩

theorem popNewStreamFrameWithoutBuffer_offsets (s : QuicSndStream)
    (frame : SStreamFrame) (mb sw : Nat) :
    (s.popNewStreamFrameWithoutBuffer frame mb sw).2.1.offset = frame.offset
    ∧ (s.popNewStreamFrameWithoutBuffer frame mb sw).2.1.has_fin = frame.has_fin
    ∧ (s.popNewStreamFrameWithoutBuffer frame mb sw).1.m_write_offset
        = s.m_write_offset := by
  unfold QuicSndStream.popNewStreamFrameWithoutBuffer
  by_cases h : frame.maxDataLen mb = 0
  · rw [if_pos h]
    refine ⟨by trivial, by trivial, by trivial⟩
  · rw [if_neg h]
    obtain ⟨g1, g2, g3⟩ :=
      get_data_for_writing_offsets s frame (min (frame.maxDataLen mb) sw)
    exact ⟨g1, g2, g3⟩

theorem popNewStreamFrame_offsets (s : QuicSndStream) (mb sw : Nat)
    (hnext : ∀ nf, s.m_next_frame = some nf → nf.offset = s.m_write_offset) :
    (∀ f, (s.popNewStreamFrame mb sw).2.1 = some f → f.offset = s.m_write_offset)
    ∧ (s.popNewStreamFrame mb sw).1.m_write_offset = s.m_write_offset := by
  rcases hn : s.m_next_frame with _ | nf
  case some =>
      have hno : nf.offset = s.m_write_offset := hnext nf hn
      rcases hd : nf.data with _ | d
      · simp only [QuicSndStream.popNewStreamFrame, hn, hd]
        constructor
        · intro f hf
          cases hf
          exact hno
        · trivial
      · by_cases hl : d.length > min sw (nf.maxDataLen mb)
        · simp only [QuicSndStream.popNewStreamFrame, hn, hd, if_pos hl]
          constructor
          · intro f hf
            cases hf
            exact hno
          · trivial
        · simp only [QuicSndStream.popNewStreamFrame, hn, hd, if_neg hl]
          constructor
          · intro f hf
            cases hf
            exact hno
          · trivial
  case none =>
      simp only [QuicSndStream.popNewStreamFrame, hn]
      obtain ⟨g1, g2, g3⟩ := popNewStreamFrameWithoutBuffer_offsets s
        ⟨s.m_stream_id, s.m_write_offset, none, false⟩ mb sw
      by_cases hc : ((s.popNewStreamFrameWithoutBuffer
          ⟨s.m_stream_id, s.m_write_offset, none, false⟩ mb sw).2.1.data.isNone
          && !(s.popNewStreamFrameWithoutBuffer
          ⟨s.m_stream_id, s.m_write_offset, none, false⟩ mb sw).2.1.has_fin) = true
      · rw [if_pos hc]
        constructor
        · intro f hf
          cases hf
        · exact g3
      · rw [if_neg hc]
        constructor
        · intro f hf
          cases hf
          exact g1
        · exact g3

theorem maybeGetRetransmission_offsets (s : QuicSndStream) (mb : Nat)
    (rf : SStreamFrame) (rest : List SStreamFrame)
    (hq : s.m_retransmission_queue = rf :: rest) :
    (∀ f, (s.maybeGetRetransmission mb).2.1 = some f → f.offset = rf.offset)
    ∧ (s.maybeGetRetransmission mb).1.m_write_offset = s.m_write_offset := by
  rcases hd : rf.data with _ | d
  · simp only [QuicSndStream.maybeGetRetransmission, hq,
      SStreamFrame.maybeSplitOffFrame, hd]
    constructor
    · intro f hf
      cases hf
      rfl
    · trivial
  · by_cases hl : d.length ≤ mb
    · simp only [QuicSndStream.maybeGetRetransmission, hq,
        SStreamFrame.maybeSplitOffFrame, hd, if_pos hl]
      constructor
      · intro f hf
        cases hf
        rfl
      · trivial
    · simp only [QuicSndStream.maybeGetRetransmission, hq,
        SStreamFrame.maybeSplitOffFrame, hd, if_neg hl]
      constructor
      · intro f hf
        cases hf
        rfl
      · trivial

end Quic
end AgentLink

namespace AgentLink
namespace Quic

theorem popNewOrRetrans_offsets (s : QuicSndStream) (mb : Nat)
    (hnext : ∀ nf, s.m_next_frame = some nf → nf.offset = s.m_write_offset) :
    s.m_write_offset ≤ (s.popNewOrRetransmissitedStreamFrame mb).1.m_write_offset
    ∧ (s.m_retransmission_queue = [] →
        ∀ f, (s.popNewOrRetransmissitedStreamFrame mb).2.1 = some f →
          f.offset = s.m_write_offset)
    ∧ (∀ rf rest, s.m_retransmission_queue = rf :: rest →
        ∀ f, (s.popNewOrRetransmissitedStreamFrame mb).2.1 = some f →
          f.offset = rf.offset) := by
  unfold QuicSndStream.popNewOrRetransmissitedStreamFrame
  by_cases h1 : (s.m_canceled_write || s.m_shutdown) = true
  · rw [if_pos h1]
    refine ⟨le_refl _, ?_, ?_⟩
    · intro _ f hf; cases hf
    · intro rf rest _ f hf; cases hf
  · rw [if_neg h1]
    rcases hq : s.m_retransmission_queue with _ | ⟨rf, rest⟩
    · have hlen : ¬ (([] : List SStreamFrame).length > 0) := by simp
      rw [if_neg hlen]
      by_cases h2 : (s.m_data_for_writing.isNone && s.m_next_frame.isNone) = true
      · rw [if_pos h2]
        by_cases h3 : (s.m_finished_writing && !s.m_fin_sent) = true
        · rw [if_pos h3]
          refine ⟨le_refl _, ?_, ?_⟩
          · intro _ f hf
            cases hf
            rfl
          · intro rf rest hrr
            cases hrr
        · rw [if_neg h3]
          refine ⟨le_refl _, ?_, ?_⟩
          · intro _ f hf; cases hf
          · intro rf rest hrr; cases hrr
      · rw [if_neg h2]
        by_cases h4 : s.m_flow_controller.sendWinSize = 0
        · rw [if_pos h4]
          by_cases h5 : (s.m_flow_controller.isNewlyBlocked).1 ≠ 0
          · rw [if_pos h5]
            refine ⟨le_refl _, ?_, ?_⟩
            · intro _ f hf; cases hf
            · intro rf rest hrr; cases hrr
          · rw [if_neg h5]
            refine ⟨le_refl _, ?_, ?_⟩
            · intro _ f hf; cases hf
            · intro rf rest hrr; cases hrr
        · rw [if_neg h4]
          obtain ⟨p1, p2⟩ :=
            popNewStreamFrame_offsets s mb s.m_flow_controller.sendWinSize hnext
          rcases hro : s.popNewStreamFrame mb s.m_flow_controller.sendWinSize
            with ⟨s1, fo, more⟩
          rw [hro] at p1 p2
          simp only at p1 p2
          rcases fo with _ | f
          · by_cases h6 : (s1.m_finished_writing && s1.m_data_for_writing.isNone
                && s1.m_next_frame.isNone && !s1.m_fin_sent) = true
            · rw [if_pos h6]
              refine ⟨by rw [p2], ?_, ?_⟩
              · intro _ f hf; cases hf
              · intro rf rest hrr; cases hrr
            · rw [if_neg h6]
              refine ⟨by rw [p2], ?_, ?_⟩
              · intro _ f hf; cases hf
              · intro rf rest hrr; cases hrr
          · have hfo : f.offset = s.m_write_offset := p1 f rfl
            rcases hfd : f.data with _ | d
            · simp only [hfd]
              by_cases h6 : (s1.m_finished_writing && s1.m_data_for_writing.isNone
                  && s1.m_next_frame.isNone && !s1.m_fin_sent) = true
              · rw [if_pos h6]
                refine ⟨by rw [p2], ?_, ?_⟩
                · intro _ g hg
                  cases hg
                  exact hfo
                · intro rf rest hrr; cases hrr
              · rw [if_neg h6]
                refine ⟨by rw [p2], ?_, ?_⟩
                · intro _ g hg
                  cases hg
                  exact hfo
                · intro rf rest hrr; cases hrr
            · simp only [hfd]
              by_cases h7 : d.length > 0
              · rw [if_pos h7]
                by_cases h6 : (s1.m_finished_writing && s1.m_data_for_writing.isNone
                    && s1.m_next_frame.isNone && !s1.m_fin_sent) = true
                · rw [if_pos h6]
                  refine ⟨?_, ?_, ?_⟩
                  · show s.m_write_offset ≤ s1.m_write_offset + d.length
                    rw [p2]; omega
                  · intro _ g hg
                    cases hg
                    exact hfo
                  · intro rf rest hrr; cases hrr
                · rw [if_neg h6]
                  refine ⟨?_, ?_, ?_⟩
                  · show s.m_write_offset ≤ s1.m_write_offset + d.length
                    rw [p2]; omega
                  · intro _ g hg
                    cases hg
                    exact hfo
                  · intro rf rest hrr; cases hrr
              · rw [if_neg h7]
                by_cases h6 : (s1.m_finished_writing && s1.m_data_for_writing.isNone
                    && s1.m_next_frame.isNone && !s1.m_fin_sent) = true
                · rw [if_pos h6]
                  refine ⟨by rw [p2], ?_, ?_⟩
                  · intro _ g hg
                    cases hg
                    exact hfo
                  · intro rf rest hrr; cases hrr
                · rw [if_neg h6]
                  refine ⟨by rw [p2], ?_, ?_⟩
                  · intro _ g hg
                    cases hg
                    exact hfo
                  · intro rf rest hrr; cases hrr
    · have hlen : (rf :: rest).length > 0 := by simp
      rw [if_pos hlen]
      obtain ⟨m1, m2⟩ := maybeGetRetransmission_offsets s mb rf rest hq
      rcases hro : s.maybeGetRetransmission mb with ⟨s1, fo, more⟩
      rw [hro] at m1 m2
      simp only at m1 m2
      rcases fo with _ | f
      · refine ⟨by rw [m2], ?_, ?_⟩
        · intro he
          cases he
        · intro rf2 rest2 hrr f hf
          cases hf
      · refine ⟨by rw [m2], ?_, ?_⟩
        · intro he
          cases he
        · intro rf2 rest2 hrr g hg
          cases hg
          cases hrr
          exact m1 f rfl

end Quic
end AgentLink

namespace AgentLink
namespace Quic

/-- C9, corrected: `popStreamFrame` keeps `m_write_offset` non-decreasing
and sends NEW data exactly at `m_write_offset` (assuming the buffered
`m_next_frame`, when present, sits at the write offset — the invariant the
code maintains); but a frame served from the retransmission queue keeps
the ORIGINAL frame's offset, so across retransmissions the emitted offsets
are not monotone (`C9_retransmission_revisits_offset`); what is preserved
is the retransmitted range. -/
theorem C9_pop_stream_frame_offsets (s : QuicSndStream) (mb : Nat)
    (hnext : ∀ nf, s.m_next_frame = some nf → nf.offset = s.m_write_offset) :
    s.m_write_offset ≤ (s.popStreamFrame mb).1.m_write_offset
    ∧ (s.m_retransmission_queue = [] →
        ∀ f, (s.popStreamFrame mb).2.1 = some f → f.offset = s.m_write_offset)
    ∧ (∀ rf rest, s.m_retransmission_queue = rf :: rest →
        ∀ f, (s.popStreamFrame mb).2.1 = some f → f.offset = rf.offset) := by
  obtain ⟨c1, c2, c3⟩ := popNewOrRetrans_offsets s mb hnext
  unfold QuicSndStream.popStreamFrame
  rcases hro : s.popNewOrRetransmissitedStreamFrame mb with ⟨s1, fo, more⟩
  rw [hro] at c1 c2 c3
  simp only at c1 c2 c3
  rcases fo with _ | f
  · refine ⟨c1, ?_, ?_⟩
    · intro _ f hf
      cases hf
    · intro rf rest _ f hf
      cases hf
  · refine ⟨c1, ?_, ?_⟩
    · intro he g hg
      cases hg
      exact c2 he f rfl
    · intro rf rest hrr g hg
      cases hg
      exact c3 rf rest hrr f rfl

def C9wstate : QuicSndStream :=
  ⟨0, 10, none, none, [⟨0, 5, some [1, 2, 3], false⟩], false, false, false,
   false, 0, ⟨10000, 0, 0⟩, []⟩

/-- Witness for C9 at a stream with one retransmission queued. -/
theorem C9_pop_stream_frame_offsets_witness :
    C9wstate.m_write_offset ≤ (C9wstate.popStreamFrame 1200).1.m_write_offset :=
  (C9_pop_stream_frame_offsets C9wstate 1200 (fun _ h => Option.noConfusion h)).1

def C9s0 : QuicSndStream :=
  ⟨0, 0, some (List.range 10), none, [], false, false, false, false, 0,
   ⟨10000, 0, 0⟩, []⟩
def C9r1 : QuicSndStream × Option SStreamFrame × Bool := C9s0.popStreamFrame 1200
def C9r2 : QuicSndStream × Option SStreamFrame × Bool :=
  ({ C9r1.1 with m_data_for_writing := some (List.range 10) }).popStreamFrame 1200
def C9r3 : QuicSndStream × Option SStreamFrame × Bool :=
  (C9r2.1.queueRetransmission (C9r1.2.1.getD ⟨0, 0, none, false⟩)).popStreamFrame 1200

/-- C9, counterexample: write 10 bytes, pop a frame at offset 0; write 10
more, pop a frame at offset 10; the first frame is lost and re-queued via
`queueRetransmission`; the next pop returns offset 0 again — the emitted
offsets `0, 10, 0` are not monotonically non-decreasing. -/
theorem C9_retransmission_revisits_offset :
    C9r1.2.1.map (fun f => f.offset) = some 0
    ∧ C9r2.2.1.map (fun f => f.offset) = some 10
    ∧ C9r3.2.1.map (fun f => f.offset) = some 0
    ∧ ¬ (10 : Nat) ≤ 0 := by
  refine ⟨by decide, by decide, by decide, by decide⟩

end Quic
end AgentLink

namespace AgentLink
namespace Quic

/-- `QuicFrame::size` — each frame class computes its serialized length
arithmetically; modelled as the length of `writeTo`'s output. -/
def Frame.size (f : Frame) : Nat := (Frame.writeTo f).length

/-- `ReceivedPacketHistory::getAckRanges` (`quic_packet_sorter.cc:163-176`):
the received intervals as ACK ranges in descending order. -/
def ReceivedPacketHistory.getAckRanges (h : ReceivedPacketHistory) : List AckRange :=
  h.m_ranges.reverse.map (fun i => ⟨i.m_start, i.m_end⟩)

/-- `ReceivedPacketTracker::getAckFrame` (`quic_packet_sorter.cc:433-470`). -/
def ReceivedPacketTracker.getAckFrame (t : ReceivedPacketTracker)
    (only_if_queued : Bool) (now : Nat) :
    Option AckFrame × ReceivedPacketTracker :=
  if !t.m_has_new_ack then (none, t)
  else if only_if_queued
      && (!t.m_ack_queued && (t.m_ack_alarm == 0 || decide (t.m_ack_alarm > now))) then
    (none, t)
  else
    let delay := if now < t.m_largest_observed_received_time then 0
      else now - t.m_largest_observed_received_time
    let f : AckFrame := ⟨t.m_packet_history.getAckRanges, delay, false, none⟩
    (some f, { t with
      m_last_ack := some f,
      m_ack_alarm := 0,
      m_ack_queued := false,
      m_has_new_ack := false,
      m_ack_eliciting_packets_received_since_last_ack := 0 })

/-- The slice of `QuicSession` state that drives `composeNextPacket`:
the control-frame queue (`queueControlFrame` push_back), the
retransmission queue's app-data list, the active-stream queue and set,
the send streams, and the received-packet tracker. -/
structure QuicSessionS where
  m_control_frames : List Frame
  m_retrans_app_data : List Frame
  m_stream_queue : List Nat
  m_active_streams : List Nat
  m_streams : List (Nat × QuicSndStream)
  m_received_packet_handler : ReceivedPacketTracker
deriving DecidableEq, Repr

/-- `QuicPacketPayload`. -/
structure QuicPacketPayload where
  ack : Option AckFrame
  frames : List Frame
  length : Nat
deriving DecidableEq, Repr

def listErase (l : List Nat) (x : Nat) : List Nat := l.filter (fun e => e != x)

def streamsLookup (m : List (Nat × QuicSndStream)) (id : Nat) :
    Option QuicSndStream :=
  (m.find? (fun e => e.1 == id)).map (fun e => e.2)

def streamsUpdate (m : List (Nat × QuicSndStream)) (id : Nat)
    (st : QuicSndStream) : List (Nat × QuicSndStream) :=
  m.map (fun e => if e.1 == id then (id, st) else e)

/-- A stream-layer frame as the codec sees it (offset and length fields
present). -/
def sFrameToFrame (f : SStreamFrame) : Frame :=
  Frame.stream ⟨f.stream_id, f.offset, f.data.getD [], f.has_fin, true, true⟩

/-- The reverse-iterator loop of `QuicSession::appendControlFrames`
(`quic_session.cc:634-644`), acting on the REVERSED control queue: take
frames while they fit, removing them from the queue. -/
def appendControlGo (mps : Nat) : List Frame → Nat → List Frame × List Frame × Nat
  | [], plen => ([], [], plen)
  | f :: rest, plen =>
      let flen := Frame.size f
      if plen + flen > mps then ([], f :: rest, plen)
      else
        let r := appendControlGo mps rest (plen + flen)
        (f :: r.1, r.2.1, r.2.2)

/-- `QuicSession::appendControlFrames` (`quic_session.cc:627-646`): walks
`m_control_frames` with reverse iterators, so the appended frames come out
newest-first (LIFO), not in queue order. -/
def QuicSessionS.appendControlFrames (s : QuicSessionS) (mps : Nat) :
    QuicSessionS × List Frame × Nat :=
  if s.m_control_frames.length = 0 then (s, [], 0)
  else
    let r := appendControlGo mps s.m_control_frames.reverse 0
    ({ s with m_control_frames := r.2.1.reverse }, r.1, r.2.2)

/-- The `while` of `QuicSession::popStreamFrames` (`quic_session.cc:758-790`):
round-robin over the swapped-out stream queue; a stream with more data is
pushed back to the tail of the live queue, a drained stream is removed
from the active set.  Note the loop subtracts the accumulated
`payload_len` (not the frame size) from `remain_size`. -/
def popStreamFramesGo : List Nat → QuicSessionS → List Frame → Nat → Int →
    QuicSessionS × List Frame × Nat
  | [], s, acc, plen, _ => (s, acc, plen)
  | id :: q, s, acc, plen, remain =>
      if remain ≤ 0 then (s, acc, plen)
      else
        match streamsLookup s.m_streams id with
        | none =>
            popStreamFramesGo q
              { s with m_active_streams := listErase s.m_active_streams id }
              acc plen remain
        | some st =>
            let r := st.popStreamFrame remain.toNat
            let s1 := { s with m_streams := streamsUpdate s.m_streams id r.1 }
            let s2 := if r.2.2 then
                { s1 with m_stream_queue := s1.m_stream_queue ++ [id] }
              else { s1 with m_active_streams := listErase s1.m_active_streams id }
            match r.2.1 with
            | none => popStreamFramesGo q s2 acc plen remain
            | some f =>
                let plen2 := plen + SStreamFrame.size f
                popStreamFramesGo q s2 (acc ++ [sFrameToFrame f]) plen2
                  (remain - Int.ofNat plen2)

/-- `QuicSession::popStreamFrames` (`quic_session.cc:744-792`): the live
queue is swapped out before the loop (ids left unprocessed are dropped
from the queue). -/
def QuicSessionS.popStreamFrames (s : QuicSessionS) (mps : Nat) :
    QuicSessionS × List Frame × Nat :=
  let queue := s.m_stream_queue
  let s0 := { s with m_stream_queue := [] }
  popStreamFramesGo queue s0 [] 0 (Int.ofNat mps)

/-- The retransmission loop of `composeNextPacket`
(`quic_session.cc:700-720`): pop app-data frames that fit while at least
128 bytes remain. -/
def retransGo (mps : Nat) : List Frame → List Frame → Nat →
    List Frame × List Frame × Nat
  | [], acc, plen => ([], acc, plen)
  | f :: rest, acc, plen =>
      if (mps + W64 - plen % W64) % W64 < 128 then (f :: rest, acc, plen)
      else if Frame.size f > (mps + W64 - plen % W64) % W64 then (f :: rest, acc, plen)
      else retransGo mps rest (acc ++ [f]) (plen + Frame.size f)

/-- The tail of `QuicSession::composeNextPacket` after the ACK slot has
been filled (`quic_session.cc:697-735`): retransmission loop, then
`appendControlFrames`, then `popStreamFrames`, each over the remaining
space `max_payload_size - payload->length` (uint64 wrap). -/
def QuicSessionS.composeAfterAck (s1 : QuicSessionS) (max_payload_size : Nat)
    (ack : Option AckFrame) (len0 : Nat) : QuicSessionS × QuicPacketPayload :=
  let has_retrans := s1.m_retrans_app_data.length > 0
  let rr := if has_retrans then retransGo max_payload_size s1.m_retrans_app_data [] len0
    else (s1.m_retrans_app_data, [], len0)
  let s2 := { s1 with m_retrans_app_data := rr.1 }
  let cr := s2.appendControlFrames ((max_payload_size + W64 - rr.2.2 % W64) % W64)
  let s3 := cr.1
  let len2 := rr.2.2 + cr.2.2
  let sr := s3.popStreamFrames ((max_payload_size + W64 - len2 % W64) % W64)
  (sr.1, { ack := ack, frames := rr.2.1 ++ cr.2.1 ++ sr.2.1, length := len2 + sr.2.2 })

/-- `QuicSession::composeNextPacket` (`quic_session.cc:664-735`): ACK
slot first (when allowed), then retransmission frames, then control
frames, then stream frames. -/
def QuicSessionS.composeNextPacket (s : QuicSessionS) (max_payload_size : Nat)
    (ack_allow : Bool) (now : Nat) : QuicSessionS × QuicPacketPayload :=
  let has_retrans := s.m_retrans_app_data.length > 0
  let ar : Option AckFrame × ReceivedPacketTracker :=
    if ack_allow then
      let has_data := s.m_control_frames.length > 0 || true
      let get_ack_queue := !decide has_retrans && !has_data
      s.m_received_packet_handler.getAckFrame get_ack_queue now
    else (none, s.m_received_packet_handler)
  let len0 := match ar.1 with
    | some a => (AckFrame.writeTo a).length
    | none => 0
  QuicSessionS.composeAfterAck { s with m_received_packet_handler := ar.2 }
    max_payload_size ar.1 len0

end Quic
end AgentLink

namespace AgentLink
namespace Quic

/-- The frames appended by the retransmission loop form a prefix of the
app-data queue, and the queue keeps the rest. -/
lemma retransGo_spec (mps : Nat) (l : List Frame) :
    ∀ (acc : List Frame) (plen : Nat),
    ∃ j, (retransGo mps l acc plen).2.1 = acc ++ l.take j
      ∧ (retransGo mps l acc plen).1 = l.drop j := by
  induction l with
  | nil =>
    intro acc plen
    refine ⟨0, ?_, ?_⟩ <;> simp [retransGo]
  | cons f rest ih =>
    intro acc plen
    by_cases h1 : (mps + W64 - plen % W64) % W64 < 128
    · refine ⟨0, ?_, ?_⟩ <;> simp [retransGo, h1]
    · by_cases h2 : Frame.size f > (mps + W64 - plen % W64) % W64
      · refine ⟨0, ?_, ?_⟩ <;> simp [retransGo, h1, h2]
      · obtain ⟨j, hj1, hj2⟩ := ih (acc ++ [f]) (plen + Frame.size f)
        refine ⟨j + 1, ?_, ?_⟩
        · simp only [retransGo, if_neg h1, if_neg h2, hj1, List.take_succ_cons]
          simp
        · simp only [retransGo, if_neg h1, if_neg h2, hj2, List.drop_succ_cons]

/-- `appendControlGo` splits its input: appended frames followed by the
surviving queue reassemble the walked list. -/
lemma appendControlGo_concat (mps : Nat) (l : List Frame) :
    ∀ plen, (appendControlGo mps l plen).1 ++ (appendControlGo mps l plen).2.1 = l := by
  induction l with
  | nil => intro plen; simp [appendControlGo]
  | cons f rest ih =>
    intro plen
    by_cases h : plen + Frame.size f > mps
    · simp [appendControlGo, h]
    · simp only [appendControlGo, if_neg h, List.cons_append, ih]

/-- A concatenation decomposition read as take/drop at the split point. -/
lemma concat_take_drop {a b l : List Frame} (h : a ++ b = l) :
    l.take a.length = a ∧ l.drop a.length = b := by
  subst h
  constructor
  · simp
  · simp

/-- `appendControlFrames` takes a prefix of the REVERSED control queue
and leaves the corresponding suffix (as the prefix of the original
queue); the other session fields are untouched. -/
lemma appendControlFrames_spec (s : QuicSessionS) (mps : Nat) :
    ∃ k, (s.appendControlFrames mps).2.1 = s.m_control_frames.reverse.take k
      ∧ (s.appendControlFrames mps).1.m_control_frames
          = (s.m_control_frames.reverse.drop k).reverse
      ∧ (s.appendControlFrames mps).1.m_retrans_app_data = s.m_retrans_app_data
      ∧ (s.appendControlFrames mps).1.m_stream_queue = s.m_stream_queue
      ∧ (s.appendControlFrames mps).1.m_active_streams = s.m_active_streams
      ∧ (s.appendControlFrames mps).1.m_streams = s.m_streams := by
  by_cases h : s.m_control_frames.length = 0
  · have hnil : s.m_control_frames = [] := List.length_eq_zero.mp h
    refine ⟨0, ?_, ?_, ?_, ?_, ?_, ?_⟩ <;>
      simp [QuicSessionS.appendControlFrames, h, hnil]
  · have hcat := appendControlGo_concat mps s.m_control_frames.reverse 0
    have hpt := concat_take_drop hcat
    refine ⟨(appendControlGo mps s.m_control_frames.reverse 0).1.length,
      ?_, ?_, ?_, ?_, ?_, ?_⟩
    · have h1 : (s.appendControlFrames mps).2.1
          = (appendControlGo mps s.m_control_frames.reverse 0).1 := by
        simp [QuicSessionS.appendControlFrames, h]
      rw [h1]
      exact hpt.1.symm
    · have h1 : (s.appendControlFrames mps).1.m_control_frames
          = (appendControlGo mps s.m_control_frames.reverse 0).2.1.reverse := by
        simp [QuicSessionS.appendControlFrames, h]
      rw [h1, hpt.2]
    · simp [QuicSessionS.appendControlFrames, h]
    · simp [QuicSessionS.appendControlFrames, h]
    · simp [QuicSessionS.appendControlFrames, h]
    · simp [QuicSessionS.appendControlFrames, h]

/-- Step of the stream round-robin when the id no longer names a live
stream: it is dropped from the active set. -/
lemma pop_go_none {id : Nat} {q : List Nat} {s : QuicSessionS} {acc : List Frame}
    {plen : Nat} {remain : Int}
    (hrem : ¬ remain ≤ 0) (hlk : streamsLookup s.m_streams id = none) :
    popStreamFramesGo (id :: q) s acc plen remain
      = popStreamFramesGo q
          { s with m_active_streams := listErase s.m_active_streams id }
          acc plen remain := by
  simp only [popStreamFramesGo, if_neg hrem, hlk]

/-- Step of the stream round-robin on a live stream: its `popStreamFrame`
result is recorded, the id is rotated to the queue tail when the stream
has more data and removed from the active set otherwise, and any
produced frame is appended. -/
lemma pop_go_step {id : Nat} {q : List Nat} {s : QuicSessionS} {acc : List Frame}
    {plen : Nat} {remain : Int} {st s1 : QuicSndStream}
    {fo : Option SStreamFrame} {more : Bool}
    (hrem : ¬ remain ≤ 0) (hlk : streamsLookup s.m_streams id = some st)
    (hpop : st.popStreamFrame remain.toNat = (s1, fo, more)) :
    popStreamFramesGo (id :: q) s acc plen remain
      = popStreamFramesGo q
          { s with
            m_streams := streamsUpdate s.m_streams id s1,
            m_stream_queue :=
              if more then s.m_stream_queue ++ [id] else s.m_stream_queue,
            m_active_streams :=
              if more then s.m_active_streams
              else listErase s.m_active_streams id }
          (fo.elim acc (fun f => acc ++ [sFrameToFrame f]))
          (fo.elim plen (fun f => plen + SStreamFrame.size f))
          (fo.elim remain
            (fun f => remain - Int.ofNat (plen + SStreamFrame.size f))) := by
  simp only [popStreamFramesGo, if_neg hrem, hlk, hpop]
  cases more <;> cases fo <;> rfl

/-- The round-robin loop never touches the control-frame queue, the
retransmission queue, or the tracker. -/
lemma pop_go_preserve (q : List Nat) :
    ∀ (s : QuicSessionS) (acc : List Frame) (plen : Nat) (remain : Int),
    (popStreamFramesGo q s acc plen remain).1.m_control_frames = s.m_control_frames
    ∧ (popStreamFramesGo q s acc plen remain).1.m_retrans_app_data
        = s.m_retrans_app_data := by
  induction q with
  | nil => intro s acc plen remain; exact ⟨rfl, rfl⟩
  | cons id q ih =>
    intro s acc plen remain
    by_cases hrem : remain ≤ 0
    · simp [popStreamFramesGo, hrem]
    · rcases hlk : streamsLookup s.m_streams id with _ | st
      · rw [pop_go_none hrem hlk]
        exact ih _ _ _ _
      · rcases hpop : st.popStreamFrame remain.toNat with ⟨s1, fo, more⟩
        rw [pop_go_step hrem hlk hpop]
        exact ih _ _ _ _

/-- Every frame the round-robin loop appends beyond its accumulator is a
stream frame. -/
lemma pop_go_frames (q : List Nat) :
    ∀ (s : QuicSessionS) (acc : List Frame) (plen : Nat) (remain : Int),
    ∀ f ∈ (popStreamFramesGo q s acc plen remain).2.1,
      f ∈ acc ∨ ∃ sf, f = sFrameToFrame sf := by
  induction q with
  | nil =>
    intro s acc plen remain f hf
    exact Or.inl hf
  | cons id q ih =>
    intro s acc plen remain f hf
    by_cases hrem : remain ≤ 0
    · simp only [popStreamFramesGo, if_pos hrem] at hf
      exact Or.inl hf
    · rcases hlk : streamsLookup s.m_streams id with _ | st
      · rw [pop_go_none hrem hlk] at hf
        exact ih _ _ _ _ f hf
      · rcases hpop : st.popStreamFrame remain.toNat with ⟨s1, fo, more⟩
        rw [pop_go_step hrem hlk hpop] at hf
        cases fo with
        | none =>
          simp only [Option.elim] at hf
          exact ih _ _ _ _ f hf
        | some f0 =>
          simp only [Option.elim] at hf
          rcases ih _ _ _ _ f hf with h | h
          · rcases List.mem_append.mp h with h' | h'
            · exact Or.inl h'
            · exact Or.inr ⟨f0, List.mem_singleton.mp h'⟩
          · exact Or.inr h

/-- `popStreamFrames` produces only stream frames and leaves the control
and retransmission queues alone. -/
lemma popStreamFrames_spec (s : QuicSessionS) (mps : Nat) :
    (∀ f ∈ (s.popStreamFrames mps).2.1, ∃ sf, f = sFrameToFrame sf)
    ∧ (s.popStreamFrames mps).1.m_control_frames = s.m_control_frames
    ∧ (s.popStreamFrames mps).1.m_retrans_app_data = s.m_retrans_app_data := by
  refine ⟨?_, ?_, ?_⟩
  · intro f hf
    simp only [QuicSessionS.popStreamFrames] at hf
    rcases pop_go_frames _ _ _ _ _ f hf with h | h
    · exact absurd h (List.not_mem_nil f)
    · exact h
  · simp only [QuicSessionS.popStreamFrames]
    exact (pop_go_preserve _ _ _ _ _).1
  · simp only [QuicSessionS.popStreamFrames]
    exact (pop_go_preserve _ _ _ _ _).2

end Quic
end AgentLink

namespace AgentLink
namespace Quic

/-- Decomposition of the post-ACK pipeline: retransmission prefix, then
a prefix of the REVERSED control queue, then stream frames; the queues
keep exactly the rest. -/
lemma composeAfterAck_spec (s1 : QuicSessionS) (mps : Nat) (ack : Option AckFrame)
    (len0 : Nat) :
    ∃ j k T,
      (QuicSessionS.composeAfterAck s1 mps ack len0).2.frames
        = s1.m_retrans_app_data.take j ++ s1.m_control_frames.reverse.take k ++ T
      ∧ (∀ f ∈ T, ∃ sf, f = sFrameToFrame sf)
      ∧ (QuicSessionS.composeAfterAck s1 mps ack len0).1.m_retrans_app_data
          = s1.m_retrans_app_data.drop j
      ∧ (QuicSessionS.composeAfterAck s1 mps ack len0).1.m_control_frames
          = (s1.m_control_frames.reverse.drop k).reverse := by
  by_cases hr : s1.m_retrans_app_data.length > 0
  · obtain ⟨j, hj1, hj2⟩ := retransGo_spec mps s1.m_retrans_app_data [] len0
    simp only [List.nil_append] at hj1
    simp only [QuicSessionS.composeAfterAck]
    rw [if_pos hr]
    rcases hrr : retransGo mps s1.m_retrans_app_data [] len0 with ⟨rq, rfr, rlen⟩
    rw [hrr] at hj1 hj2
    dsimp only at hj1 hj2 ⊢
    obtain ⟨k, hk1, hk2, hk3, _, _, _⟩ :=
      appendControlFrames_spec { s1 with m_retrans_app_data := rq }
        ((mps + W64 - rlen % W64) % W64)
    rcases hcr : ({ s1 with m_retrans_app_data := rq } : QuicSessionS).appendControlFrames
        ((mps + W64 - rlen % W64) % W64) with ⟨sc, cfr, clen⟩
    rw [hcr] at hk1 hk2 hk3
    dsimp only at hk1 hk2 hk3 ⊢
    obtain ⟨hp1, hp2, hp3⟩ :=
      popStreamFrames_spec sc ((mps + W64 - (rlen + clen) % W64) % W64)
    rcases hsr : sc.popStreamFrames ((mps + W64 - (rlen + clen) % W64) % W64)
      with ⟨ss, sfr, slen⟩
    rw [hsr] at hp1 hp2 hp3
    dsimp only at hp1 hp2 hp3 ⊢
    refine ⟨j, k, sfr, ?_, hp1, ?_, ?_⟩
    · rw [hj1, hk1]
    · rw [hp3, hk3, hj2]
    · rw [hp2, hk2]
  · simp only [QuicSessionS.composeAfterAck]
    rw [if_neg hr]
    dsimp only
    obtain ⟨k, hk1, hk2, hk3, _, _, _⟩ :=
      appendControlFrames_spec { s1 with m_retrans_app_data := s1.m_retrans_app_data }
        ((mps + W64 - len0 % W64) % W64)
    rcases hcr : ({ s1 with m_retrans_app_data := s1.m_retrans_app_data
        } : QuicSessionS).appendControlFrames ((mps + W64 - len0 % W64) % W64)
      with ⟨sc, cfr, clen⟩
    rw [hcr] at hk1 hk2 hk3
    dsimp only at hk1 hk2 hk3 ⊢
    obtain ⟨hp1, hp2, hp3⟩ :=
      popStreamFrames_spec sc ((mps + W64 - (len0 + clen) % W64) % W64)
    rcases hsr : sc.popStreamFrames ((mps + W64 - (len0 + clen) % W64) % W64)
      with ⟨ss, sfr, slen⟩
    rw [hsr] at hp1 hp2 hp3
    dsimp only at hp1 hp2 hp3 ⊢
    refine ⟨0, k, sfr, ?_, hp1, ?_, ?_⟩
    · rw [hk1]
      simp
    · rw [hp3, hk3]
      simp
    · rw [hp2, hk2]

/-- `composeNextPacket` is the post-ACK pipeline run on a state that
differs only in the tracker. -/
lemma composeNextPacket_eq_afterAck (s : QuicSessionS) (mps : Nat)
    (ack_allow : Bool) (now : Nat) :
    ∃ s1 ack len0,
      s.composeNextPacket mps ack_allow now = QuicSessionS.composeAfterAck s1 mps ack len0
      ∧ s1.m_retrans_app_data = s.m_retrans_app_data
      ∧ s1.m_control_frames = s.m_control_frames :=
  ⟨_, _, _, rfl, rfl, rfl⟩

/-- C6, corrected: `composeNextPacket` assembles the payload as ACK slot
(separate field serialized first), then a prefix of the retransmission
queue, then control frames, then stream frames — but the control frames
come out NEWEST-first (the loop in `appendControlFrames` walks
`m_control_frames` with reverse iterators), not in first-in-first-out
order of `queueControlFrame`.  The stream round-robin does behave as
claimed: a live stream with more data is rotated to the queue tail, a
drained or dead stream is removed from the active set. -/
theorem C6_compose_next_packet_order :
    (∀ (s : QuicSessionS) (mps : Nat) (ack_allow : Bool) (now : Nat),
      ∃ j k T,
        (s.composeNextPacket mps ack_allow now).2.frames
          = s.m_retrans_app_data.take j ++ s.m_control_frames.reverse.take k ++ T
        ∧ (∀ f ∈ T, ∃ sf, f = sFrameToFrame sf)
        ∧ (s.composeNextPacket mps ack_allow now).1.m_retrans_app_data
            = s.m_retrans_app_data.drop j
        ∧ (s.composeNextPacket mps ack_allow now).1.m_control_frames
            = (s.m_control_frames.reverse.drop k).reverse)
    ∧ (∀ (id : Nat) (q : List Nat) (s : QuicSessionS) (acc : List Frame)
        (plen : Nat) (remain : Int) (st s1 : QuicSndStream) (fo : Option SStreamFrame),
        ¬ remain ≤ 0 → streamsLookup s.m_streams id = some st →
        st.popStreamFrame remain.toNat = (s1, fo, true) →
        popStreamFramesGo (id :: q) s acc plen remain
          = popStreamFramesGo q
              { s with
                m_streams := streamsUpdate s.m_streams id s1,
                m_stream_queue := s.m_stream_queue ++ [id] }
              (fo.elim acc (fun f => acc ++ [sFrameToFrame f]))
              (fo.elim plen (fun f => plen + SStreamFrame.size f))
              (fo.elim remain
                (fun f => remain - Int.ofNat (plen + SStreamFrame.size f))))
    ∧ (∀ (id : Nat) (q : List Nat) (s : QuicSessionS) (acc : List Frame)
        (plen : Nat) (remain : Int) (st s1 : QuicSndStream) (fo : Option SStreamFrame),
        ¬ remain ≤ 0 → streamsLookup s.m_streams id = some st →
        st.popStreamFrame remain.toNat = (s1, fo, false) →
        popStreamFramesGo (id :: q) s acc plen remain
          = popStreamFramesGo q
              { s with
                m_streams := streamsUpdate s.m_streams id s1,
                m_active_streams := listErase s.m_active_streams id }
              (fo.elim acc (fun f => acc ++ [sFrameToFrame f]))
              (fo.elim plen (fun f => plen + SStreamFrame.size f))
              (fo.elim remain
                (fun f => remain - Int.ofNat (plen + SStreamFrame.size f)))) := by
  refine ⟨?_, ?_, ?_⟩
  · intro s mps ack_allow now
    obtain ⟨s1, ack, len0, heq, hret, hctl⟩ := composeNextPacket_eq_afterAck s mps ack_allow now
    obtain ⟨j, k, T, h1, h2, h3, h4⟩ := composeAfterAck_spec s1 mps ack len0
    refine ⟨j, k, T, ?_, h2, ?_, ?_⟩
    · rw [heq, h1, hret, hctl]
    · rw [heq, h3, hret]
    · rw [heq, h4, hctl]
  · intro id q s acc plen remain st s1 fo hrem hlk hpop
    rw [pop_go_step hrem hlk hpop]
    rfl
  · intro id q s acc plen remain st s1 fo hrem hlk hpop
    rw [pop_go_step hrem hlk hpop]
    rfl

/-- A session whose only content is two queued control frames. -/
def C6state : QuicSessionS :=
  ⟨[Frame.maxData 1, Frame.maxData 2], [], [], [], [],
    ⟨⟨[], 0⟩, false, 0, 0, none, 0, 0, 0, false⟩⟩

/-- C6 counterexample: `queueControlFrame(MAX_DATA 1)` then
`queueControlFrame(MAX_DATA 2)` — FIFO order would emit `[1, 2]`, but
`composeNextPacket` emits `[2, 1]`. -/
theorem C6_control_frames_not_fifo :
    (C6state.composeNextPacket 1200 true 0).2.frames
      = [Frame.maxData 2, Frame.maxData 1]
    ∧ [Frame.maxData 2, Frame.maxData 1] ≠ [Frame.maxData 1, Frame.maxData 2] := by
  constructor
  · decide
  · decide

end Quic
end AgentLink

namespace AgentLink
namespace Quic

/-- The liveness slice of `QuicSession`: the alive flag checked by the
`run_impl` loop (`while (isAlive())`, `quic_session.cc:982`) plus the
wake-up signals `closeSession` fires. -/
structure QSessionCore where
  m_is_alive : Bool
  write_signals : Nat
  read_signals : Nat
deriving DecidableEq, Repr

/-- `QuicSession::closeSession` (`quic_session.h:310-315`): clears the
alive flag and wakes blocked writers and readers. -/
def QSessionCore.closeSession (s : QSessionCore) : QSessionCore :=
  { s with
    m_is_alive := false,
    write_signals := s.write_signals + 1,
    read_signals := s.read_signals + 1 }

/-- The `CONNECTION_CLOSE` branch of `QuicSession::handleFrame`
(`quic_session.cc:309-321`): after a successful cast, both
`closeRemote()` calls are commented out (`// TODO`), so the branch
changes nothing and the function falls through to `return 0`. -/
def QSessionCore.handleConnectionCloseFrame (s : QSessionCore)
    (f : ConnectionCloseFrame) : QSessionCore × Int :=
  let _ := f.is_application_error
  (s, 0)

/-- One gate of the `run_impl` loop: outbound packets are assembled only
while the alive flag holds. -/
def QSessionCore.runStepAssembles (s : QSessionCore) : Bool :=
  s.m_is_alive

/-- C1, refuted by the code: handling a received CONNECTION_CLOSE frame
does NOT close the session — the branch is a no-op (`closeRemote()` is
commented out), the alive flag keeps its value, no reader or writer is
woken, and the run loop keeps assembling packets; `closeSession`, which
the spec expects to be invoked, would clear the flag. -/
theorem C1_connection_close_is_noop :
    ∀ (s : QSessionCore) (f : ConnectionCloseFrame),
      (s.handleConnectionCloseFrame f).1 = s
      ∧ (s.handleConnectionCloseFrame f).2 = 0
      ∧ ((s.handleConnectionCloseFrame f).1).runStepAssembles = s.m_is_alive
      ∧ (QSessionCore.closeSession s).m_is_alive = false
      ∧ QSessionCore.runStepAssembles (QSessionCore.closeSession s) = false :=
  fun s f => ⟨rfl, rfl, rfl, rfl, rfl⟩

end Quic
end AgentLink

namespace AgentLink
namespace Quic

/-- C5, counterexample: a PADDING frame does not round-trip — its
serialization is the single byte `0x00`, which `parseNext` skips as
padding and then fails on the empty remainder. -/
theorem C5_padding_not_roundtrip :
    (QuicFrameCodec.parseNext (Frame.writeTo Frame.padding)).map Prod.fst
      ≠ some Frame.padding := by
  decide

/-- C5 witness: a concrete well-formed frame round-trips. -/
theorem frame_parse_serialize_roundtrip_witness :
    FrameWF (Frame.maxData 7) = true
    ∧ (QuicFrameCodec.parseNext (Frame.writeTo (Frame.maxData 7) ++ [])).map Prod.fst
        = some (Frame.maxData 7) :=
  ⟨by decide, frame_parse_serialize_roundtrip (Frame.maxData 7) (by decide) []⟩

end Quic
end AgentLink
